import Mathlib

/-!
# Shader resource stores of DiligentCore

A shallow embedding of the packed shader-resource stores
(`Graphics/GLSLTools/include/SPIRVShaderResources.h` and
`Graphics/GraphicsEngineD3DBase/src/ShaderResources.cpp`) together with the
properties of layout, enumeration, compatibility and hashing.

Machine integers are natural numbers with explicit reduction modulo `2 ^ 16`
(`OffsetType`) or `2 ^ 32` (`Uint32`) where the C++ arithmetic can wrap.
Fallible code returns `Except Error _`.
-/

namespace Diligent

/-! ## Failures, assertions and basic types -/

/-- The ways a checked operation of the store can fail. -/
inductive Error
  /-- Failure of `VERIFY(..., "Max offset exceeded")`. -/
  | MaxOffsetExceeded
  /-- Failure of `VERIFY(n < NumResources, "Resource index ... is out of range")`. -/
  | IndexOutOfRange
  /-- Failure of a `VERIFY_EXPR(...)`. -/
  | AssertionFailed
  deriving DecidableEq, Repr

/-- Modelled from the spec: the macros `VERIFY` and `VERIFY_EXPR` (their header
`DebugUtilities.h` is not among the sources). The spec makes a failed check a
hard failure that is surfaced to the caller, so a failed check stops the
operation with the given error. -/
def VERIFY (Expr : Bool) (e : Error) : Except Error Unit :=
  if Expr then pure () else throw e

/-- The width of `Uint32`. -/
abbrev Uint32Size : Nat := 2 ^ 32

/-- The width of `OffsetType = Uint16`. -/
abbrev OffsetTypeSize : Nat := 2 ^ 16

/-- The enumeration `SHADER_VARIABLE_TYPE`, as the integer value of the
enumerator: C++ converts it to `int` in `1 << VarType`. -/
abbrev SHADER_VARIABLE_TYPE := Nat

/-- Modelled from the spec: the enumerators of `SHADER_VARIABLE_TYPE` are
`Static | Mutable | Dynamic` (`Shader.h` is not among the sources). -/
def SHADER_VARIABLE_TYPE_STATIC : SHADER_VARIABLE_TYPE := 0

/-- Modelled from the spec: second enumerator of `SHADER_VARIABLE_TYPE`. -/
def SHADER_VARIABLE_TYPE_MUTABLE : SHADER_VARIABLE_TYPE := 1

/-- Modelled from the spec: third enumerator of `SHADER_VARIABLE_TYPE`. -/
def SHADER_VARIABLE_TYPE_DYNAMIC : SHADER_VARIABLE_TYPE := 2

/-- `IsAllowedType(VarType, AllowedTypeBits)`:
`((1 << VarType) & AllowedTypeBits) != 0` in 32-bit arithmetic. -/
def IsAllowedType (VarType : SHADER_VARIABLE_TYPE) (AllowedTypeBits : Nat) : Bool :=
  (((1 <<< VarType) % Uint32Size) &&& AllowedTypeBits) != 0

/-- `GetAllowedTypeBits(AllowedVarTypes, NumAllowedTypes)`: the pointer and the
length are one optional list, `none` being `nullptr`. -/
def GetAllowedTypeBits (AllowedVarTypes : Option (List SHADER_VARIABLE_TYPE)) : Nat :=
  match AllowedVarTypes with
  | none => 0xFFFFFFFF
  | some l => l.foldl (fun AllowedTypeBits t => AllowedTypeBits ||| ((1 <<< t) % Uint32Size)) 0

/-- One `for (Uint32 n = 0; n < Num; ++n)` loop of `ProcessResources`: read the
descriptor `n` of the category, and call the handler when its variable type is
allowed. The first argument counts the iterations that remain, the second is
the loop variable `n`. -/
def processLoop {α σ : Type} (get : Nat → Except Error α) (allowed : α → Bool)
    (handle : α → Nat → σ → Except Error σ) : Nat → Nat → σ → Except Error σ
  | 0, _, st => pure st
  | k + 1, n, st => do
    let Res ← get n
    let st1 ← if allowed Res then handle Res n st else pure st
    processLoop get allowed handle k (n + 1) st1

/-! ## The SPIR-V descriptor and store -/

/-- `SPIRVShaderResourceAttribs::ResourceType`. -/
inductive ResourceType
  | UniformBuffer
  | StorageBuffer
  | UniformTexelBuffer
  | StorageTexelBuffer
  | StorageImage
  | SampledImage
  | AtomicCounter
  | SeparateImage
  | SeparateSampler
  | NumResourceTypes
  deriving DecidableEq, Repr

/-- `struct SPIRVShaderResourceAttribs`. -/
structure SPIRVShaderResourceAttribs where
  Name : String
  ArraySize : Nat
  /-- The member `Type` (a reserved word here). -/
  Type_ : ResourceType
  VarType : SHADER_VARIABLE_TYPE
  StaticSamplerInd : Int
  BindingDecorationOffset : Nat
  DescriptorSetDecorationOffset : Nat
  deriving DecidableEq, Repr

instance : Inhabited SPIRVShaderResourceAttribs :=
  ⟨⟨"", 0, ResourceType.UniformBuffer, 0, -1, 0, 0⟩⟩

/-- `SPIRVShaderResourceAttribs::IsCompatibleWith`. -/
def SPIRVShaderResourceAttribs.IsCompatibleWith
    (self Attibs : SPIRVShaderResourceAttribs) : Bool :=
  self.ArraySize == Attibs.ArraySize &&
  self.Type_ == Attibs.Type_ &&
  self.VarType == Attibs.VarType &&
  (decide (self.StaticSamplerInd < 0) && decide (Attibs.StaticSamplerInd < 0) ||
    decide (self.StaticSamplerInd ≥ 0) && decide (Attibs.StaticSamplerInd ≥ 0))

/-- `class SPIRVShaderResources`, the data members. The memory buffer is the
descriptor segment followed by the static sampler table; a sampler pointer is
`none` when null. -/
structure SPIRVShaderResources where
  m_MemoryBuffer : List SPIRVShaderResourceAttribs
  m_StaticSamplers : List (Option Nat)
  m_StorageBufferOffset : Nat
  m_StorageImageOffset : Nat
  m_SampledImageOffset : Nat
  m_AtomicCounterOffset : Nat
  m_SeparateImageOffset : Nat
  m_SeparateSamplerOffset : Nat
  m_TotalResources : Nat
  m_NumStaticSamplers : Nat
  deriving DecidableEq, Repr

namespace SPIRVShaderResources

/-- The difference of two `OffsetType` members returned as `Uint32`. -/
def offsetDiff (hi lo : Nat) : Nat := (hi + Uint32Size - lo) % Uint32Size

/-- `GetNumUBs`. -/
def GetNumUBs (S : SPIRVShaderResources) : Nat := offsetDiff S.m_StorageBufferOffset 0
/-- `GetNumSBs`. -/
def GetNumSBs (S : SPIRVShaderResources) : Nat :=
  offsetDiff S.m_StorageImageOffset S.m_StorageBufferOffset
/-- `GetNumImgs`. -/
def GetNumImgs (S : SPIRVShaderResources) : Nat :=
  offsetDiff S.m_SampledImageOffset S.m_StorageImageOffset
/-- `GetNumSmplImgs`. -/
def GetNumSmplImgs (S : SPIRVShaderResources) : Nat :=
  offsetDiff S.m_AtomicCounterOffset S.m_SampledImageOffset
/-- `GetNumACs`. -/
def GetNumACs (S : SPIRVShaderResources) : Nat :=
  offsetDiff S.m_SeparateImageOffset S.m_AtomicCounterOffset
/-- `GetNumSepImgs`. -/
def GetNumSepImgs (S : SPIRVShaderResources) : Nat :=
  offsetDiff S.m_SeparateSamplerOffset S.m_SeparateImageOffset
/-- `GetNumSepSmpls`. -/
def GetNumSepSmpls (S : SPIRVShaderResources) : Nat :=
  offsetDiff S.m_TotalResources S.m_SeparateSamplerOffset
/-- `GetTotalResources`. -/
def GetTotalResources (S : SPIRVShaderResources) : Nat := S.m_TotalResources
/-- `GetNumStaticSamplers`. -/
def GetNumStaticSamplers (S : SPIRVShaderResources) : Nat := S.m_NumStaticSamplers

/-- `GetResAttribs(n, NumResources, Offset)` with its two checks; reading past
the allocated descriptors is reported as an out-of-range index as well. -/
def GetResAttribs (S : SPIRVShaderResources) (n NumResources Offset : Nat) :
    Except Error SPIRVShaderResourceAttribs := do
  VERIFY (decide (n < NumResources)) Error.IndexOutOfRange
  VERIFY (decide (Offset + n < S.m_TotalResources)) Error.AssertionFailed
  match S.m_MemoryBuffer[Offset + n]? with
  | some r => pure r
  | none => throw Error.IndexOutOfRange

/-- `GetUB`. -/
def GetUB (S : SPIRVShaderResources) (n : Nat) := S.GetResAttribs n S.GetNumUBs 0
/-- `GetSB`. -/
def GetSB (S : SPIRVShaderResources) (n : Nat) :=
  S.GetResAttribs n S.GetNumSBs S.m_StorageBufferOffset
/-- `GetImg`. -/
def GetImg (S : SPIRVShaderResources) (n : Nat) :=
  S.GetResAttribs n S.GetNumImgs S.m_StorageImageOffset
/-- `GetSmplImg`. -/
def GetSmplImg (S : SPIRVShaderResources) (n : Nat) :=
  S.GetResAttribs n S.GetNumSmplImgs S.m_SampledImageOffset
/-- `GetAC`. -/
def GetAC (S : SPIRVShaderResources) (n : Nat) :=
  S.GetResAttribs n S.GetNumACs S.m_AtomicCounterOffset
/-- `GetSepImg`. -/
def GetSepImg (S : SPIRVShaderResources) (n : Nat) :=
  S.GetResAttribs n S.GetNumSepImgs S.m_SeparateImageOffset
/-- `GetSepSmpl`. -/
def GetSepSmpl (S : SPIRVShaderResources) (n : Nat) :=
  S.GetResAttribs n S.GetNumSepSmpls S.m_SeparateSamplerOffset
/-- `GetResource`. -/
def GetResource (S : SPIRVShaderResources) (n : Nat) :=
  S.GetResAttribs n S.GetTotalResources 0

/-- `ProcessResources` with one handler per category. A handler is a state
transformer that may fail; the state stands for what the C++ closure captures
by reference. -/
def ProcessResources {σ : Type} (S : SPIRVShaderResources)
    (AllowedVarTypes : Option (List SHADER_VARIABLE_TYPE))
    (HandleUB HandleSB HandleImg HandleSmplImg HandleAC HandleSepImg HandleSepSmpl :
      SPIRVShaderResourceAttribs → Nat → σ → Except Error σ)
    (st : σ) : Except Error σ := do
  let AllowedTypeBits := GetAllowedTypeBits AllowedVarTypes
  let allowed := fun (r : SPIRVShaderResourceAttribs) => IsAllowedType r.VarType AllowedTypeBits
  let st ← processLoop S.GetUB allowed HandleUB S.GetNumUBs 0 st
  let st ← processLoop S.GetSB allowed HandleSB S.GetNumSBs 0 st
  let st ← processLoop S.GetImg allowed HandleImg S.GetNumImgs 0 st
  let st ← processLoop S.GetSmplImg allowed HandleSmplImg S.GetNumSmplImgs 0 st
  let st ← processLoop S.GetAC allowed HandleAC S.GetNumACs 0 st
  let st ← processLoop S.GetSepImg allowed HandleSepImg S.GetNumSepImgs 0 st
  processLoop S.GetSepSmpl allowed HandleSepSmpl S.GetNumSepSmpls 0 st

end SPIRVShaderResources

/-! ### Categories, invariant and specified visits of the SPIR-V store -/

namespace SPIRVShaderResources

/-- The seven categories of the store, in the order of the memory layout. -/
inductive Category
  | UB
  | SB
  | Img
  | SmplImg
  | AC
  | SepImg
  | SepSmpl
  deriving DecidableEq, Repr

/-- The categories in the order of the memory layout. -/
def Category.all : List Category :=
  [Category.UB, Category.SB, Category.Img, Category.SmplImg, Category.AC, Category.SepImg,
    Category.SepSmpl]

/-- The position of a category in the memory layout. -/
def Category.index : Category → Nat
  | Category.UB => 0
  | Category.SB => 1
  | Category.Img => 2
  | Category.SmplImg => 3
  | Category.AC => 4
  | Category.SepImg => 5
  | Category.SepSmpl => 6

/-- The stored start offset of a category (`0` for uniform buffers). -/
def offsetOf (S : SPIRVShaderResources) : Category → Nat
  | Category.UB => 0
  | Category.SB => S.m_StorageBufferOffset
  | Category.Img => S.m_StorageImageOffset
  | Category.SmplImg => S.m_SampledImageOffset
  | Category.AC => S.m_AtomicCounterOffset
  | Category.SepImg => S.m_SeparateImageOffset
  | Category.SepSmpl => S.m_SeparateSamplerOffset

/-- The count accessor of a category. -/
def GetNum (S : SPIRVShaderResources) : Category → Nat
  | Category.UB => S.GetNumUBs
  | Category.SB => S.GetNumSBs
  | Category.Img => S.GetNumImgs
  | Category.SmplImg => S.GetNumSmplImgs
  | Category.AC => S.GetNumACs
  | Category.SepImg => S.GetNumSepImgs
  | Category.SepSmpl => S.GetNumSepSmpls

/-- The descriptor accessor of a category. -/
def Get (S : SPIRVShaderResources) : Category → Nat → Except Error SPIRVShaderResourceAttribs
  | Category.UB => S.GetUB
  | Category.SB => S.GetSB
  | Category.Img => S.GetImg
  | Category.SmplImg => S.GetSmplImg
  | Category.AC => S.GetAC
  | Category.SepImg => S.GetSepImg
  | Category.SepSmpl => S.GetSepSmpl

/-- The descriptor stored at index `n` of a category. -/
def resourceAt (S : SPIRVShaderResources) (c : Category) (n : Nat) :
    SPIRVShaderResourceAttribs :=
  S.m_MemoryBuffer.getD (S.offsetOf c + n) default

/-- The invariant of a constructed store: the offsets do not decrease, the
total fits `OffsetType`, and the buffer holds `m_TotalResources` descriptors. -/
def Valid (S : SPIRVShaderResources) : Prop :=
  S.m_StorageBufferOffset ≤ S.m_StorageImageOffset ∧
  S.m_StorageImageOffset ≤ S.m_SampledImageOffset ∧
  S.m_SampledImageOffset ≤ S.m_AtomicCounterOffset ∧
  S.m_AtomicCounterOffset ≤ S.m_SeparateImageOffset ∧
  S.m_SeparateImageOffset ≤ S.m_SeparateSamplerOffset ∧
  S.m_SeparateSamplerOffset ≤ S.m_TotalResources ∧
  S.m_TotalResources < OffsetTypeSize ∧
  S.m_MemoryBuffer.length = S.m_TotalResources

instance (S : SPIRVShaderResources) : Decidable S.Valid := by
  unfold Valid; infer_instance

/-- The visits that the enumeration is specified to make under a mask: for
every category in layout order, the indices below its count, increasing, whose
descriptor has an allowed variable type. -/
def visits (S : SPIRVShaderResources) (AllowedTypeBits : Nat) : List (Category × Nat) :=
  Category.all.flatMap fun c =>
    ((List.range (S.GetNum c)).filter fun n =>
      IsAllowedType (S.resourceAt c n).VarType AllowedTypeBits).map fun n => (c, n)

/-- Category-major order of two visits: an earlier category, or the same
category and a smaller index. -/
def visitBefore (v w : Category × Nat) : Prop :=
  v.1.index < w.1.index ∨ (v.1 = w.1 ∧ v.2 < w.2)

end SPIRVShaderResources

/-! ## The Direct3D descriptor and store

`ShaderResources.cpp` implements the member functions of `ShaderResources`; the
class declaration and `D3DShaderResourceAttribs` live in `ShaderResources.h`,
which is not among the sources. -/

/-- The value `D3D_SIT_TEXTURE` of `D3D_SHADER_INPUT_TYPE` (Direct3D SDK). -/
def D3D_SIT_TEXTURE : Nat := 2

/-- The value `D3D_SRV_DIMENSION_BUFFER` of `D3D_SRV_DIMENSION` (Direct3D SDK). -/
def D3D_SRV_DIMENSION_BUFFER : Nat := 1

/-- Modelled from the spec: `struct D3DShaderResourceAttribs`, declared in
`ShaderResources.h`. It is the spec's resource descriptor (name, array size,
category, variable class, static sampler reference, backend fields) under the
member names that `ShaderResources.cpp` uses: `Name`, `BindCount`,
`GetInputType()`, `GetVariableType()`, `GetSRVDimension()`,
`IsStaticSampler()`. -/
structure D3DShaderResourceAttribs where
  Name : String
  BindPoint : Nat
  BindCount : Nat
  InputType : Nat
  VariableType : SHADER_VARIABLE_TYPE
  SRVDimension : Nat
  SamplerId : Nat
  StaticSampler : Bool
  deriving DecidableEq, Repr

namespace D3DShaderResourceAttribs

/-- Modelled from the spec: `D3DShaderResourceAttribs::InvalidSamplerId`, the
sentinel `-1` for "no sampler assigned", read at the `Uint32` return type of
`FindAssignedSamplerId`. -/
def InvalidSamplerId : Nat := 0xFFFFFFFF

instance : Inhabited D3DShaderResourceAttribs :=
  ⟨⟨"", 0, 0, 0, 0, 0, InvalidSamplerId, false⟩⟩

/-- Modelled from the spec: whether the descriptor has a static sampler
assignment, that is, its sampler reference is not the sentinel. -/
def ValidSamplerAssigned (self : D3DShaderResourceAttribs) : Bool :=
  self.SamplerId != InvalidSamplerId

/-- Modelled from the spec: `D3DShaderResourceAttribs::IsAllowedType`, the
filter `(1 << variableClass) & mask` of the enumeration. -/
def IsAllowedType (self : D3DShaderResourceAttribs) (AllowedTypeBits : Nat) : Bool :=
  Diligent.IsAllowedType self.VariableType AllowedTypeBits

/-- Modelled from the spec: `D3DShaderResourceAttribs::IsCompatibleWith`. Two
descriptors are compatible when they agree on array size, category, variable
class and on having or not having a static sampler assignment; this is also
what `SPIRVShaderResourceAttribs::IsCompatibleWith` compares. -/
def IsCompatibleWith (self Attribs : D3DShaderResourceAttribs) : Bool :=
  self.BindCount == Attribs.BindCount &&
  self.InputType == Attribs.InputType &&
  self.VariableType == Attribs.VariableType &&
  (self.ValidSamplerAssigned == Attribs.ValidSamplerAssigned)

end D3DShaderResourceAttribs

/-- The hashing primitives of `HashUtils.h`, which is not among the sources:
`stdHash` is `std::hash` on integers and `mix Seed h` is the new seed that
`HashCombine` makes of `Seed` and the hash `h` of a value. -/
structure HashUtils where
  stdHash : Nat → Nat
  mix : Nat → Nat → Nat

namespace HashUtils

/-- `HashCombine(Seed, Val)` for an integer `Val`. -/
def HashCombine (H : HashUtils) (Seed Val : Nat) : Nat := H.mix Seed (H.stdHash Val)

/-- `ComputeHash(Args...)`: the arguments combined into the seed `0`, first to
last. -/
def ComputeHash (H : HashUtils) (Args : List Nat) : Nat := Args.foldl H.HashCombine 0

end HashUtils

/-- Modelled from the spec: `D3DShaderResourceAttribs::GetHash`, the hash of
the tuple `(arraySize, category, variableClass, hasStaticSampler)`. -/
def D3DShaderResourceAttribs.GetHash (H : HashUtils) (self : D3DShaderResourceAttribs) : Nat :=
  H.ComputeHash [self.BindCount, self.InputType, self.VariableType,
    if self.ValidSamplerAssigned then 1 else 0]

/-- Modelled from the spec: `StreqSuff(RefStr, Str, Suff)` of `StringTools.h`,
true when `RefStr` equals `Str` followed by `Suff`. -/
def StreqSuff (RefStr Str Suff : String) : Bool := RefStr == Str ++ Suff

/-- What a failed `DEV_CHECK_ERR` of `FindAssignedSamplerId` reports. -/
inductive DevError
  /-- The sampler's variable type differs from the texture's. -/
  | InconsistentVariableType
  /-- The sampler is neither scalar nor of the texture's array dimension. -/
  | InconsistentArrayDimension
  deriving DecidableEq, Repr

/-- Modelled from the spec: the macro `DEV_CHECK_ERR`. A failed check is
reported and does not stop the operation. -/
def DEV_CHECK_ERR (Expr : Bool) (e : DevError) : List DevError :=
  if Expr then [] else [e]

/-- `class ShaderResources`, the data members that `ShaderResources.cpp` uses.
The memory buffer holds the descriptors; `m_ResourceNames` is the size of the
name pool that follows them. -/
structure ShaderResources where
  m_MemoryBuffer : List D3DShaderResourceAttribs
  m_ResourceNames : Nat
  m_TexSRVOffset : Nat
  m_TexUAVOffset : Nat
  m_BufSRVOffset : Nat
  m_BufUAVOffset : Nat
  m_SamplersOffset : Nat
  m_TotalResources : Nat
  m_ShaderType : Nat
  deriving DecidableEq, Repr

namespace ShaderResources

/-- The difference of two `OffsetType` members returned as `Uint32`. -/
def offsetDiff (hi lo : Nat) : Nat := (hi + Uint32Size - lo) % Uint32Size

/-- Modelled from the spec: `GetNumCBs`, declared in `ShaderResources.h`; a
count is the next category offset minus this one, as `AllocateMemory` asserts. -/
def GetNumCBs (S : ShaderResources) : Nat := offsetDiff S.m_TexSRVOffset 0
/-- Modelled from the spec: `GetNumTexSRV`, see `GetNumCBs`. -/
def GetNumTexSRV (S : ShaderResources) : Nat := offsetDiff S.m_TexUAVOffset S.m_TexSRVOffset
/-- Modelled from the spec: `GetNumTexUAV`, see `GetNumCBs`. -/
def GetNumTexUAV (S : ShaderResources) : Nat := offsetDiff S.m_BufSRVOffset S.m_TexUAVOffset
/-- Modelled from the spec: `GetNumBufSRV`, see `GetNumCBs`. -/
def GetNumBufSRV (S : ShaderResources) : Nat := offsetDiff S.m_BufUAVOffset S.m_BufSRVOffset
/-- Modelled from the spec: `GetNumBufUAV`, see `GetNumCBs`. -/
def GetNumBufUAV (S : ShaderResources) : Nat := offsetDiff S.m_SamplersOffset S.m_BufUAVOffset
/-- Modelled from the spec: `GetNumSamplers`, see `GetNumCBs`. -/
def GetNumSamplers (S : ShaderResources) : Nat :=
  offsetDiff S.m_TotalResources S.m_SamplersOffset
/-- Modelled from the spec: `GetTotalResources`, the stored total. -/
def GetTotalResources (S : ShaderResources) : Nat := S.m_TotalResources

/-- Modelled from the spec: `GetResAttribs` of `ShaderResources.h`, the
bounds-checked translation of a category index to a global index, as in
`SPIRVShaderResources::GetResAttribs`. -/
def GetResAttribs (S : ShaderResources) (n NumResources Offset : Nat) :
    Except Error D3DShaderResourceAttribs := do
  VERIFY (decide (n < NumResources)) Error.IndexOutOfRange
  VERIFY (decide (Offset + n < S.m_TotalResources)) Error.AssertionFailed
  match S.m_MemoryBuffer[Offset + n]? with
  | some r => pure r
  | none => throw Error.IndexOutOfRange

/-- Modelled from the spec: `GetCB`, see `GetResAttribs`. -/
def GetCB (S : ShaderResources) (n : Nat) := S.GetResAttribs n S.GetNumCBs 0
/-- Modelled from the spec: `GetTexSRV`, see `GetResAttribs`. -/
def GetTexSRV (S : ShaderResources) (n : Nat) :=
  S.GetResAttribs n S.GetNumTexSRV S.m_TexSRVOffset
/-- Modelled from the spec: `GetTexUAV`, see `GetResAttribs`. -/
def GetTexUAV (S : ShaderResources) (n : Nat) :=
  S.GetResAttribs n S.GetNumTexUAV S.m_TexUAVOffset
/-- Modelled from the spec: `GetBufSRV`, see `GetResAttribs`. -/
def GetBufSRV (S : ShaderResources) (n : Nat) :=
  S.GetResAttribs n S.GetNumBufSRV S.m_BufSRVOffset
/-- Modelled from the spec: `GetBufUAV`, see `GetResAttribs`. -/
def GetBufUAV (S : ShaderResources) (n : Nat) :=
  S.GetResAttribs n S.GetNumBufUAV S.m_BufUAVOffset
/-- Modelled from the spec: `GetSampler`, see `GetResAttribs`. -/
def GetSampler (S : ShaderResources) (n : Nat) :=
  S.GetResAttribs n S.GetNumSamplers S.m_SamplersOffset

/-- Modelled from the spec: `ShaderResources::ProcessResources` of
`ShaderResources.h`, the single pass over every category that filters each
descriptor by its variable class and calls the handler of its category. The
handlers come in the order of the calls in `ShaderResources.cpp` (constant
buffers, samplers, texture SRVs, texture UAVs, buffer SRVs, buffer UAVs), and
the loops run in that order, as in `SPIRVShaderResources::ProcessResources`. -/
def ProcessResources {σ : Type} (S : ShaderResources)
    (AllowedVarTypes : Option (List SHADER_VARIABLE_TYPE))
    (HandleCB HandleSampler HandleTexSRV HandleTexUAV HandleBufSRV HandleBufUAV :
      D3DShaderResourceAttribs → Nat → σ → Except Error σ)
    (st : σ) : Except Error σ := do
  let AllowedTypeBits := GetAllowedTypeBits AllowedVarTypes
  let allowed := fun (r : D3DShaderResourceAttribs) => r.IsAllowedType AllowedTypeBits
  let st ← processLoop S.GetCB allowed HandleCB S.GetNumCBs 0 st
  let st ← processLoop S.GetSampler allowed HandleSampler S.GetNumSamplers 0 st
  let st ← processLoop S.GetTexSRV allowed HandleTexSRV S.GetNumTexSRV 0 st
  let st ← processLoop S.GetTexUAV allowed HandleTexUAV S.GetNumTexUAV 0 st
  let st ← processLoop S.GetBufSRV allowed HandleBufSRV S.GetNumBufSRV 0 st
  processLoop S.GetBufUAV allowed HandleBufUAV S.GetNumBufUAV 0 st

/-- Modelled from the spec: `sizeof(D3DShaderResourceAttribs)`, a positive
multiple of the pointer width. -/
def sizeofD3DShaderResourceAttribs : Nat := 16

/-- `ShaderResources::ShaderResources(ShaderType)`: an empty store. -/
def new (ShaderType : Nat) : ShaderResources :=
  { m_MemoryBuffer := [], m_ResourceNames := 0, m_TexSRVOffset := 0, m_TexUAVOffset := 0,
    m_BufSRVOffset := 0, m_BufUAVOffset := 0, m_SamplersOffset := 0, m_TotalResources := 0,
    m_ShaderType := ShaderType }

/-- `ShaderResources::AllocateMemory`. The counts are `Uint32` values;
`static_cast<OffsetType>` and the store into an `OffsetType` member reduce
modulo `2 ^ 16`, and the sum that a check compares with `MaxOffset` is a
`Uint32` sum. The allocated descriptors are not yet constructed. -/
def AllocateMemory (S : ShaderResources)
    (NumCBs NumTexSRVs NumTexUAVs NumBufSRVs NumBufUAVs NumSamplers : Nat)
    (ResourceNamesPoolSize : Nat) : Except Error ShaderResources := do
  let MaxOffset := OffsetTypeSize - 1
  VERIFY (decide (NumCBs ≤ MaxOffset)) Error.MaxOffsetExceeded
  let S := { S with m_TexSRVOffset := (0 + NumCBs % OffsetTypeSize) % OffsetTypeSize }
  VERIFY (decide ((S.m_TexSRVOffset + NumTexSRVs) % Uint32Size ≤ MaxOffset))
    Error.MaxOffsetExceeded
  let S := { S with
    m_TexUAVOffset := (S.m_TexSRVOffset + NumTexSRVs % OffsetTypeSize) % OffsetTypeSize }
  VERIFY (decide ((S.m_TexUAVOffset + NumTexUAVs) % Uint32Size ≤ MaxOffset))
    Error.MaxOffsetExceeded
  let S := { S with
    m_BufSRVOffset := (S.m_TexUAVOffset + NumTexUAVs % OffsetTypeSize) % OffsetTypeSize }
  VERIFY (decide ((S.m_BufSRVOffset + NumBufSRVs) % Uint32Size ≤ MaxOffset))
    Error.MaxOffsetExceeded
  let S := { S with
    m_BufUAVOffset := (S.m_BufSRVOffset + NumBufSRVs % OffsetTypeSize) % OffsetTypeSize }
  VERIFY (decide ((S.m_BufUAVOffset + NumBufUAVs) % Uint32Size ≤ MaxOffset))
    Error.MaxOffsetExceeded
  let S := { S with
    m_SamplersOffset := (S.m_BufUAVOffset + NumBufUAVs % OffsetTypeSize) % OffsetTypeSize }
  VERIFY (decide ((S.m_SamplersOffset + NumSamplers) % Uint32Size ≤ MaxOffset))
    Error.MaxOffsetExceeded
  let S := { S with
    m_TotalResources := (S.m_SamplersOffset + NumSamplers % OffsetTypeSize) % OffsetTypeSize }
  let MemorySize := S.m_TotalResources * sizeofD3DShaderResourceAttribs + ResourceNamesPoolSize
  VERIFY (S.GetNumCBs == NumCBs) Error.AssertionFailed
  VERIFY (S.GetNumTexSRV == NumTexSRVs) Error.AssertionFailed
  VERIFY (S.GetNumTexUAV == NumTexUAVs) Error.AssertionFailed
  VERIFY (S.GetNumBufSRV == NumBufSRVs) Error.AssertionFailed
  VERIFY (S.GetNumBufUAV == NumBufUAVs) Error.AssertionFailed
  VERIFY (S.GetNumSamplers == NumSamplers) Error.AssertionFailed
  if MemorySize != 0 then
    pure { S with
      m_MemoryBuffer := List.replicate S.m_TotalResources default
      m_ResourceNames := ResourceNamesPoolSize }
  else
    pure S

/-- The loop of `FindAssignedSamplerId`; the first argument counts the
iterations that remain, the second is the loop variable `s`. -/
def FindAssignedSamplerId.loop (S : ShaderResources) (TexSRV : D3DShaderResourceAttribs)
    (SamplerSuffix : String) : Nat → Nat → Except Error (Nat × List DevError)
  | 0, _ => pure (D3DShaderResourceAttribs.InvalidSamplerId, [])
  | k + 1, s => do
    let Sampler ← S.GetSampler s
    if StreqSuff Sampler.Name TexSRV.Name SamplerSuffix then
      let log := DEV_CHECK_ERR (Sampler.VariableType == TexSRV.VariableType)
          DevError.InconsistentVariableType ++
        DEV_CHECK_ERR (Sampler.BindCount == TexSRV.BindCount || Sampler.BindCount == 1)
          DevError.InconsistentArrayDimension
      pure (s, log)
    else
      FindAssignedSamplerId.loop S TexSRV SamplerSuffix k (s + 1)

/-- `ShaderResources::FindAssignedSamplerId`: the returned sampler index
together with what the `DEV_CHECK_ERR` checks reported. The suffix is a
non-null string. -/
def FindAssignedSamplerId (S : ShaderResources) (TexSRV : D3DShaderResourceAttribs)
    (SamplerSuffix : String) : Except Error (Nat × List DevError) := do
  VERIFY (SamplerSuffix != "") Error.AssertionFailed
  VERIFY (TexSRV.InputType == D3D_SIT_TEXTURE && TexSRV.SRVDimension != D3D_SRV_DIMENSION_BUFFER)
    Error.AssertionFailed
  let NumSamplers := S.GetNumSamplers
  FindAssignedSamplerId.loop S TexSRV SamplerSuffix NumSamplers 0

/-- `ShaderResources::IsCompatibleWith`. The state of the handlers is the
captured flag `IsCompatible`. -/
def IsCompatibleWith (S Res : ShaderResources) : Except Error Bool :=
  if S.GetNumCBs != Res.GetNumCBs ||
      S.GetNumTexSRV != Res.GetNumTexSRV ||
      S.GetNumTexUAV != Res.GetNumTexUAV ||
      S.GetNumBufSRV != Res.GetNumBufSRV ||
      S.GetNumBufUAV != Res.GetNumBufUAV ||
      S.GetNumSamplers != Res.GetNumSamplers then
    pure false
  else
    S.ProcessResources none
      (fun CB n IsCompatible => do
        let r ← Res.GetCB n
        pure (if !CB.IsCompatibleWith r then false else IsCompatible))
      (fun Sam n IsCompatible => do
        let r ← Res.GetSampler n
        pure (if !Sam.IsCompatibleWith r then false else IsCompatible))
      (fun TexSRV n IsCompatible => do
        let r ← Res.GetTexSRV n
        pure (if !TexSRV.IsCompatibleWith r then false else IsCompatible))
      (fun TexUAV n IsCompatible => do
        let r ← Res.GetTexUAV n
        pure (if !TexUAV.IsCompatibleWith r then false else IsCompatible))
      (fun BufSRV n IsCompatible => do
        let r ← Res.GetBufSRV n
        pure (if !BufSRV.IsCompatibleWith r then false else IsCompatible))
      (fun BufUAV n IsCompatible => do
        let r ← Res.GetBufUAV n
        pure (if !BufUAV.IsCompatibleWith r then false else IsCompatible))
      true

/-- `ShaderResources::GetHash`. The state of the handlers is the captured
`hash`. -/
def GetHash (H : HashUtils) (S : ShaderResources) : Except Error Nat :=
  let hash := H.ComputeHash [S.GetNumCBs, S.GetNumTexSRV, S.GetNumTexUAV, S.GetNumBufSRV,
    S.GetNumBufUAV, S.GetNumSamplers]
  S.ProcessResources none
    (fun CB _ hash => pure (H.mix hash (CB.GetHash H)))
    (fun Sam _ hash => pure (H.mix hash (Sam.GetHash H)))
    (fun TexSRV _ hash => pure (H.mix hash (TexSRV.GetHash H)))
    (fun TexUAV _ hash => pure (H.mix hash (TexUAV.GetHash H)))
    (fun BufSRV _ hash => pure (H.mix hash (BufSRV.GetHash H)))
    (fun BufUAV _ hash => pure (H.mix hash (BufUAV.GetHash H)))
    hash

end ShaderResources

/-! ### Categories and invariant of the Direct3D store -/

namespace ShaderResources

/-- The six categories of the store, in the order of the memory layout. -/
inductive Category
  | CB
  | TexSRV
  | TexUAV
  | BufSRV
  | BufUAV
  | Sampler
  deriving DecidableEq, Repr

/-- The stored start offset of a category (`0` for constant buffers). -/
def offsetOf (S : ShaderResources) : Category → Nat
  | Category.CB => 0
  | Category.TexSRV => S.m_TexSRVOffset
  | Category.TexUAV => S.m_TexUAVOffset
  | Category.BufSRV => S.m_BufSRVOffset
  | Category.BufUAV => S.m_BufUAVOffset
  | Category.Sampler => S.m_SamplersOffset

/-- The count accessor of a category. -/
def GetNum (S : ShaderResources) : Category → Nat
  | Category.CB => S.GetNumCBs
  | Category.TexSRV => S.GetNumTexSRV
  | Category.TexUAV => S.GetNumTexUAV
  | Category.BufSRV => S.GetNumBufSRV
  | Category.BufUAV => S.GetNumBufUAV
  | Category.Sampler => S.GetNumSamplers

/-- The descriptor accessor of a category. -/
def Get (S : ShaderResources) : Category → Nat → Except Error D3DShaderResourceAttribs
  | Category.CB => S.GetCB
  | Category.TexSRV => S.GetTexSRV
  | Category.TexUAV => S.GetTexUAV
  | Category.BufSRV => S.GetBufSRV
  | Category.BufUAV => S.GetBufUAV
  | Category.Sampler => S.GetSampler

/-- The descriptor stored at index `n` of a category. -/
def resourceAt (S : ShaderResources) (c : Category) (n : Nat) : D3DShaderResourceAttribs :=
  S.m_MemoryBuffer.getD (S.offsetOf c + n) default

/-- The invariant of a constructed store: the offsets do not decrease, the
total fits `OffsetType`, the buffer holds `m_TotalResources` descriptors, and
the variable type of every descriptor is a value for which the 32-bit shift
`1 << VariableType` is defined. -/
def Valid (S : ShaderResources) : Prop :=
  S.m_TexSRVOffset ≤ S.m_TexUAVOffset ∧
  S.m_TexUAVOffset ≤ S.m_BufSRVOffset ∧
  S.m_BufSRVOffset ≤ S.m_BufUAVOffset ∧
  S.m_BufUAVOffset ≤ S.m_SamplersOffset ∧
  S.m_SamplersOffset ≤ S.m_TotalResources ∧
  S.m_TotalResources < OffsetTypeSize ∧
  S.m_MemoryBuffer.length = S.m_TotalResources ∧
  ∀ r ∈ S.m_MemoryBuffer, r.VariableType < 32

instance (S : ShaderResources) : Decidable S.Valid := by
  unfold Valid; infer_instance

/-- The descriptors of one category of two stores are pairwise compatible. -/
def categoryCompatible (A B : ShaderResources) (c : Category) : Bool :=
  (List.range (A.GetNum c)).all fun n =>
    (A.resourceAt c n).IsCompatibleWith (B.resourceAt c n)

/-- The hashes of the descriptors of one category, in index order. -/
def categoryHashes (H : HashUtils) (S : ShaderResources) (c : Category) : List Nat :=
  (List.range (S.GetNum c)).map fun n => (S.resourceAt c n).GetHash H

end ShaderResources

/-! ### Printable names, the static sampler table and resource counting -/

/-- `SPIRVShaderResourceAttribs::GetPrintName`. The stream output of the
`Uint32` index is its decimal representation. -/
def SPIRVShaderResourceAttribs.GetPrintName (self : SPIRVShaderResourceAttribs)
    (ArrayInd : Nat) : Except Error String := do
  VERIFY (decide (ArrayInd < self.ArraySize)) Error.AssertionFailed
  if self.ArraySize > 1 then
    pure (self.Name ++ "[" ++ Nat.repr ArrayInd ++ "]")
  else
    pure self.Name

namespace SPIRVShaderResources

/-- The offsets, values of `OffsetType`, do not decrease:
`0 <= m_StorageBufferOffset <= ... <= m_SeparateSamplerOffset <= m_TotalResources`. -/
def OffsetsOrdered (S : SPIRVShaderResources) : Prop :=
  S.m_StorageBufferOffset ≤ S.m_StorageImageOffset ∧
  S.m_StorageImageOffset ≤ S.m_SampledImageOffset ∧
  S.m_SampledImageOffset ≤ S.m_AtomicCounterOffset ∧
  S.m_AtomicCounterOffset ≤ S.m_SeparateImageOffset ∧
  S.m_SeparateImageOffset ≤ S.m_SeparateSamplerOffset ∧
  S.m_SeparateSamplerOffset ≤ S.m_TotalResources ∧
  S.m_TotalResources < OffsetTypeSize

instance (S : SPIRVShaderResources) : Decidable S.OffsetsOrdered := by
  unfold OffsetsOrdered; infer_instance

/-- The offset at which a category ends: the start of the next category, and
`m_TotalResources` for the last one. -/
def endOf (S : SPIRVShaderResources) : Category → Nat
  | Category.UB => S.m_StorageBufferOffset
  | Category.SB => S.m_StorageImageOffset
  | Category.Img => S.m_SampledImageOffset
  | Category.SmplImg => S.m_AtomicCounterOffset
  | Category.AC => S.m_SeparateImageOffset
  | Category.SepImg => S.m_SeparateSamplerOffset
  | Category.SepSmpl => S.m_TotalResources

/-- One element of the memory buffer: a descriptor, or an entry of the static
sampler table (`none` for a null `SamplerPtrType`). -/
inductive MemoryCell
  | Resource (r : SPIRVShaderResourceAttribs)
  | StaticSampler (p : Option Nat)
  deriving DecidableEq, Repr

/-- The memory buffer as one sequence of elements, in the order of the layout
comment of the header: the descriptors, then the static samplers. -/
def memory (S : SPIRVShaderResources) : List MemoryCell :=
  S.m_MemoryBuffer.map MemoryCell.Resource ++ S.m_StaticSamplers.map MemoryCell.StaticSampler

/-- `GetStaticSampler(const SPIRVShaderResourceAttribs&)`: the sampler pointer
(`none` for `nullptr`). `ResourceMemoryEnd` is the element `m_TotalResources`
of the buffer, and the table is indexed from there. -/
def GetStaticSampler (S : SPIRVShaderResources) (ResAttribs : SPIRVShaderResourceAttribs) :
    Except Error (Option Nat) :=
  if ResAttribs.StaticSamplerInd < 0 then
    pure none
  else do
    VERIFY (decide (ResAttribs.StaticSamplerInd < (S.m_NumStaticSamplers : Int)))
      Error.IndexOutOfRange
    let ResourceMemoryEnd := S.m_TotalResources
    match S.memory[ResourceMemoryEnd + ResAttribs.StaticSamplerInd.toNat]? with
    | some (MemoryCell.StaticSampler p) => pure p
    | _ => throw Error.IndexOutOfRange

/-- `GetStaticSampler(Uint32 n)`, the overload that returns the table entry
`n`. -/
def GetStaticSamplerAt (S : SPIRVShaderResources) (n : Nat) : Except Error (Option Nat) := do
  VERIFY (decide (n < S.m_NumStaticSamplers)) Error.IndexOutOfRange
  let ResourceMemoryEnd := S.m_TotalResources
  match S.memory[ResourceMemoryEnd + n]? with
  | some (MemoryCell.StaticSampler p) => pure p
  | _ => throw Error.IndexOutOfRange

/-- The buffer holds `m_TotalResources` descriptors followed by
`m_NumStaticSamplers` sampler pointers. -/
def SamplerTableValid (S : SPIRVShaderResources) : Prop :=
  S.m_MemoryBuffer.length = S.m_TotalResources ∧
  S.m_StaticSamplers.length = S.m_NumStaticSamplers

instance (S : SPIRVShaderResources) : Decidable S.SamplerTableValid := by
  unfold SamplerTableValid; infer_instance

/-- Every visit that a mask-free enumeration makes: all indices below the
count, category by category. -/
def allVisits (S : SPIRVShaderResources) : List (Category × Nat) :=
  Category.all.flatMap fun c => (List.range (S.GetNum c)).map fun n => (c, n)

end SPIRVShaderResources

/-- Modelled from the spec: `D3DShaderResourceAttribs::IsStaticSampler`, the
flag of a sampler that is fixed at compile time. -/
def D3DShaderResourceAttribs.IsStaticSampler (self : D3DShaderResourceAttribs) : Bool :=
  self.StaticSampler

namespace ShaderResources

/-- The six output parameters of `CountResources`. -/
structure ResourceCounts where
  NumCBs : Nat
  NumTexSRVs : Nat
  NumTexUAVs : Nat
  NumBufSRVs : Nat
  NumBufUAVs : Nat
  NumSamplers : Nat
  deriving DecidableEq, Repr

/-- `ShaderResources::CountResources`. The state of the handlers is the six
counters they capture by reference; `++` is the `Uint32` increment. -/
def CountResources (S : ShaderResources)
    (AllowedVarTypes : Option (List SHADER_VARIABLE_TYPE)) : Except Error ResourceCounts :=
  let AllowedTypeBits := GetAllowedTypeBits AllowedVarTypes
  let counts : ResourceCounts :=
    { NumCBs := 0, NumTexSRVs := 0, NumTexUAVs := 0, NumBufSRVs := 0, NumBufUAVs := 0,
      NumSamplers := 0 }
  S.ProcessResources AllowedVarTypes
    (fun CB _ counts => do
      VERIFY (CB.IsAllowedType AllowedTypeBits) Error.AssertionFailed
      pure { counts with NumCBs := (counts.NumCBs + 1) % Uint32Size })
    (fun Sam _ counts => do
      VERIFY (Sam.IsAllowedType AllowedTypeBits) Error.AssertionFailed
      if !Sam.IsStaticSampler then
        pure { counts with NumSamplers := (counts.NumSamplers + 1) % Uint32Size }
      else
        pure counts)
    (fun TexSRV _ counts => do
      VERIFY (TexSRV.IsAllowedType AllowedTypeBits) Error.AssertionFailed
      pure { counts with NumTexSRVs := (counts.NumTexSRVs + 1) % Uint32Size })
    (fun TexUAV _ counts => do
      VERIFY (TexUAV.IsAllowedType AllowedTypeBits) Error.AssertionFailed
      pure { counts with NumTexUAVs := (counts.NumTexUAVs + 1) % Uint32Size })
    (fun BufSRV _ counts => do
      VERIFY (BufSRV.IsAllowedType AllowedTypeBits) Error.AssertionFailed
      pure { counts with NumBufSRVs := (counts.NumBufSRVs + 1) % Uint32Size })
    (fun BufUAV _ counts => do
      VERIFY (BufUAV.IsAllowedType AllowedTypeBits) Error.AssertionFailed
      pure { counts with NumBufUAVs := (counts.NumBufUAVs + 1) % Uint32Size })
    counts

/-- The number of descriptors of a category that satisfy a condition. -/
def countWhere (S : ShaderResources) (c : Category) (p : D3DShaderResourceAttribs → Bool) :
    Nat :=
  (List.range (S.GetNum c)).countP fun n => p (S.resourceAt c n)

end ShaderResources

/-! ### The stores of the spec's scenario -/

/-- The SPIR-V store of the scenario: a uniform buffer `Globals`, a sampled
image `Tex` and a separate sampler `Tex_sampler`. -/
def scenarioSPIRV : SPIRVShaderResources :=
  { m_MemoryBuffer :=
      [⟨"Globals", 1, ResourceType.UniformBuffer, SHADER_VARIABLE_TYPE_STATIC, -1, 10, 11⟩,
       ⟨"Tex", 1, ResourceType.SampledImage, SHADER_VARIABLE_TYPE_MUTABLE, -1, 20, 21⟩,
       ⟨"Tex_sampler", 1, ResourceType.SeparateSampler, SHADER_VARIABLE_TYPE_MUTABLE, -1, 30, 31⟩]
    m_StaticSamplers := []
    m_StorageBufferOffset := 1
    m_StorageImageOffset := 1
    m_SampledImageOffset := 1
    m_AtomicCounterOffset := 2
    m_SeparateImageOffset := 2
    m_SeparateSamplerOffset := 2
    m_TotalResources := 3
    m_NumStaticSamplers := 0 }

/-- A handler that records the category and the index it is called with. -/
def SPIRVShaderResources.recordVisit (c : SPIRVShaderResources.Category)
    (_ : SPIRVShaderResourceAttribs) (n : Nat)
    (log : List (SPIRVShaderResources.Category × Nat)) :
    Except Error (List (SPIRVShaderResources.Category × Nat)) :=
  pure (log ++ [(c, n)])

/-- The Direct3D store of the scenario: a constant buffer `Globals`, a texture
SRV `Tex` and a sampler `Tex_sampler`. -/
def scenarioD3D : ShaderResources :=
  { m_MemoryBuffer :=
      [⟨"Globals", 0, 1, 0, SHADER_VARIABLE_TYPE_STATIC, 0,
          D3DShaderResourceAttribs.InvalidSamplerId, false⟩,
       ⟨"Tex", 0, 1, D3D_SIT_TEXTURE, SHADER_VARIABLE_TYPE_MUTABLE, 4, 0, false⟩,
       ⟨"Tex_sampler", 0, 1, 3, SHADER_VARIABLE_TYPE_MUTABLE, 0,
          D3DShaderResourceAttribs.InvalidSamplerId, false⟩]
    m_ResourceNames := 23
    m_TexSRVOffset := 1
    m_TexUAVOffset := 2
    m_BufSRVOffset := 2
    m_BufUAVOffset := 2
    m_SamplersOffset := 2
    m_TotalResources := 3
    m_ShaderType := 1 }

/-- The scenario store with every resource renamed. -/
def scenarioD3DRenamed : ShaderResources :=
  { scenarioD3D with
    m_MemoryBuffer :=
      [⟨"PerFrame", 0, 1, 0, SHADER_VARIABLE_TYPE_STATIC, 0,
          D3DShaderResourceAttribs.InvalidSamplerId, false⟩,
       ⟨"Albedo", 0, 1, D3D_SIT_TEXTURE, SHADER_VARIABLE_TYPE_MUTABLE, 4, 0, false⟩,
       ⟨"Albedo_sampler", 0, 1, 3, SHADER_VARIABLE_TYPE_MUTABLE, 0,
          D3DShaderResourceAttribs.InvalidSamplerId, false⟩]
    m_ResourceNames := 31 }

/-- The scenario store with the texture turned into an array of four. -/
def scenarioD3DArray : ShaderResources :=
  { scenarioD3D with
    m_MemoryBuffer :=
      [⟨"Globals", 0, 1, 0, SHADER_VARIABLE_TYPE_STATIC, 0,
          D3DShaderResourceAttribs.InvalidSamplerId, false⟩,
       ⟨"Tex", 0, 4, D3D_SIT_TEXTURE, SHADER_VARIABLE_TYPE_MUTABLE, 4, 0, false⟩,
       ⟨"Tex_sampler", 0, 1, 3, SHADER_VARIABLE_TYPE_MUTABLE, 0,
          D3DShaderResourceAttribs.InvalidSamplerId, false⟩] }

/-- An instance of the hashing primitives: the identity for `std::hash` on
integers and a shift-and-xor mixing on 64 bits. -/
def exampleHashUtils : HashUtils :=
  { stdHash := fun v => v
    mix := fun Seed h => (Seed ^^^ (h + 0x9e3779b9 + (Seed <<< 6) + (Seed >>> 2))) % 2 ^ 64 }

/-- The texture SRV `Tex` of the scenario. -/
def scenarioTex : D3DShaderResourceAttribs :=
  ⟨"Tex", 0, 1, D3D_SIT_TEXTURE, SHADER_VARIABLE_TYPE_MUTABLE, 4, 0, false⟩

/-- The SPIR-V scenario store with a static sampler assigned to the sampled
image: the table holds one sampler handle. -/
def scenarioSPIRVStatic : SPIRVShaderResources :=
  { scenarioSPIRV with
    m_MemoryBuffer :=
      [⟨"Globals", 1, ResourceType.UniformBuffer, SHADER_VARIABLE_TYPE_STATIC, -1, 10, 11⟩,
       ⟨"Tex", 1, ResourceType.SampledImage, SHADER_VARIABLE_TYPE_MUTABLE, 0, 20, 21⟩,
       ⟨"Tex_sampler", 1, ResourceType.SeparateSampler, SHADER_VARIABLE_TYPE_MUTABLE, -1, 30, 31⟩]
    m_StaticSamplers := [some 7]
    m_NumStaticSamplers := 1 }

/-- The Direct3D scenario store with the sampler flagged static. -/
def scenarioD3DStatic : ShaderResources :=
  { scenarioD3D with
    m_MemoryBuffer :=
      [⟨"Globals", 0, 1, 0, SHADER_VARIABLE_TYPE_STATIC, 0,
          D3DShaderResourceAttribs.InvalidSamplerId, false⟩,
       ⟨"Tex", 0, 1, D3D_SIT_TEXTURE, SHADER_VARIABLE_TYPE_MUTABLE, 4, 0, false⟩,
       ⟨"Tex_sampler", 0, 1, 3, SHADER_VARIABLE_TYPE_MUTABLE, 0,
          D3DShaderResourceAttribs.InvalidSamplerId, true⟩] }

/-- The Direct3D scenario store with a sampler whose name matches the texture
but whose variable type is static and whose array size is two. -/
def scenarioD3DMismatch : ShaderResources :=
  { scenarioD3D with
    m_MemoryBuffer :=
      [⟨"Globals", 0, 1, 0, SHADER_VARIABLE_TYPE_STATIC, 0,
          D3DShaderResourceAttribs.InvalidSamplerId, false⟩,
       ⟨"Tex", 0, 1, D3D_SIT_TEXTURE, SHADER_VARIABLE_TYPE_MUTABLE, 4, 0, false⟩,
       ⟨"Tex_sampler", 0, 2, 3, SHADER_VARIABLE_TYPE_STATIC, 0,
          D3DShaderResourceAttribs.InvalidSamplerId, false⟩] }

/-! ## Destruction of the Direct3D store -/

namespace ShaderResources

/-- The offsets, values of `OffsetType`, do not decrease:
`0 <= m_TexSRVOffset <= ... <= m_SamplersOffset <= m_TotalResources`. -/
def OffsetsOrdered (S : ShaderResources) : Prop :=
  S.m_TexSRVOffset ≤ S.m_TexUAVOffset ∧
  S.m_TexUAVOffset ≤ S.m_BufSRVOffset ∧
  S.m_BufSRVOffset ≤ S.m_BufUAVOffset ∧
  S.m_BufUAVOffset ≤ S.m_SamplersOffset ∧
  S.m_SamplersOffset ≤ S.m_TotalResources ∧
  S.m_TotalResources < OffsetTypeSize

instance (S : ShaderResources) : Decidable S.OffsetsOrdered := by
  unfold OffsetsOrdered; infer_instance

/-- The slot of the memory block denoted by the reference that the checked
accessor returns: the checks are those of `GetResAttribs`, the slot is
`Offset + n`. -/
def GetResAttribsSlot (S : ShaderResources) (n NumResources Offset : Nat) :
    Except Error Nat := do
  let _ ← S.GetResAttribs n NumResources Offset
  pure (Offset + n)

/-- One loop `for (Uint32 n = 0; n < GetNumX(); ++n) GetX(n).~D3DShaderResourceAttribs();`
of the destructor. The state is the record of the slots whose descriptor has
been destroyed, in the order of the destructor calls. -/
def destroyLoop (S : ShaderResources) (NumResources Offset : Nat) (Destroyed : List Nat) :
    Except Error (List Nat) :=
  processLoop (fun n => S.GetResAttribsSlot n NumResources Offset) (fun _ => true)
    (fun slot _ d => pure (d ++ [slot])) NumResources 0 Destroyed

/-- `ShaderResources::~ShaderResources`: the six loops, in the order of the
source; the result is the record of the destroyed slots. -/
def destructor (S : ShaderResources) : Except Error (List Nat) := do
  let d ← S.destroyLoop S.GetNumCBs 0 []
  let d ← S.destroyLoop S.GetNumTexSRV S.m_TexSRVOffset d
  let d ← S.destroyLoop S.GetNumTexUAV S.m_TexUAVOffset d
  let d ← S.destroyLoop S.GetNumBufSRV S.m_BufSRVOffset d
  let d ← S.destroyLoop S.GetNumBufUAV S.m_BufUAVOffset d
  S.destroyLoop S.GetNumSamplers S.m_SamplersOffset d

end ShaderResources

/-! ## The single-handler enumeration of the SPIR-V store -/

namespace SPIRVShaderResources

/-- `ProcessResources` with a single handler: one loop over the global indices
`0 .. GetTotalResources() - 1` that reads `GetResource(n)` and calls the handler
with the descriptor and `n` when its variable type is allowed. -/
def ProcessResourcesSingle {σ : Type} (S : SPIRVShaderResources)
    (AllowedVarTypes : Option (List SHADER_VARIABLE_TYPE))
    (Handler : SPIRVShaderResourceAttribs → Nat → σ → Except Error σ)
    (st : σ) : Except Error σ :=
  let AllowedTypeBits := GetAllowedTypeBits AllowedVarTypes
  processLoop S.GetResource (fun r => IsAllowedType r.VarType AllowedTypeBits) Handler
    S.GetTotalResources 0 st

/-- A handler that records the descriptor and the index it is called with. -/
def recordCall (Res : SPIRVShaderResourceAttribs) (n : Nat)
    (log : List (SPIRVShaderResourceAttribs × Nat)) :
    Except Error (List (SPIRVShaderResourceAttribs × Nat)) :=
  pure (log ++ [(Res, n)])

end SPIRVShaderResources

/-! ## Buffers and buffer views (`BufferBase.h`) -/

/-- Modelled from the spec: `BUFFER_MODE` of `Buffer.h`, with the modes that
`BufferBase.h` names. -/
inductive BUFFER_MODE
  | BUFFER_MODE_UNDEFINED
  | BUFFER_MODE_FORMATTED
  | BUFFER_MODE_STRUCTURED
  | BUFFER_MODE_RAW
  deriving DecidableEq, Repr

/-- Modelled from the spec: `BUFFER_VIEW_TYPE` of `GraphicsTypes.h`, with the
view types that `BufferBase.h` names. -/
inductive BUFFER_VIEW_TYPE
  | BUFFER_VIEW_UNDEFINED
  | BUFFER_VIEW_SHADER_RESOURCE
  | BUFFER_VIEW_UNORDERED_ACCESS
  deriving DecidableEq, Repr

/-- Modelled from the spec: `VALUE_TYPE` of `GraphicsTypes.h`; `BufferBase.h`
names `VT_UNDEFINED`, `VT_FLOAT16` and `VT_FLOAT32`. -/
inductive VALUE_TYPE
  | VT_UNDEFINED
  | VT_INT8
  | VT_INT16
  | VT_INT32
  | VT_UINT8
  | VT_UINT16
  | VT_UINT32
  | VT_FLOAT16
  | VT_FLOAT32
  deriving DecidableEq, Repr

/-- `BIND_SHADER_RESOURCE`, the value `8` listed by the constructor of
`BufferBase`. -/
def BIND_SHADER_RESOURCE : Nat := 8
/-- `BIND_UNORDERED_ACCESS`, the value `128` listed by the constructor of
`BufferBase`. -/
def BIND_UNORDERED_ACCESS : Nat := 128

/-- Modelled from the spec: `BufferFormat` of `BufferView.h`, the members that
`CorrectBufferViewDesc` reads and writes. `NumComponents` is a `Uint8`. -/
structure BufferFormat where
  ValueType : VALUE_TYPE := VALUE_TYPE.VT_UNDEFINED
  NumComponents : Nat := 0
  IsNormalized : Bool := false
  deriving DecidableEq, Repr

/-- Modelled from the spec: `BufferViewDesc` of `BufferView.h`, the members
that `BufferBase.h` uses, with the values of a default-constructed description.
`ByteOffset` and `ByteWidth` are `Uint32`. -/
structure BufferViewDesc where
  ViewType : BUFFER_VIEW_TYPE := BUFFER_VIEW_TYPE.BUFFER_VIEW_UNDEFINED
  Format : BufferFormat := {}
  ByteOffset : Nat := 0
  ByteWidth : Nat := 0
  deriving DecidableEq, Repr

/-- Modelled from the spec: `BufferDesc` of `Buffer.h`, the members that
`BufferBase.h` reads in the modelled functions, all `Uint32` but the mode. -/
structure BufferDesc where
  uiSizeInBytes : Nat
  BindFlags : Nat
  Mode : BUFFER_MODE
  ElementByteStride : Nat
  deriving DecidableEq, Repr

/-- The buffer view object: what `GetDesc()` returns. -/
structure BufferViewImpl where
  Desc : BufferViewDesc
  deriving DecidableEq, Repr

/-- The members of `BufferBase` that the modelled functions use: the
description and the two default views (`none` for an empty `unique_ptr`). -/
structure BufferBase where
  m_Desc : BufferDesc
  m_pDefaultUAV : Option BufferViewImpl := none
  m_pDefaultSRV : Option BufferViewImpl := none
  deriving DecidableEq, Repr

/-- The failures of the buffer functions: one for each `LOG_ERROR_AND_THROW`
of `CorrectBufferViewDesc`, in source order, then the failed `VERIFY`, the
`UNEXPECTED` default of `GetDefaultView`, the use of a null view, and the
failure of the engine implementation of `CreateViewInternal`. -/
inductive BufferError
  | ViewRangeOutOfBounds
  | OffsetNotMultipleOfStride
  | WidthNotMultipleOfStride
  | FormatNotSpecified
  | IncorrectNumComponents
  | RawStrideNotSpecified
  | InconsistentStride
  | RawOffsetNotAligned
  | AssertionFailed
  | UnexpectedViewType
  | NullView
  | CreateViewFailed
  deriving DecidableEq, Repr

/-- The report of the failed `DEV_CHECK_ERR` of `CorrectBufferViewDesc`, which
logs and continues. -/
inductive BufferReport
  | ByteOffsetExceedsSize
  deriving DecidableEq, Repr

/-- `if (Cond) LOG_ERROR_AND_THROW(...)`. -/
def throwIf (Cond : Bool) (e : BufferError) : Except BufferError Unit :=
  if Cond then throw e else pure ()

namespace BufferBase

/-- The buffer may be bound as an unordered-access or a shader resource:
`(BindFlags & BIND_UNORDERED_ACCESS) || (BindFlags & BIND_SHADER_RESOURCE)`. -/
def IsUAVOrSRV (self : BufferBase) : Bool :=
  (self.m_Desc.BindFlags &&& BIND_UNORDERED_ACCESS) != 0 ||
    (self.m_Desc.BindFlags &&& BIND_SHADER_RESOURCE) != 0

/-- The first block of `CorrectBufferViewDesc`: a zero `ByteWidth` is replaced
by the `Uint32` difference `uiSizeInBytes - ByteOffset`. -/
def defaultedWidth (self : BufferBase) (ViewDesc : BufferViewDesc) : BufferViewDesc :=
  if ViewDesc.ByteWidth == 0 then
    { ViewDesc with
      ByteWidth :=
        (self.m_Desc.uiSizeInBytes + Uint32Size - ViewDesc.ByteOffset) % Uint32Size }
  else ViewDesc

/-- The report of the `DEV_CHECK_ERR` of the first block of
`CorrectBufferViewDesc`, which logs when `uiSizeInBytes > ByteOffset` fails and
continues. -/
def widthReports (self : BufferBase) (ViewDesc : BufferViewDesc) : List BufferReport :=
  if ViewDesc.ByteWidth == 0 ∧ ¬ (self.m_Desc.uiSizeInBytes > ViewDesc.ByteOffset) then
    [BufferReport.ByteOffsetExceedsSize]
  else []

/-- The block of `CorrectBufferViewDesc` for structured and formatted buffers:
the stride is not zero (`VERIFY`), and the offset and the width of the view are
multiples of the stride. -/
def checkStride (self : BufferBase) (ViewDesc : BufferViewDesc) : Except BufferError Unit :=
  if self.m_Desc.Mode = BUFFER_MODE.BUFFER_MODE_STRUCTURED ∨
      self.m_Desc.Mode = BUFFER_MODE.BUFFER_MODE_FORMATTED then do
    throwIf (self.m_Desc.ElementByteStride == 0) BufferError.AssertionFailed
    throwIf (ViewDesc.ByteOffset % self.m_Desc.ElementByteStride != 0)
      BufferError.OffsetNotMultipleOfStride
    throwIf (ViewDesc.ByteWidth % self.m_Desc.ElementByteStride != 0)
      BufferError.WidthNotMultipleOfStride
  else pure ()

/-- The block of `CorrectBufferViewDesc` for a formatted buffer and for a
formatted view of a raw buffer: one to four components, a float format is not
normalized, and the `Uint32` product of the value size and the number of
components is the stride of the buffer. -/
def checkFormat (self : BufferBase) (GetValueSize : VALUE_TYPE → Nat)
    (ViewDesc : BufferViewDesc) : Except BufferError BufferViewDesc :=
  if self.m_Desc.Mode = BUFFER_MODE.BUFFER_MODE_FORMATTED ∨
      (self.m_Desc.Mode = BUFFER_MODE.BUFFER_MODE_RAW ∧
        ViewDesc.Format.ValueType ≠ VALUE_TYPE.VT_UNDEFINED) then do
    throwIf (decide (ViewDesc.Format.NumComponents ≤ 0 ∨ ViewDesc.Format.NumComponents > 4))
      BufferError.IncorrectNumComponents
    let ViewDesc : BufferViewDesc :=
      if ViewDesc.Format.ValueType = VALUE_TYPE.VT_FLOAT32 ∨
          ViewDesc.Format.ValueType = VALUE_TYPE.VT_FLOAT16 then
        { ViewDesc with Format := { ViewDesc.Format with IsNormalized := false } }
      else ViewDesc
    let ViewElementStride :=
      (GetValueSize ViewDesc.Format.ValueType * ViewDesc.Format.NumComponents) % Uint32Size
    throwIf (decide (self.m_Desc.Mode = BUFFER_MODE.BUFFER_MODE_RAW ∧
      self.m_Desc.ElementByteStride = 0)) BufferError.RawStrideNotSpecified
    throwIf (ViewElementStride != self.m_Desc.ElementByteStride)
      BufferError.InconsistentStride
    pure ViewDesc
  else pure ViewDesc

/-- The last block of `CorrectBufferViewDesc`: the offset of a raw view of a
raw buffer is a multiple of 16. -/
def checkRawOffset (self : BufferBase) (ViewDesc : BufferViewDesc) :
    Except BufferError Unit :=
  if self.m_Desc.Mode = BUFFER_MODE.BUFFER_MODE_RAW ∧
      ViewDesc.Format.ValueType = VALUE_TYPE.VT_UNDEFINED then
    throwIf (ViewDesc.ByteOffset % 16 != 0) BufferError.RawOffsetNotAligned
  else pure ()

/-- `BufferBase::CorrectBufferViewDesc`, block by block in the order of the
source. The view description is passed by reference: the corrected description
is returned, with the reports of the `DEV_CHECK_ERR`. Sums, differences and
products of `Uint32` values are reduced modulo `2 ^ 32`. `GetValueSize`, of
`GraphicsAccessories.h`, is a parameter. -/
def CorrectBufferViewDesc (self : BufferBase) (GetValueSize : VALUE_TYPE → Nat)
    (ViewDesc : BufferViewDesc) : Except BufferError (BufferViewDesc × List BufferReport) := do
  let Reports := self.widthReports ViewDesc
  let ViewDesc := self.defaultedWidth ViewDesc
  throwIf (decide ((ViewDesc.ByteOffset + ViewDesc.ByteWidth) % Uint32Size >
    self.m_Desc.uiSizeInBytes)) BufferError.ViewRangeOutOfBounds
  if self.IsUAVOrSRV then
    self.checkStride ViewDesc
    throwIf (decide (self.m_Desc.Mode = BUFFER_MODE.BUFFER_MODE_FORMATTED ∧
      ViewDesc.Format.ValueType = VALUE_TYPE.VT_UNDEFINED)) BufferError.FormatNotSpecified
    let ViewDesc ← self.checkFormat GetValueSize ViewDesc
    self.checkRawOffset ViewDesc
    pure (ViewDesc, Reports)
  else
    pure (ViewDesc, Reports)

/-- `BufferBase::GetDefaultView`: the default view of the given type, `none`
for a null pointer; the `UNEXPECTED` default case is a failure. -/
def GetDefaultView (self : BufferBase) (ViewType : BUFFER_VIEW_TYPE) :
    Except BufferError (Option BufferViewImpl) :=
  match ViewType with
  | BUFFER_VIEW_TYPE.BUFFER_VIEW_SHADER_RESOURCE => pure self.m_pDefaultSRV
  | BUFFER_VIEW_TYPE.BUFFER_VIEW_UNORDERED_ACCESS => pure self.m_pDefaultUAV
  | _ => throw BufferError.UnexpectedViewType

/-- `VERIFY( pView->GetDesc().ViewType == ViewType, ... )` on a default view
that has just been stored: a null view cannot be dereferenced. -/
def verifyViewType (pView : Option BufferViewImpl) (ViewType : BUFFER_VIEW_TYPE) :
    Except BufferError Unit :=
  match pView with
  | none => throw BufferError.NullView
  | some v => throwIf (v.Desc.ViewType != ViewType) BufferError.AssertionFailed

/-- The first block of `CreateDefaultViews`: the default unordered-access view
of a structured or raw buffer with `BIND_UNORDERED_ACCESS`. The pure virtual
`CreateViewInternal` of the engine implementation is a parameter: from the
buffer, the view description and the default-view flag it yields the view
written to `ppView` (`none` when it leaves the null pointer), or throws. -/
def createDefaultUAV (self : BufferBase)
    (CreateViewInternal :
      BufferBase → BufferViewDesc → Bool → Except BufferError (Option BufferViewImpl)) :
    Except BufferError BufferBase :=
  if (self.m_Desc.BindFlags &&& BIND_UNORDERED_ACCESS) != 0 ∧
      (self.m_Desc.Mode = BUFFER_MODE.BUFFER_MODE_STRUCTURED ∨
        self.m_Desc.Mode = BUFFER_MODE.BUFFER_MODE_RAW) then do
    let ViewDesc : BufferViewDesc :=
      { ViewType := BUFFER_VIEW_TYPE.BUFFER_VIEW_UNORDERED_ACCESS }
    let pUAV ← CreateViewInternal self ViewDesc true
    let self := { self with m_pDefaultUAV := pUAV }
    verifyViewType self.m_pDefaultUAV BUFFER_VIEW_TYPE.BUFFER_VIEW_UNORDERED_ACCESS
    pure self
  else pure self

/-- The second block of `CreateDefaultViews`: the default shader-resource view
of a structured or raw buffer with `BIND_SHADER_RESOURCE`. -/
def createDefaultSRV (self : BufferBase)
    (CreateViewInternal :
      BufferBase → BufferViewDesc → Bool → Except BufferError (Option BufferViewImpl)) :
    Except BufferError BufferBase :=
  if (self.m_Desc.BindFlags &&& BIND_SHADER_RESOURCE) != 0 ∧
      (self.m_Desc.Mode = BUFFER_MODE.BUFFER_MODE_STRUCTURED ∨
        self.m_Desc.Mode = BUFFER_MODE.BUFFER_MODE_RAW) then do
    let ViewDesc : BufferViewDesc :=
      { ViewType := BUFFER_VIEW_TYPE.BUFFER_VIEW_SHADER_RESOURCE }
    let pSRV ← CreateViewInternal self ViewDesc true
    let self := { self with m_pDefaultSRV := pSRV }
    verifyViewType self.m_pDefaultSRV BUFFER_VIEW_TYPE.BUFFER_VIEW_SHADER_RESOURCE
    pure self
  else pure self

/-- `BufferBase::CreateDefaultViews`: the block of the unordered-access view,
then the block of the shader-resource view. -/
def CreateDefaultViews (self : BufferBase)
    (CreateViewInternal :
      BufferBase → BufferViewDesc → Bool → Except BufferError (Option BufferViewImpl)) :
    Except BufferError BufferBase := do
  let self ← self.createDefaultUAV CreateViewInternal
  self.createDefaultSRV CreateViewInternal

end BufferBase

/-- An engine implementation of `CreateViewInternal` that creates a view with
the description it is given. -/
def exampleCreateViewInternal (_ : BufferBase) (ViewDesc : BufferViewDesc) (_ : Bool) :
    Except BufferError (Option BufferViewImpl) :=
  pure (some ⟨ViewDesc⟩)

/-- The sizes of the value types in bytes, for the examples. -/
def exampleGetValueSize : VALUE_TYPE → Nat
  | VALUE_TYPE.VT_UNDEFINED => 0
  | VALUE_TYPE.VT_INT8 => 1
  | VALUE_TYPE.VT_INT16 => 2
  | VALUE_TYPE.VT_INT32 => 4
  | VALUE_TYPE.VT_UINT8 => 1
  | VALUE_TYPE.VT_UINT16 => 2
  | VALUE_TYPE.VT_UINT32 => 4
  | VALUE_TYPE.VT_FLOAT16 => 2
  | VALUE_TYPE.VT_FLOAT32 => 4

/-- A formatted buffer of 64 bytes that can be bound as a shader resource,
with elements of 16 bytes. -/
def exampleFormattedBuffer : BufferBase :=
  { m_Desc := ⟨64, BIND_SHADER_RESOURCE, BUFFER_MODE.BUFFER_MODE_FORMATTED, 16⟩ }

/-- A structured buffer of 64 bytes that can be bound as a shader resource and
for unordered access, with elements of 16 bytes. -/
def exampleStructuredBuffer : BufferBase :=
  { m_Desc := ⟨64, BIND_SHADER_RESOURCE ||| BIND_UNORDERED_ACCESS,
      BUFFER_MODE.BUFFER_MODE_STRUCTURED, 16⟩ }

/-- A vertex buffer of 16 bytes, with no view binding. -/
def exampleVertexBuffer : BufferBase :=
  { m_Desc := ⟨16, 1, BUFFER_MODE.BUFFER_MODE_UNDEFINED, 0⟩ }

/-! ## Queue families of the Vulkan physical device (`VulkanPhysicalDevice.cpp`) -/

/-- `VK_QUEUE_GRAPHICS_BIT` of the Vulkan headers. -/
def VK_QUEUE_GRAPHICS_BIT : Nat := 1
/-- `VK_QUEUE_COMPUTE_BIT` of the Vulkan headers. -/
def VK_QUEUE_COMPUTE_BIT : Nat := 2
/-- `VK_QUEUE_TRANSFER_BIT` of the Vulkan headers. -/
def VK_QUEUE_TRANSFER_BIT : Nat := 4

/-- `VkExtent3D` of the Vulkan headers. -/
structure VkExtent3D where
  width : Nat
  height : Nat
  depth : Nat
  deriving DecidableEq, Repr

/-- `VkQueueFamilyProperties` of the Vulkan headers; `queueFlags` is a 32-bit
`VkQueueFlags`. -/
structure VkQueueFamilyProperties where
  queueFlags : Nat
  queueCount : Nat
  timestampValidBits : Nat
  minImageTransferGranularity : VkExtent3D
  deriving DecidableEq, Repr

/-- The failures of `FindQueueFamily`: the `LOG_ERROR_AND_THROW`, and an index
outside the vector. -/
inductive VulkanError
  | FailedToFindQueueFamily
  | IndexOutOfRange
  deriving DecidableEq, Repr

/-- The message of the `VERIFY_EXPR` of `FindQueueFamily`: a debug assertion,
which logs when its condition fails and lets the function go on. -/
inductive VulkanReport
  | GranularityNotOne
  deriving DecidableEq, Repr

/-- The member of `VulkanPhysicalDevice` that `FindQueueFamily` reads. The
vector is filled from a `uint32_t` count, so it has fewer than `2 ^ 32`
elements and the `uint32_t` loop variable does not wrap. -/
structure VulkanPhysicalDevice where
  m_QueueFamilyProperties : List VkQueueFamilyProperties
  deriving DecidableEq, Repr

namespace VulkanPhysicalDevice

/-- `InvalidFamilyInd = static_cast<uint32_t>(-1)`. -/
def InvalidFamilyInd : Nat := 4294967295

/-- The value of `QueueFlags` after the first block of `FindQueueFamily`: when
the graphics or the compute bit is requested, `QueueFlags &= ~VK_QUEUE_TRANSFER_BIT`
on 32 bits. -/
def requiredFlags (QueueFlags : Nat) : Nat :=
  if (QueueFlags &&& (VK_QUEUE_GRAPHICS_BIT ||| VK_QUEUE_COMPUTE_BIT)) != 0 then
    QueueFlags &&& (4294967295 ^^^ VK_QUEUE_TRANSFER_BIT)
  else QueueFlags

/-- The value of `QueueFlagsOpt` after the first block of `FindQueueFamily`:
the given flags, or the reduced flags with the transfer bit when the graphics or
the compute bit is requested. -/
def optionalFlags (QueueFlags : Nat) : Nat :=
  if (QueueFlags &&& (VK_QUEUE_GRAPHICS_BIT ||| VK_QUEUE_COMPUTE_BIT)) != 0 then
    (QueueFlags &&& (4294967295 ^^^ VK_QUEUE_TRANSFER_BIT)) ||| VK_QUEUE_TRANSFER_BIT
  else QueueFlags

/-- A loop `for (i = ...; i < size; ++i) if (Cond(Props[i])) { FamilyInd = i; break; }`
over the remaining families: the first argument of the recursion is the rest of
the vector, `i` the loop variable, and the result the value of `FamilyInd`
after the loop. -/
def searchLoop (Cond : VkQueueFamilyProperties → Bool) :
    List VkQueueFamilyProperties → Nat → Nat → Nat
  | [], _, FamilyInd => FamilyInd
  | Props :: rest, i, FamilyInd =>
    if Cond Props then i else searchLoop Cond rest (i + 1) FamilyInd

/-- The condition of the first loop: the flags match exactly. -/
def matchesExactly (QueueFlags QueueFlagsOpt : Nat) (Props : VkQueueFamilyProperties) : Bool :=
  Props.queueFlags == QueueFlags || Props.queueFlags == QueueFlagsOpt

/-- The condition of the second loop: all requested flags are set. -/
def hasAllFlags (QueueFlags : Nat) (Props : VkQueueFamilyProperties) : Bool :=
  (Props.queueFlags &&& QueueFlags) == QueueFlags

/-- `VulkanPhysicalDevice::FindQueueFamily`. With the returned `FamilyInd` come
the messages of the debug assertion: the `VERIFY_EXPR` does not throw, and
`return FamilyInd` follows it whatever its condition. -/
def FindQueueFamily (self : VulkanPhysicalDevice) (QueueFlags : Nat) :
    Except VulkanError (Nat × List VulkanReport) := do
  let QueueFlagsOpt := optionalFlags QueueFlags
  let QueueFlags := requiredFlags QueueFlags
  let FamilyInd := InvalidFamilyInd
  let FamilyInd :=
    searchLoop (matchesExactly QueueFlags QueueFlagsOpt) self.m_QueueFamilyProperties 0 FamilyInd
  let FamilyInd :=
    if FamilyInd == InvalidFamilyInd then
      searchLoop (hasAllFlags QueueFlags) self.m_QueueFamilyProperties 0 FamilyInd
    else FamilyInd
  let Reports ←
    if FamilyInd != InvalidFamilyInd then
      if (QueueFlags &&& (VK_QUEUE_GRAPHICS_BIT ||| VK_QUEUE_COMPUTE_BIT)) != 0 then
        match self.m_QueueFamilyProperties[FamilyInd]? with
        | none => throw VulkanError.IndexOutOfRange
        | some Props =>
          if Props.minImageTransferGranularity.width == 1 &&
              Props.minImageTransferGranularity.height == 1 &&
              Props.minImageTransferGranularity.depth == 1 then
            pure []
          else pure [VulkanReport.GranularityNotOne]
      else pure []
    else throw VulkanError.FailedToFindQueueFamily
  return (FamilyInd, Reports)

end VulkanPhysicalDevice

/-- A device with a family for graphics, compute and transfer, a family for
compute only, and a family for transfer only. -/
def exampleDevice : VulkanPhysicalDevice :=
  { m_QueueFamilyProperties :=
      [⟨7, 16, 64, ⟨1, 1, 1⟩⟩, ⟨2, 8, 64, ⟨1, 1, 1⟩⟩, ⟨4, 2, 64, ⟨16, 16, 8⟩⟩] }

/-- A device whose only family, for graphics, reports a granularity other than
`(1, 1, 1)`. -/
def exampleCoarseDevice : VulkanPhysicalDevice :=
  { m_QueueFamilyProperties := [⟨1, 1, 64, ⟨2, 2, 2⟩⟩] }

/-! ## Access flags as strings (`VulkanDebug.cpp`) -/

/-- The assertion messages of `VkAccessFlagBitToString`: the failed `VERIFY`
and the `UNEXPECTED` of the default case. Both log and let the function
continue, which then returns the empty string. -/
inductive DebugReport
  | SingleBitExpected
  | UnexpectedBit
  deriving DecidableEq, Repr

/-- The cases of the switch of `VkAccessFlagBitToString`, in source order: the
value of the `VkAccessFlagBits` constant in the Vulkan headers and the string
that the case returns. -/
def AccessFlagBitCases : List (Nat × String) :=
  [(0x00000001, "VK_ACCESS_INDIRECT_COMMAND_READ_BIT"),
   (0x00000002, "VK_ACCESS_INDEX_READ_BIT"),
   (0x00000004, "VK_ACCESS_VERTEX_ATTRIBUTE_READ_BIT"),
   (0x00000008, "VK_ACCESS_UNIFORM_READ_BIT"),
   (0x00000010, "VK_ACCESS_INPUT_ATTACHMENT_READ_BIT"),
   (0x00000020, "VK_ACCESS_SHADER_READ_BIT"),
   (0x00000040, "VK_ACCESS_SHADER_WRITE_BIT"),
   (0x00000080, "VK_ACCESS_COLOR_ATTACHMENT_READ_BIT"),
   (0x00000100, "VK_ACCESS_COLOR_ATTACHMENT_WRITE_BIT"),
   (0x00000200, "VK_ACCESS_DEPTH_STENCIL_ATTACHMENT_READ_BIT"),
   (0x00000400, "VK_ACCESS_DEPTH_STENCIL_ATTACHMENT_WRITE_BIT"),
   (0x00000800, "VK_ACCESS_TRANSFER_READ_BIT"),
   (0x00001000, "VK_ACCESS_TRANSFER_WRITE_BIT"),
   (0x00002000, "VK_ACCESS_HOST_READ_BIT"),
   (0x00004000, "VK_ACCESS_HOST_WRITE_BIT"),
   (0x00008000, "VK_ACCESS_MEMORY_READ_BIT"),
   (0x00010000, "VK_ACCESS_MEMORY_WRITE_BIT")]

/-- `VkAccessFlagBitToString`: the returned string and the assertion messages.
`Bit - 1` is not evaluated for `Bit = 0`. -/
def VkAccessFlagBitToString (Bit : Nat) : String × List DebugReport :=
  let Verify : List DebugReport :=
    if Bit != 0 && (Bit &&& (Bit - 1)) == 0 then [] else [DebugReport.SingleBitExpected]
  match AccessFlagBitCases.lookup Bit with
  | some Name => (Name, Verify)
  | none => ("", Verify ++ [DebugReport.UnexpectedBit])

/-- The loop of `VkAccessFlagsToString` on a 32-bit `Flags`. The first argument
bounds the number of iterations; `none` is returned when it does not suffice.
With the string the loop returns the values of `Bit` of its iterations, in
order, and the assertion messages. In the body `Flags` is not zero, so
`Flags - 1` does not wrap; `~` is the complement on 32 bits. -/
def VkAccessFlagsToString.loop :
    Nat → Nat → String → List Nat → List DebugReport →
      Option (String × List Nat × List DebugReport)
  | 0, _, _, _, _ => none
  | fuel + 1, Flags, FlagsString, Bits, Reports =>
    if Flags != 0 then
      let Bit := Flags &&& (4294967295 ^^^ (Flags - 1))
      let FlagsString := if FlagsString ≠ "" then FlagsString ++ ", " else FlagsString
      let FlagsString := FlagsString ++ (VkAccessFlagBitToString Bit).1
      let Flags := Flags &&& (Flags - 1)
      VkAccessFlagsToString.loop fuel Flags FlagsString (Bits ++ [Bit])
        (Reports ++ (VkAccessFlagBitToString Bit).2)
    else some (FlagsString, Bits, Reports)

/-- `VkAccessFlagsToString`: the loop started on the empty string. Every
iteration makes `Flags` smaller, so `Flags + 1` iterations suffice. -/
def VkAccessFlagsToString (Flags : Nat) : Option (String × List Nat × List DebugReport) :=
  VkAccessFlagsToString.loop (Flags + 1) Flags "" [] []

/-- The positions of the set bits of a 32-bit value, increasing. -/
def setBits (Flags : Nat) : List Nat :=
  (List.range 32).filter fun k => Flags.testBit k

/-- The number of set bits of a 32-bit value. -/
def popcount (Flags : Nat) : Nat := (setBits Flags).length

/-- The name of the access flag with the given bit position, the empty string
when the switch has no case for it. -/
def accessFlagName (k : Nat) : String := (VkAccessFlagBitToString (2 ^ k)).1

/-! ## Theorems -/

/-! ### Loops and folds -/

/-- Binding a successful result applies the continuation. -/
theorem Except_ok_bind {ε α β : Type} (a : α) (f : α → Except ε β) :
    (Except.ok a >>= f) = f a := rfl

/-- A loop of `ProcessResources` over descriptors that can all be read is the
monadic fold of the guarded handler over the index range. -/
theorem processLoop_foldlM {α σ : Type} (get : Nat → Except Error α) (allowed : α → Bool)
    (handle : α → Nat → σ → Except Error σ) (d : Nat → α) :
    ∀ (k n : Nat) (st : σ), (∀ i, n ≤ i → i < n + k → get i = Except.ok (d i)) →
      processLoop get allowed handle k n st =
        (List.range' n k).foldlM
          (fun st i => if allowed (d i) then handle (d i) i st else pure st) st := by
  intro k
  induction k with
  | zero => intro n st _; simp [processLoop]
  | succ k ih =>
    intro n st h
    have h0 : get n = Except.ok (d n) := h n (Nat.le_refl _) (by omega)
    have hrest : ∀ i, n + 1 ≤ i → i < n + 1 + k → get i = Except.ok (d i) :=
      fun i h1 h2 => h i (by omega) (by omega)
    simp only [processLoop, h0, List.range'_succ, List.foldlM_cons, Except_ok_bind]
    cases allowed (d n)
    · simp only [Bool.false_eq_true, if_false, pure_bind]
      exact ih (n + 1) st hrest
    · simp only [if_true]
      congr 1
      funext st1
      exact ih (n + 1) st1 hrest

/-- Folding a guarded step is folding the step over the filtered list. -/
theorem foldlM_filter_ite {α σ : Type} (p : α → Bool) (f : σ → α → Except Error σ) :
    ∀ (l : List α) (st : σ),
      l.foldlM (fun st a => if p a then f st a else pure st) st = (l.filter p).foldlM f st := by
  intro l
  induction l with
  | nil => intro st; rfl
  | cons a l ih =>
    intro st
    cases hp : p a
    · simp only [List.foldlM_cons, hp, Bool.false_eq_true, if_false, pure_bind, List.filter_cons]
      exact ih st
    · simp only [List.foldlM_cons, hp, if_true, List.filter_cons]
      congr 1
      funext st1
      exact ih st1

/-- The `Uint32` difference of two offsets in order is their difference. -/
theorem offsetDiff_eq (hi lo : Nat) (h : lo ≤ hi) (hhi : hi < Uint32Size) :
    (hi + Uint32Size - lo) % Uint32Size = hi - lo := by
  have : hi + Uint32Size - lo = (hi - lo) + Uint32Size := by omega
  rw [this, Nat.add_mod_right, Nat.mod_eq_of_lt (by omega)]

/-! ### The SPIR-V store -/

namespace SPIRVShaderResources

/-- In a valid store a category ends at or before the total. -/
theorem offsetOf_add_GetNum_le (S : SPIRVShaderResources) (hS : S.Valid) (c : Category) :
    S.offsetOf c + S.GetNum c ≤ S.m_TotalResources := by
  obtain ⟨h1, h2, h3, h4, h5, h6, h7, _⟩ := hS
  have h7' : S.m_TotalResources < Uint32Size := by
    have : OffsetTypeSize ≤ Uint32Size := by decide
    omega
  cases c <;>
    simp only [GetNum, offsetOf, GetNumUBs, GetNumSBs, GetNumImgs, GetNumSmplImgs, GetNumACs,
      GetNumSepImgs, GetNumSepSmpls, offsetDiff] <;>
    rw [offsetDiff_eq _ _ (by omega) (by omega)] <;> omega

/-- A checked access inside the category and the buffer reads the buffer. -/
theorem GetResAttribs_ok (S : SPIRVShaderResources) (n Num Off : Nat) (h1 : n < Num)
    (h2 : Off + n < S.m_TotalResources) (h3 : S.m_MemoryBuffer.length = S.m_TotalResources) :
    S.GetResAttribs n Num Off = Except.ok (S.m_MemoryBuffer.getD (Off + n) default) := by
  have h4 : Off + n < S.m_MemoryBuffer.length := by omega
  simp [GetResAttribs, VERIFY, h1, h2, List.getElem?_eq_getElem h4, List.getD_eq_getElem?_getD]
  rfl

/-- In a valid store the accessor of a category succeeds below the count. -/
theorem Get_ok (S : SPIRVShaderResources) (hS : S.Valid) (c : Category) (n : Nat)
    (h : n < S.GetNum c) : S.Get c n = Except.ok (S.resourceAt c n) := by
  have hle := offsetOf_add_GetNum_le S hS c
  have hlen := hS.2.2.2.2.2.2.2
  cases c <;>
    exact GetResAttribs_ok S n _ _ h (by simp only [offsetOf] at hle; omega) hlen

/-- One loop of `ProcessResources` folds the handler over the specified visits
of its category. -/
theorem processLoop_visits {σ : Type} (S : SPIRVShaderResources) (hS : S.Valid) (bits : Nat)
    (c : Category) (handle : SPIRVShaderResourceAttribs → Nat → σ → Except Error σ) (st : σ) :
    processLoop (S.Get c) (fun r => IsAllowedType r.VarType bits) handle (S.GetNum c) 0 st =
      (((List.range (S.GetNum c)).filter fun n =>
        IsAllowedType (S.resourceAt c n).VarType bits).map fun n => (c, n)).foldlM
        (fun st v => handle (S.resourceAt v.1 v.2) v.2 st) st := by
  rw [processLoop_foldlM (S.Get c) _ handle (S.resourceAt c) (S.GetNum c) 0 st
    (fun i _ hi => Get_ok S hS c i (by omega))]
  rw [List.foldlM_map, ← List.range_eq_range']
  exact foldlM_filter_ite (fun n => IsAllowedType (S.resourceAt c n).VarType bits)
    (fun st n => handle (S.resourceAt c n) n st) _ st

/-- `ProcessResources` folds the handlers over the specified visits. -/
theorem ProcessResources_eq_foldlM {σ : Type} (S : SPIRVShaderResources) (hS : S.Valid)
    (AllowedVarTypes : Option (List SHADER_VARIABLE_TYPE))
    (H : Category → SPIRVShaderResourceAttribs → Nat → σ → Except Error σ) (st : σ) :
    S.ProcessResources AllowedVarTypes (H Category.UB) (H Category.SB) (H Category.Img)
        (H Category.SmplImg) (H Category.AC) (H Category.SepImg) (H Category.SepSmpl) st =
      (S.visits (GetAllowedTypeBits AllowedVarTypes)).foldlM
        (fun st v => H v.1 (S.resourceAt v.1 v.2) v.2 st) st := by
  have key := fun (c : Category) (st : σ) =>
    processLoop_visits S hS (GetAllowedTypeBits AllowedVarTypes) c (H c) st
  have k1 := key Category.UB
  have k2 := key Category.SB
  have k3 := key Category.Img
  have k4 := key Category.SmplImg
  have k5 := key Category.AC
  have k6 := key Category.SepImg
  have k7 := key Category.SepSmpl
  simp only [Get, GetNum] at k1 k2 k3 k4 k5 k6 k7
  simp only [ProcessResources, GetNum, k1, k2, k3, k4, k5, k6, k7, visits, Category.all,
    List.flatMap_cons, List.flatMap_nil, List.foldlM_append, List.append_nil, List.foldlM_map]

/-- The specified visits are the allowed indices below the counts. -/
theorem mem_visits (S : SPIRVShaderResources) (bits : Nat) (c : Category) (n : Nat) :
    (c, n) ∈ S.visits bits ↔
      n < S.GetNum c ∧ IsAllowedType (S.resourceAt c n).VarType bits = true := by
  simp only [visits, List.mem_flatMap, List.mem_map, List.mem_filter, List.mem_range,
    Prod.mk.injEq]
  constructor
  · rintro ⟨a, _, m, ⟨hm, hal⟩, rfl, rfl⟩
    exact ⟨hm, hal⟩
  · rintro ⟨hm, hal⟩
    exact ⟨c, by cases c <;> simp [Category.all], n, ⟨hm, hal⟩, rfl, rfl⟩

/-- The specified visits come in category-major order. -/
theorem pairwise_visits (S : SPIRVShaderResources) (bits : Nat) :
    (S.visits bits).Pairwise visitBefore := by
  unfold visits
  rw [List.pairwise_flatMap]
  constructor
  · intro c _
    rw [List.pairwise_map]
    exact ((List.pairwise_lt_range _).filter _).imp (fun h => Or.inr ⟨rfl, h⟩)
  · have hall : Category.all.Pairwise (fun a b => a.index < b.index) := by decide
    refine hall.imp ?_
    intro a b hab x hx y hy
    simp only [List.mem_map] at hx hy
    obtain ⟨_, _, rfl⟩ := hx
    obtain ⟨_, _, rfl⟩ := hy
    exact Or.inl hab

/-- No visit is specified twice. -/
theorem nodup_visits (S : SPIRVShaderResources) (bits : Nat) : (S.visits bits).Nodup := by
  refine (pairwise_visits S bits).imp ?_
  intro v w h heq
  subst heq
  rcases h with h | ⟨_, h⟩ <;> exact Nat.lt_irrefl _ h

end SPIRVShaderResources

/-- Claim C6: on a valid store and for every allowed-class list, the
per-category `ProcessResources` runs, for any handlers and any initial state,
exactly the handler calls of the specified visit list, in its order, each call
being the handler of the visit's category on the descriptor and the
category-relative index of the visit. The visit list holds `(c, n)` exactly
when `n` is below the count of `c`, the accessor of `c` returns the descriptor
at `n` and `((1 << VarType) & mask) != 0` for that descriptor; it has no
duplicates and is in category-major order with increasing indices. -/
theorem SPIRVShaderResources_ProcessResources_visits (S : SPIRVShaderResources)
    (hS : S.Valid) (AllowedVarTypes : Option (List SHADER_VARIABLE_TYPE)) :
    (∀ (σ : Type)
        (H : SPIRVShaderResources.Category → SPIRVShaderResourceAttribs → Nat → σ →
          Except Error σ) (st : σ),
        S.ProcessResources AllowedVarTypes (H SPIRVShaderResources.Category.UB)
            (H SPIRVShaderResources.Category.SB) (H SPIRVShaderResources.Category.Img)
            (H SPIRVShaderResources.Category.SmplImg) (H SPIRVShaderResources.Category.AC)
            (H SPIRVShaderResources.Category.SepImg)
            (H SPIRVShaderResources.Category.SepSmpl) st =
          (S.visits (GetAllowedTypeBits AllowedVarTypes)).foldlM
            (fun st v => H v.1 (S.resourceAt v.1 v.2) v.2 st) st) ∧
    (∀ c n, (c, n) ∈ S.visits (GetAllowedTypeBits AllowedVarTypes) ↔
        n < S.GetNum c ∧ S.Get c n = Except.ok (S.resourceAt c n) ∧
          IsAllowedType (S.resourceAt c n).VarType (GetAllowedTypeBits AllowedVarTypes) = true) ∧
    (S.visits (GetAllowedTypeBits AllowedVarTypes)).Nodup ∧
    (S.visits (GetAllowedTypeBits AllowedVarTypes)).Pairwise
      SPIRVShaderResources.visitBefore := by
  refine ⟨fun σ H st => SPIRVShaderResources.ProcessResources_eq_foldlM S hS _ H st, ?_,
    SPIRVShaderResources.nodup_visits S _, SPIRVShaderResources.pairwise_visits S _⟩
  intro c n
  rw [SPIRVShaderResources.mem_visits]
  constructor
  · rintro ⟨h1, h2⟩
    exact ⟨h1, SPIRVShaderResources.Get_ok S hS c n h1, h2⟩
  · rintro ⟨h1, _, h2⟩
    exact ⟨h1, h2⟩

/-- Witness of C6: on the scenario store with only the mutable class allowed,
recording handlers are called for the sampled image and the separate sampler,
in this order, each with index `0`. -/
theorem SPIRVShaderResources_ProcessResources_visits_witness :
    scenarioSPIRV.Valid ∧
    scenarioSPIRV.ProcessResources (some [SHADER_VARIABLE_TYPE_MUTABLE])
        (SPIRVShaderResources.recordVisit SPIRVShaderResources.Category.UB)
        (SPIRVShaderResources.recordVisit SPIRVShaderResources.Category.SB)
        (SPIRVShaderResources.recordVisit SPIRVShaderResources.Category.Img)
        (SPIRVShaderResources.recordVisit SPIRVShaderResources.Category.SmplImg)
        (SPIRVShaderResources.recordVisit SPIRVShaderResources.Category.AC)
        (SPIRVShaderResources.recordVisit SPIRVShaderResources.Category.SepImg)
        (SPIRVShaderResources.recordVisit SPIRVShaderResources.Category.SepSmpl) [] =
      Except.ok [(SPIRVShaderResources.Category.SmplImg, 0),
        (SPIRVShaderResources.Category.SepSmpl, 0)] := by
  refine ⟨by decide, ?_⟩
  rw [(SPIRVShaderResources_ProcessResources_visits scenarioSPIRV (by decide)
    (some [SHADER_VARIABLE_TYPE_MUTABLE])).1 _ SPIRVShaderResources.recordVisit []]
  rfl

/-- Claim C7: two descriptors are compatible exactly when they have the same
array size, the same resource type, the same variable type, and static sampler
indices that are both negative or both non-negative. The result does not
change when the names and the two decoration offsets of both descriptors are
replaced, and for any two non-negative sampler indices it is the comparison of
the three other fields. -/
theorem SPIRVShaderResourceAttribs_IsCompatibleWith_iff (a b : SPIRVShaderResourceAttribs) :
    (a.IsCompatibleWith b = true ↔
      a.ArraySize = b.ArraySize ∧ a.Type_ = b.Type_ ∧ a.VarType = b.VarType ∧
        ((a.StaticSamplerInd < 0 ∧ b.StaticSamplerInd < 0) ∨
          (0 ≤ a.StaticSamplerInd ∧ 0 ≤ b.StaticSamplerInd))) ∧
    (∀ (na nb : String) (ba da bb db : Nat),
      SPIRVShaderResourceAttribs.IsCompatibleWith
        { a with Name := na, BindingDecorationOffset := ba, DescriptorSetDecorationOffset := da }
        { b with Name := nb, BindingDecorationOffset := bb, DescriptorSetDecorationOffset := db }
        = a.IsCompatibleWith b) ∧
    (∀ i j : Nat,
      SPIRVShaderResourceAttribs.IsCompatibleWith
        { a with StaticSamplerInd := Int.ofNat i } { b with StaticSamplerInd := Int.ofNat j } =
        (a.ArraySize == b.ArraySize && a.Type_ == b.Type_ && a.VarType == b.VarType)) := by
  refine ⟨?_, fun _ _ _ _ _ _ => rfl, ?_⟩
  · simp only [SPIRVShaderResourceAttribs.IsCompatibleWith, Bool.and_eq_true, Bool.or_eq_true,
      beq_iff_eq, decide_eq_true_eq, ge_iff_le, and_assoc]
  · intro i j
    have hi : ¬ (Int.ofNat i < 0) := by simp
    have hj : (0 : Int) ≤ Int.ofNat j := by simp
    have hi2 : (0 : Int) ≤ Int.ofNat i := by simp
    simp [SPIRVShaderResourceAttribs.IsCompatibleWith, hi, hj, hi2]

/-! ### The Direct3D store -/

/-- Under the mask of `nullptr` every variable type below 32 is allowed. -/
theorem IsAllowedType_all_bits (v : Nat) (h : v < 32) : IsAllowedType v 0xFFFFFFFF = true := by
  interval_cases v <;> rfl

/-- The loop with a handler of `IsCompatibleWith`: when both stores can be read
and every descriptor is allowed, the flag ends as its initial value and the
compatibility of every pair. -/
theorem processLoop_compat {α : Type} (getA getB : Nat → Except Error α) (allowed : α → Bool)
    (compat : α → α → Bool) (a b : Nat → α) :
    ∀ (k n : Nat) (acc : Bool),
      (∀ i, n ≤ i → i < n + k →
        getA i = Except.ok (a i) ∧ allowed (a i) = true ∧ getB i = Except.ok (b i)) →
      processLoop getA allowed
          (fun d i IsCompatible => do
            let r ← getB i
            pure (if !compat d r then false else IsCompatible)) k n acc =
        Except.ok (acc && (List.range' n k).all fun i => compat (a i) (b i)) := by
  intro k
  induction k with
  | zero => intro n acc _; simp [processLoop]; rfl
  | succ k ih =>
    intro n acc h
    obtain ⟨h1, h2, h3⟩ := h n (Nat.le_refl _) (by omega)
    have hrest : ∀ i, n + 1 ≤ i → i < n + 1 + k →
        getA i = Except.ok (a i) ∧ allowed (a i) = true ∧ getB i = Except.ok (b i) :=
      fun i h1 h2 => h i (by omega) (by omega)
    simp only [processLoop, h1, h2, h3, Except_ok_bind, if_true, pure_bind, List.range'_succ,
      List.all_cons]
    rw [ih (n + 1) _ hrest]
    cases compat (a n) (b n) <;> cases acc <;> simp

/-- The loop with a handler of `GetHash`: the descriptors are folded into the
hash in index order. -/
theorem processLoop_hash {α : Type} (get : Nat → Except Error α) (allowed : α → Bool)
    (f : Nat → α → Nat) (a : Nat → α) :
    ∀ (k n : Nat) (hash : Nat),
      (∀ i, n ≤ i → i < n + k → get i = Except.ok (a i) ∧ allowed (a i) = true) →
      processLoop get allowed (fun d _ hash => pure (f hash d)) k n hash =
        Except.ok (((List.range' n k).map a).foldl f hash) := by
  intro k
  induction k with
  | zero => intro n acc _; simp [processLoop]; rfl
  | succ k ih =>
    intro n acc h
    obtain ⟨h1, h2⟩ := h n (Nat.le_refl _) (by omega)
    have hrest : ∀ i, n + 1 ≤ i → i < n + 1 + k →
        get i = Except.ok (a i) ∧ allowed (a i) = true :=
      fun i h1 h2 => h i (by omega) (by omega)
    simp only [processLoop, h1, h2, Except_ok_bind, if_true, pure_bind, List.range'_succ,
      List.map_cons, List.foldl_cons]
    exact ih (n + 1) _ hrest

namespace ShaderResources

/-- In a valid store a category ends at or before the total. -/
theorem d3d_offsetOf_add_GetNum (S : ShaderResources) (hS : S.Valid) (c : Category) :
    S.offsetOf c + S.GetNum c ≤ S.m_TotalResources := by
  obtain ⟨h1, h2, h3, h4, h5, h6, _⟩ := hS
  have h7 : S.m_TotalResources < Uint32Size := by
    have : OffsetTypeSize ≤ Uint32Size := by decide
    omega
  cases c <;>
    simp only [GetNum, offsetOf, GetNumCBs, GetNumTexSRV, GetNumTexUAV, GetNumBufSRV,
      GetNumBufUAV, GetNumSamplers, offsetDiff] <;>
    rw [offsetDiff_eq _ _ (by omega) (by omega)] <;> omega

/-- A checked access inside the category and the buffer reads the buffer. -/
theorem d3d_GetResAttribs_ok (S : ShaderResources) (n Num Off : Nat) (h1 : n < Num)
    (h2 : Off + n < S.m_TotalResources) (h3 : S.m_MemoryBuffer.length = S.m_TotalResources) :
    S.GetResAttribs n Num Off = Except.ok (S.m_MemoryBuffer.getD (Off + n) default) := by
  have h4 : Off + n < S.m_MemoryBuffer.length := by omega
  simp [GetResAttribs, VERIFY, h1, h2, List.getElem?_eq_getElem h4, List.getD_eq_getElem?_getD]
  rfl

/-- A checked access that succeeds is below the given count. -/
theorem d3d_GetResAttribs_lt (S : ShaderResources) (n Num Off : Nat)
    (r : D3DShaderResourceAttribs) (h : S.GetResAttribs n Num Off = Except.ok r) : n < Num := by
  by_contra hn
  simp [GetResAttribs, VERIFY, hn] at h
  cases h

/-- In a valid store the accessor of a category succeeds below the count. -/
theorem d3d_Get_ok (S : ShaderResources) (hS : S.Valid) (c : Category) (n : Nat)
    (h : n < S.GetNum c) : S.Get c n = Except.ok (S.resourceAt c n) := by
  have hle := d3d_offsetOf_add_GetNum S hS c
  have hlen := hS.2.2.2.2.2.2.1
  cases c <;>
    exact d3d_GetResAttribs_ok S n _ _ h (by simp only [offsetOf] at hle; omega) hlen

/-- An accessor that succeeds was called below the count of its category. -/
theorem d3d_Get_lt (S : ShaderResources) (c : Category) (n : Nat)
    (r : D3DShaderResourceAttribs) (h : S.Get c n = Except.ok r) : n < S.GetNum c := by
  cases c <;> exact d3d_GetResAttribs_lt S n _ _ r h

/-- In a valid store every descriptor passes the filter of `nullptr`. -/
theorem d3d_allowed (S : ShaderResources) (hS : S.Valid) (c : Category) (n : Nat)
    (h : n < S.GetNum c) :
    (S.resourceAt c n).IsAllowedType (GetAllowedTypeBits none) = true := by
  have hle := d3d_offsetOf_add_GetNum S hS c
  have hlen := hS.2.2.2.2.2.2.1
  have h4 : S.offsetOf c + n < S.m_MemoryBuffer.length := by omega
  have hmem : S.resourceAt c n ∈ S.m_MemoryBuffer := by
    unfold resourceAt
    rw [List.getD_eq_getElem?_getD, List.getElem?_eq_getElem h4]
    exact List.getElem_mem h4
  exact IsAllowedType_all_bits _ (hS.2.2.2.2.2.2.2 _ hmem)


/-- Stores that differ in a category count are reported incompatible. -/
theorem IsCompatibleWith_counts_differ (A B : ShaderResources)
    (h : ∃ c, A.GetNum c ≠ B.GetNum c) : A.IsCompatibleWith B = Except.ok false := by
  obtain ⟨c, hc⟩ := h
  cases c <;> simp only [GetNum] at hc <;> simp [IsCompatibleWith, hc] <;> rfl

/-- On valid stores with equal counts `IsCompatibleWith` is the conjunction of
the pairwise compatibility of the six categories. -/
theorem IsCompatibleWith_counts_equal (A B : ShaderResources) (hA : A.Valid) (hB : B.Valid)
    (h : ∀ c, A.GetNum c = B.GetNum c) :
    A.IsCompatibleWith B = Except.ok
      (A.categoryCompatible B Category.CB && A.categoryCompatible B Category.Sampler &&
        A.categoryCompatible B Category.TexSRV && A.categoryCompatible B Category.TexUAV &&
        A.categoryCompatible B Category.BufSRV && A.categoryCompatible B Category.BufUAV) := by
  have key : ∀ (c : Category) (acc : Bool),
      processLoop (A.Get c) (fun r => r.IsAllowedType (GetAllowedTypeBits none))
          (fun d i IsCompatible => do
            let r ← B.Get c i
            pure (if !d.IsCompatibleWith r then false else IsCompatible)) (A.GetNum c) 0 acc =
        Except.ok (acc && A.categoryCompatible B c) := by
    intro c acc
    rw [processLoop_compat (A.Get c) (B.Get c) _ D3DShaderResourceAttribs.IsCompatibleWith
      (A.resourceAt c) (B.resourceAt c) (A.GetNum c) 0 acc
      (fun i _ hi => ⟨d3d_Get_ok A hA c i (by omega), d3d_allowed A hA c i (by omega),
        d3d_Get_ok B hB c i (by rw [← h c]; omega)⟩)]
    rw [← List.range_eq_range']
    rfl
  have k1 := key Category.CB
  have k2 := key Category.Sampler
  have k3 := key Category.TexSRV
  have k4 := key Category.TexUAV
  have k5 := key Category.BufSRV
  have k6 := key Category.BufUAV
  have c1 := h Category.CB
  have c2 := h Category.Sampler
  have c3 := h Category.TexSRV
  have c4 := h Category.TexUAV
  have c5 := h Category.BufSRV
  have c6 := h Category.BufUAV
  simp only [Get, GetNum] at k1 k2 k3 k4 k5 k6 c1 c2 c3 c4 c5 c6
  simp only [c1, c2, c3, c4, c5, c6] at k1 k2 k3 k4 k5 k6
  simp only [IsCompatibleWith, c1, c2, c3, c4, c5, c6, bne_self_eq_false, Bool.or_self,
    Bool.false_eq_true, if_false, ProcessResources, k1, k2, k3, k4, k5, k6, Except_ok_bind,
    Bool.true_and]

/-- Pairwise compatibility of a category, index by index. -/
theorem categoryCompatible_iff (A B : ShaderResources) (c : Category) :
    A.categoryCompatible B c = true ↔
      ∀ n, n < A.GetNum c → (A.resourceAt c n).IsCompatibleWith (B.resourceAt c n) = true := by
  simp [categoryCompatible, List.all_eq_true]


/-- On valid stores `IsCompatibleWith` returns a boolean. -/
theorem IsCompatibleWith_total (A B : ShaderResources) (hA : A.Valid) (hB : B.Valid) :
    ∃ r, A.IsCompatibleWith B = Except.ok r := by
  by_cases h : ∀ c, A.GetNum c = B.GetNum c
  · exact ⟨_, IsCompatibleWith_counts_equal A B hA hB h⟩
  · exact ⟨false, IsCompatibleWith_counts_differ A B (by push_neg at h; exact h)⟩

/-- On valid stores `IsCompatibleWith` is true exactly for equal counts and
pairwise compatible descriptors. -/
theorem IsCompatibleWith_ok_true_iff (A B : ShaderResources) (hA : A.Valid) (hB : B.Valid) :
    A.IsCompatibleWith B = Except.ok true ↔
      (∀ c, A.GetNum c = B.GetNum c) ∧
      ∀ c n, n < A.GetNum c →
        (A.resourceAt c n).IsCompatibleWith (B.resourceAt c n) = true := by
  by_cases h : ∀ c, A.GetNum c = B.GetNum c
  · rw [IsCompatibleWith_counts_equal A B hA hB h]
    simp only [Except.ok.injEq, Bool.and_eq_true, categoryCompatible_iff]
    constructor
    · rintro ⟨⟨⟨⟨⟨h1, h2⟩, h3⟩, h4⟩, h5⟩, h6⟩
      refine ⟨h, fun c => ?_⟩
      cases c
      · exact h1
      · exact h3
      · exact h4
      · exact h5
      · exact h6
      · exact h2
    · rintro ⟨_, hall⟩
      exact ⟨⟨⟨⟨⟨hall _, hall _⟩, hall _⟩, hall _⟩, hall _⟩, hall _⟩
  · rw [IsCompatibleWith_counts_differ A B (by push_neg at h; exact h)]
    constructor
    · intro hf
      cases hf
    · rintro ⟨hc, _⟩
      exact absurd hc h

/-- A descriptor is compatible with itself. -/
theorem D3D_IsCompatibleWith_refl (d : D3DShaderResourceAttribs) :
    d.IsCompatibleWith d = true := by
  simp [D3DShaderResourceAttribs.IsCompatibleWith]

/-- Compatible descriptors agree on the four compared fields. -/
theorem D3D_IsCompatibleWith_fields (a b : D3DShaderResourceAttribs)
    (h : a.IsCompatibleWith b = true) :
    a.BindCount = b.BindCount ∧ a.InputType = b.InputType ∧
      a.VariableType = b.VariableType ∧ a.ValidSamplerAssigned = b.ValidSamplerAssigned := by
  simpa [D3DShaderResourceAttribs.IsCompatibleWith, and_assoc] using h

/-- Compatible descriptors have the same hash. -/
theorem D3D_GetHash_congr (H : HashUtils) (a b : D3DShaderResourceAttribs)
    (h : a.IsCompatibleWith b = true) : a.GetHash H = b.GetHash H := by
  obtain ⟨h1, h2, h3, h4⟩ := D3D_IsCompatibleWith_fields a b h
  simp only [D3DShaderResourceAttribs.GetHash, h1, h2, h3, h4]

/-- On a valid store `GetHash` folds the descriptor hashes, category by
category, into the hash of the six counts. -/
theorem GetHash_eq (H : HashUtils) (S : ShaderResources) (hS : S.Valid) :
    S.GetHash H = Except.ok
      ((S.categoryHashes H Category.CB ++ S.categoryHashes H Category.Sampler ++
          S.categoryHashes H Category.TexSRV ++ S.categoryHashes H Category.TexUAV ++
          S.categoryHashes H Category.BufSRV ++ S.categoryHashes H Category.BufUAV).foldl H.mix
        (H.ComputeHash [S.GetNumCBs, S.GetNumTexSRV, S.GetNumTexUAV, S.GetNumBufSRV,
          S.GetNumBufUAV, S.GetNumSamplers])) := by
  have key : ∀ (c : Category) (hash : Nat),
      processLoop (S.Get c) (fun r => r.IsAllowedType (GetAllowedTypeBits none))
          (fun d _ hash => pure (H.mix hash (d.GetHash H))) (S.GetNum c) 0 hash =
        Except.ok ((S.categoryHashes H c).foldl H.mix hash) := by
    intro c hash
    rw [processLoop_hash (S.Get c) _ (fun hash d => H.mix hash (d.GetHash H))
      (S.resourceAt c) (S.GetNum c) 0 hash
      (fun i _ hi => ⟨d3d_Get_ok S hS c i (by omega), d3d_allowed S hS c i (by omega)⟩)]
    rw [← List.range_eq_range', categoryHashes, List.foldl_map, List.foldl_map]
  have k1 := key Category.CB
  have k2 := key Category.Sampler
  have k3 := key Category.TexSRV
  have k4 := key Category.TexUAV
  have k5 := key Category.BufSRV
  have k6 := key Category.BufUAV
  simp only [Get, GetNum] at k1 k2 k3 k4 k5 k6
  simp only [GetHash, ProcessResources, k1, k2, k3, k4, k5, k6, Except_ok_bind,
    List.foldl_append]

/-- Pairwise compatible categories of equal count have the same hashes. -/
theorem categoryHashes_congr (H : HashUtils) (A B : ShaderResources) (c : Category)
    (hc : A.GetNum c = B.GetNum c)
    (h : ∀ n, n < A.GetNum c →
      (A.resourceAt c n).IsCompatibleWith (B.resourceAt c n) = true) :
    A.categoryHashes H c = B.categoryHashes H c := by
  unfold categoryHashes
  rw [← hc]
  apply List.map_congr_left
  intro n hn
  exact D3D_GetHash_congr H _ _ (h n (List.mem_range.mp hn))

/-- Compatible valid stores have the same hash. -/
theorem GetHash_congr (H : HashUtils) (A B : ShaderResources) (hA : A.Valid) (hB : B.Valid)
    (h : A.IsCompatibleWith B = Except.ok true) : A.GetHash H = B.GetHash H := by
  obtain ⟨hc, hall⟩ := (IsCompatibleWith_ok_true_iff A B hA hB).mp h
  have e := fun c => categoryHashes_congr H A B c (hc c) (hall c)
  have c1 := hc Category.CB
  have c2 := hc Category.Sampler
  have c3 := hc Category.TexSRV
  have c4 := hc Category.TexUAV
  have c5 := hc Category.BufSRV
  have c6 := hc Category.BufUAV
  simp only [GetNum] at c1 c2 c3 c4 c5 c6
  rw [GetHash_eq H A hA, GetHash_eq H B hB, e, e, e, e, e, e, c1, c2, c3, c4, c5, c6]

end ShaderResources


/-- Claim C1: for valid stores `A` and `B`, `IsCompatibleWith` returns a
boolean, and it returns true exactly when every category count of `A` equals
that of `B` and, for every category and every index below the count, the
descriptors that the category accessors of `A` and `B` return are compatible.
It returns false when some category count differs, and when the descriptors at
some category index differ in array size or in variable class. -/
theorem ShaderResources_IsCompatibleWith_iff (A B : ShaderResources)
    (hA : A.Valid) (hB : B.Valid) :
    (∃ r, A.IsCompatibleWith B = Except.ok r) ∧
    (A.IsCompatibleWith B = Except.ok true ↔
      (∀ c, A.GetNum c = B.GetNum c) ∧
      ∀ c n, n < A.GetNum c →
        ∃ a b, A.Get c n = Except.ok a ∧ B.Get c n = Except.ok b ∧
          a.IsCompatibleWith b = true) ∧
    ((∃ c, A.GetNum c ≠ B.GetNum c) → A.IsCompatibleWith B = Except.ok false) ∧
    (∀ c n a b, A.Get c n = Except.ok a → B.Get c n = Except.ok b →
      (a.BindCount ≠ b.BindCount ∨ a.VariableType ≠ b.VariableType) →
      A.IsCompatibleWith B = Except.ok false) := by
  have hiff := ShaderResources.IsCompatibleWith_ok_true_iff A B hA hB
  refine ⟨ShaderResources.IsCompatibleWith_total A B hA hB, ?_,
    ShaderResources.IsCompatibleWith_counts_differ A B, ?_⟩
  · rw [hiff]
    constructor
    · rintro ⟨hc, hall⟩
      refine ⟨hc, fun c n hn => ⟨_, _, ShaderResources.d3d_Get_ok A hA c n hn,
        ShaderResources.d3d_Get_ok B hB c n (by rw [← hc c]; exact hn), hall c n hn⟩⟩
    · rintro ⟨hc, hall⟩
      refine ⟨hc, fun c n hn => ?_⟩
      obtain ⟨a, b, ha, hb, hab⟩ := hall c n hn
      rw [ShaderResources.d3d_Get_ok A hA c n hn] at ha
      rw [ShaderResources.d3d_Get_ok B hB c n (by rw [← hc c]; exact hn)] at hb
      cases ha
      cases hb
      exact hab
  · intro c n a b ha hb hne
    obtain ⟨r, hr⟩ := ShaderResources.IsCompatibleWith_total A B hA hB
    cases r
    · exact hr
    · exfalso
      obtain ⟨hc, hall⟩ := hiff.mp hr
      have hn := ShaderResources.d3d_Get_lt A c n a ha
      have hn2 := ShaderResources.d3d_Get_lt B c n b hb
      rw [ShaderResources.d3d_Get_ok A hA c n hn] at ha
      rw [ShaderResources.d3d_Get_ok B hB c n hn2] at hb
      cases ha
      cases hb
      obtain ⟨h1, _, h3, _⟩ := ShaderResources.D3D_IsCompatibleWith_fields _ _ (hall c n hn)
      rcases hne with hne | hne
      · exact hne h1
      · exact hne h3

/-- Witness of C1: the scenario store is compatible with its renamed copy and
not with the copy whose texture is an array. -/
theorem ShaderResources_IsCompatibleWith_iff_witness :
    scenarioD3D.Valid ∧ scenarioD3DRenamed.Valid ∧ scenarioD3DArray.Valid ∧
    scenarioD3D.IsCompatibleWith scenarioD3DRenamed = Except.ok true ∧
    scenarioD3D.IsCompatibleWith scenarioD3DArray = Except.ok false := by
  refine ⟨by decide, by decide, by decide, ?_, ?_⟩
  · rw [(ShaderResources_IsCompatibleWith_iff scenarioD3D scenarioD3DRenamed
      (by decide) (by decide)).2.1]
    refine ⟨fun c => by cases c <;> rfl, fun c n hn => ?_⟩
    have hcount : scenarioD3D.GetNum c ≤ 1 := by cases c <;> decide
    have h0 : n = 0 := by omega
    subst h0
    cases c <;> first | exact ⟨_, _, rfl, rfl, rfl⟩ | exact absurd hn (by decide)
  · exact (ShaderResources_IsCompatibleWith_iff scenarioD3D scenarioD3DArray
      (by decide) (by decide)).2.2.2 ShaderResources.Category.TexSRV 0 _ _ rfl rfl
      (Or.inl (by decide))


/-- Claim C4: for valid stores `A` and `B`, if `IsCompatibleWith(A, B)` is
true then `GetHash(A)` and `GetHash(B)` are the same value, for any hashing
primitives. `GetHash` is the hash of the six category counts combined with the
hash of every descriptor, category by category and by increasing index inside
a category. -/
theorem ShaderResources_IsCompatibleWith_GetHash (H : HashUtils) (A B : ShaderResources)
    (hA : A.Valid) (hB : B.Valid) (h : A.IsCompatibleWith B = Except.ok true) :
    A.GetHash H = B.GetHash H ∧
    A.GetHash H = Except.ok
      ((A.categoryHashes H ShaderResources.Category.CB ++
          A.categoryHashes H ShaderResources.Category.Sampler ++
          A.categoryHashes H ShaderResources.Category.TexSRV ++
          A.categoryHashes H ShaderResources.Category.TexUAV ++
          A.categoryHashes H ShaderResources.Category.BufSRV ++
          A.categoryHashes H ShaderResources.Category.BufUAV).foldl H.mix
        (H.ComputeHash [A.GetNumCBs, A.GetNumTexSRV, A.GetNumTexUAV, A.GetNumBufSRV,
          A.GetNumBufUAV, A.GetNumSamplers])) :=
  ⟨ShaderResources.GetHash_congr H A B hA hB h, ShaderResources.GetHash_eq H A hA⟩

/-- Witness of C4: the scenario store and its renamed copy are compatible and
have the same hash. -/
theorem ShaderResources_IsCompatibleWith_GetHash_witness :
    scenarioD3D.Valid ∧ scenarioD3DRenamed.Valid ∧
    scenarioD3D.IsCompatibleWith scenarioD3DRenamed = Except.ok true ∧
    scenarioD3D.GetHash exampleHashUtils = scenarioD3DRenamed.GetHash exampleHashUtils :=
  ⟨by decide, by decide, rfl,
    (ShaderResources_IsCompatibleWith_GetHash exampleHashUtils scenarioD3D scenarioD3DRenamed
      (by decide) (by decide) rfl).1⟩

/-- Claim C8: for every valid store `S`, `IsCompatibleWith(S, S)` is true. -/
theorem ShaderResources_IsCompatibleWith_self (S : ShaderResources) (hS : S.Valid) :
    S.IsCompatibleWith S = Except.ok true :=
  (ShaderResources.IsCompatibleWith_ok_true_iff S S hS hS).mpr
    ⟨fun _ => rfl, fun _ _ _ => ShaderResources.D3D_IsCompatibleWith_refl _⟩

/-- Witness of C8: the scenario store is compatible with itself. -/
theorem ShaderResources_IsCompatibleWith_self_witness :
    scenarioD3D.Valid ∧ scenarioD3D.IsCompatibleWith scenarioD3D = Except.ok true :=
  ⟨by decide, ShaderResources_IsCompatibleWith_self scenarioD3D (by decide)⟩

/-- Claim C9: for valid stores `A` and `B` with the same category counts, if
every descriptor of `B` is the descriptor of `A` at the same category and
index with only the name replaced, then `IsCompatibleWith(A, B)` is true. -/
theorem ShaderResources_IsCompatibleWith_renamed (A B : ShaderResources)
    (hA : A.Valid) (hB : B.Valid) (hc : ∀ c, A.GetNum c = B.GetNum c)
    (hd : ∀ c n a b, A.Get c n = Except.ok a → B.Get c n = Except.ok b →
      { a with Name := b.Name } = b) :
    A.IsCompatibleWith B = Except.ok true := by
  refine (ShaderResources.IsCompatibleWith_ok_true_iff A B hA hB).mpr ⟨hc, fun c n hn => ?_⟩
  have e := hd c n _ _ (ShaderResources.d3d_Get_ok A hA c n hn)
    (ShaderResources.d3d_Get_ok B hB c n (by rw [← hc c]; exact hn))
  rw [← e]
  exact ShaderResources.D3D_IsCompatibleWith_refl _

/-- Witness of C9: the scenario store and its renamed copy. -/
theorem ShaderResources_IsCompatibleWith_renamed_witness :
    scenarioD3D.Valid ∧ scenarioD3DRenamed.Valid ∧
    scenarioD3D.IsCompatibleWith scenarioD3DRenamed = Except.ok true := by
  refine ⟨by decide, by decide,
    ShaderResources_IsCompatibleWith_renamed scenarioD3D scenarioD3DRenamed (by decide)
      (by decide) (fun c => by cases c <;> rfl) ?_⟩
  intro c n a b ha hb
  have hn := ShaderResources.d3d_Get_lt scenarioD3D c n a ha
  have hcount : scenarioD3D.GetNum c ≤ 1 := by cases c <;> decide
  have h0 : n = 0 := by omega
  subst h0
  cases c <;> first
    | exact absurd hn (by decide)
    | (cases ha; cases hb; rfl)

namespace ShaderResources

/-- `StreqSuff` decides equality with the concatenation. -/
theorem StreqSuff_iff (RefStr Str Suff : String) :
    StreqSuff RefStr Str Suff = true ↔ RefStr = Str ++ Suff := by
  simp [StreqSuff]

/-- The loop of `FindAssignedSamplerId` from index `s` returns the sentinel when
no remaining sampler matches, and otherwise the least matching index. -/
theorem FindAssignedSamplerId_loop_spec (S : ShaderResources) (hS : S.Valid)
    (TexSRV : D3DShaderResourceAttribs) (SamplerSuffix : String) :
    ∀ (k s : Nat), s + k = S.GetNumSamplers →
      ∃ r, FindAssignedSamplerId.loop S TexSRV SamplerSuffix k s = Except.ok r ∧
        ((r.1 = D3DShaderResourceAttribs.InvalidSamplerId ∧
            ∀ j, s ≤ j → j < s + k →
              (S.resourceAt Category.Sampler j).Name ≠ TexSRV.Name ++ SamplerSuffix) ∨
          (s ≤ r.1 ∧ r.1 < s + k ∧
            (S.resourceAt Category.Sampler r.1).Name = TexSRV.Name ++ SamplerSuffix ∧
            ∀ j, s ≤ j → j < r.1 →
              (S.resourceAt Category.Sampler j).Name ≠ TexSRV.Name ++ SamplerSuffix)) := by
  intro k
  induction k with
  | zero =>
    intro s _
    exact ⟨_, rfl, Or.inl ⟨rfl, fun j h1 h2 => absurd h2 (by omega)⟩⟩
  | succ k ih =>
    intro s hs
    have hget : S.GetSampler s = Except.ok (S.resourceAt Category.Sampler s) :=
      d3d_Get_ok S hS Category.Sampler s (by simp only [GetNum]; omega)
    by_cases hm : (S.resourceAt Category.Sampler s).Name = TexSRV.Name ++ SamplerSuffix
    · have hlt : s < s + (k + 1) := by omega
      have heq : ∃ log, FindAssignedSamplerId.loop S TexSRV SamplerSuffix (k + 1) s =
          Except.ok (s, log) := by
        simp only [FindAssignedSamplerId.loop, hget, Except_ok_bind,
          (StreqSuff_iff _ _ _).mpr hm, if_true]
        exact ⟨_, rfl⟩
      obtain ⟨log, hlog⟩ := heq
      exact ⟨(s, log), hlog, Or.inr ⟨Nat.le_refl s, hlt, hm,
        fun j h1 h2 => absurd h2 (Nat.not_lt.mpr h1)⟩⟩
    · obtain ⟨r, hr, hspec⟩ := ih (s + 1) (by omega)
      refine ⟨r, ?_, ?_⟩
      · have hf : StreqSuff (S.resourceAt Category.Sampler s).Name TexSRV.Name SamplerSuffix
            = false := by
          rw [Bool.eq_false_iff]
          exact fun h => hm ((StreqSuff_iff _ _ _).mp h)
        simp only [FindAssignedSamplerId.loop, hget, Except_ok_bind, hf, Bool.false_eq_true,
          if_false]
        exact hr
      · rcases hspec with ⟨h1, h2⟩ | ⟨h1, h2, h3, h4⟩
        · refine Or.inl ⟨h1, fun j hj1 hj2 => ?_⟩
          by_cases hjs : j = s
          · subst hjs; exact hm
          · exact h2 j (by omega) (by omega)
        · refine Or.inr ⟨by omega, by omega, h3, fun j hj1 hj2 => ?_⟩
          by_cases hjs : j = s
          · subst hjs; exact hm
          · exact h4 j (by omega) hj2

/-- No sampler index of a valid store is the sentinel. -/
theorem GetNumSamplers_lt_InvalidSamplerId (S : ShaderResources) (hS : S.Valid) :
    S.GetNumSamplers < D3DShaderResourceAttribs.InvalidSamplerId := by
  have h := d3d_offsetOf_add_GetNum S hS Category.Sampler
  have h2 := hS.2.2.2.2.2.1
  simp only [GetNum] at h
  have : OffsetTypeSize < D3DShaderResourceAttribs.InvalidSamplerId := by decide
  omega

end ShaderResources

/-- Claim C5: on a valid store, for a texture descriptor (a texture input
whose SRV dimension is not a buffer) and a non-empty suffix,
`FindAssignedSamplerId` returns a value: it is the index `s` whenever the
sampler at `s` is named as the texture followed by the suffix and no sampler
at a smaller index is, and it is `InvalidSamplerId` exactly when no sampler of
the store has that name. -/
theorem ShaderResources_FindAssignedSamplerId_spec (S : ShaderResources) (hS : S.Valid)
    (TexSRV : D3DShaderResourceAttribs) (SamplerSuffix : String)
    (hsuf : SamplerSuffix ≠ "") (htex : TexSRV.InputType = D3D_SIT_TEXTURE)
    (hdim : TexSRV.SRVDimension ≠ D3D_SRV_DIMENSION_BUFFER) :
    ∃ r, S.FindAssignedSamplerId TexSRV SamplerSuffix = Except.ok r ∧
      (∀ s Sam, S.GetSampler s = Except.ok Sam → Sam.Name = TexSRV.Name ++ SamplerSuffix →
        (∀ j Sam2, j < s → S.GetSampler j = Except.ok Sam2 →
          Sam2.Name ≠ TexSRV.Name ++ SamplerSuffix) → r.1 = s) ∧
      (r.1 = D3DShaderResourceAttribs.InvalidSamplerId ↔
        ∀ s Sam, S.GetSampler s = Except.ok Sam → Sam.Name ≠ TexSRV.Name ++ SamplerSuffix) := by
  obtain ⟨r, hr, hspec⟩ := ShaderResources.FindAssignedSamplerId_loop_spec S hS TexSRV
    SamplerSuffix S.GetNumSamplers 0 (by omega)
  have hlt := ShaderResources.GetNumSamplers_lt_InvalidSamplerId S hS
  have hget : ∀ s, s < S.GetNumSamplers →
      S.GetSampler s = Except.ok (S.resourceAt ShaderResources.Category.Sampler s) :=
    fun s hs => ShaderResources.d3d_Get_ok S hS ShaderResources.Category.Sampler s hs
  have hltof : ∀ s Sam, S.GetSampler s = Except.ok Sam → s < S.GetNumSamplers :=
    fun s Sam h => ShaderResources.d3d_Get_lt S ShaderResources.Category.Sampler s Sam h
  refine ⟨r, ?_, ?_, ?_⟩
  · simp only [ShaderResources.FindAssignedSamplerId, VERIFY, bne_iff_ne, ne_eq, hsuf,
      not_false_eq_true, if_true, htex, beq_self_eq_true, hdim, Bool.and_self, decide_True,
      decide_not, Bool.not_eq_true', Bool.true_and]
    exact hr
  · intro s Sam hs hname hleast
    have hslt := hltof s Sam hs
    rw [hget s hslt] at hs
    cases hs
    rcases hspec with ⟨_, h2⟩ | ⟨_, h2, h3, h4⟩
    · exact absurd hname (h2 s (Nat.zero_le _) (by omega))
    · by_contra hne
      rcases Nat.lt_or_gt_of_ne hne with hlt2 | hgt
      · exact hleast r.1 _ hlt2 (hget r.1 (by omega)) h3
      · exact h4 s (Nat.zero_le _) hgt hname
  · constructor
    · intro hinv s Sam hs
      have hslt := hltof s Sam hs
      rw [hget s hslt] at hs
      cases hs
      rcases hspec with ⟨_, h2⟩ | ⟨_, h2, _, _⟩
      · exact h2 s (Nat.zero_le _) (by omega)
      · omega
    · intro hall
      rcases hspec with ⟨h1, _⟩ | ⟨_, h2, h3, _⟩
      · exact h1
      · exact absurd h3 (hall r.1 _ (hget r.1 (by omega)))


/-- Witness of C5: in the scenario store the texture `Tex` with the suffix
`_sampler` resolves to sampler `0`; in the renamed store, whose sampler is
`Albedo_sampler`, it resolves to the sentinel. -/
theorem ShaderResources_FindAssignedSamplerId_spec_witness :
    scenarioD3D.Valid ∧ scenarioD3DRenamed.Valid ∧ "_sampler" ≠ "" ∧
    scenarioTex.InputType = D3D_SIT_TEXTURE ∧
    scenarioTex.SRVDimension ≠ D3D_SRV_DIMENSION_BUFFER ∧
    (∃ r, scenarioD3D.FindAssignedSamplerId scenarioTex "_sampler" = Except.ok r ∧ r.1 = 0) ∧
    (∃ r, scenarioD3DRenamed.FindAssignedSamplerId scenarioTex "_sampler" = Except.ok r ∧
      r.1 = D3DShaderResourceAttribs.InvalidSamplerId) := by
  refine ⟨by decide, by decide, by decide, rfl, by decide, ?_, ?_⟩
  · obtain ⟨r, hr, h1, _⟩ := ShaderResources_FindAssignedSamplerId_spec scenarioD3D
      (by decide) scenarioTex "_sampler" (by decide) rfl (by decide)
    exact ⟨r, hr, h1 0 _ rfl (by decide) (fun j _ hj => absurd hj (Nat.not_lt_zero j))⟩
  · obtain ⟨r, hr, _, h2⟩ := ShaderResources_FindAssignedSamplerId_spec scenarioD3DRenamed
      (by decide) scenarioTex "_sampler" (by decide) rfl (by decide)
    refine ⟨r, hr, h2.mpr ?_⟩
    intro s Sam hs
    have hn := ShaderResources.d3d_Get_lt scenarioD3DRenamed
      ShaderResources.Category.Sampler s Sam hs
    have hcount : scenarioD3DRenamed.GetNum ShaderResources.Category.Sampler = 1 := by decide
    have h0 : s = 0 := by omega
    subst h0
    cases hs
    decide

namespace ShaderResources

/-- When the counts sum to at most 65535 every check of `AllocateMemory`
passes and the offsets are the prefix sums. -/
theorem AllocateMemory_eq (S : ShaderResources)
    (NumCBs NumTexSRVs NumTexUAVs NumBufSRVs NumBufUAVs NumSamplers : Nat)
    (ResourceNamesPoolSize : Nat)
    (h : NumCBs + NumTexSRVs + NumTexUAVs + NumBufSRVs + NumBufUAVs + NumSamplers ≤ 65535) :
    ∃ buf names, S.AllocateMemory NumCBs NumTexSRVs NumTexUAVs NumBufSRVs NumBufUAVs NumSamplers
        ResourceNamesPoolSize = Except.ok
      { m_MemoryBuffer := buf
        m_ResourceNames := names
        m_TexSRVOffset := NumCBs
        m_TexUAVOffset := NumCBs + NumTexSRVs
        m_BufSRVOffset := NumCBs + NumTexSRVs + NumTexUAVs
        m_BufUAVOffset := NumCBs + NumTexSRVs + NumTexUAVs + NumBufSRVs
        m_SamplersOffset := NumCBs + NumTexSRVs + NumTexUAVs + NumBufSRVs + NumBufUAVs
        m_TotalResources :=
          NumCBs + NumTexSRVs + NumTexUAVs + NumBufSRVs + NumBufUAVs + NumSamplers
        m_ShaderType := S.m_ShaderType } := by
  have m1 : NumCBs % 65536 = NumCBs := Nat.mod_eq_of_lt (by omega)
  have m2 : NumTexSRVs % 65536 = NumTexSRVs := Nat.mod_eq_of_lt (by omega)
  have m3 : NumTexUAVs % 65536 = NumTexUAVs := Nat.mod_eq_of_lt (by omega)
  have m4 : NumBufSRVs % 65536 = NumBufSRVs := Nat.mod_eq_of_lt (by omega)
  have m5 : NumBufUAVs % 65536 = NumBufUAVs := Nat.mod_eq_of_lt (by omega)
  have m6 : NumSamplers % 65536 = NumSamplers := Nat.mod_eq_of_lt (by omega)
  have s2 : (NumCBs + NumTexSRVs) % 65536 = NumCBs + NumTexSRVs := Nat.mod_eq_of_lt (by omega)
  have s3 : (NumCBs + NumTexSRVs + NumTexUAVs) % 65536 = NumCBs + NumTexSRVs + NumTexUAVs :=
    Nat.mod_eq_of_lt (by omega)
  have s4 : (NumCBs + NumTexSRVs + NumTexUAVs + NumBufSRVs) % 65536 =
      NumCBs + NumTexSRVs + NumTexUAVs + NumBufSRVs := Nat.mod_eq_of_lt (by omega)
  have s5 : (NumCBs + NumTexSRVs + NumTexUAVs + NumBufSRVs + NumBufUAVs) % 65536 =
      NumCBs + NumTexSRVs + NumTexUAVs + NumBufSRVs + NumBufUAVs := Nat.mod_eq_of_lt (by omega)
  have s6 : (NumCBs + NumTexSRVs + NumTexUAVs + NumBufSRVs + NumBufUAVs + NumSamplers) % 65536 =
      NumCBs + NumTexSRVs + NumTexUAVs + NumBufSRVs + NumBufUAVs + NumSamplers :=
    Nat.mod_eq_of_lt (by omega)
  have t2 : (NumCBs + NumTexSRVs) % 4294967296 = NumCBs + NumTexSRVs :=
    Nat.mod_eq_of_lt (by omega)
  have t3 : (NumCBs + NumTexSRVs + NumTexUAVs) % 4294967296 = NumCBs + NumTexSRVs + NumTexUAVs :=
    Nat.mod_eq_of_lt (by omega)
  have t4 : (NumCBs + NumTexSRVs + NumTexUAVs + NumBufSRVs) % 4294967296 =
      NumCBs + NumTexSRVs + NumTexUAVs + NumBufSRVs := Nat.mod_eq_of_lt (by omega)
  have t5 : (NumCBs + NumTexSRVs + NumTexUAVs + NumBufSRVs + NumBufUAVs) % 4294967296 =
      NumCBs + NumTexSRVs + NumTexUAVs + NumBufSRVs + NumBufUAVs := Nat.mod_eq_of_lt (by omega)
  have t6 : (NumCBs + NumTexSRVs + NumTexUAVs + NumBufSRVs + NumBufUAVs + NumSamplers)
      % 4294967296 =
      NumCBs + NumTexSRVs + NumTexUAVs + NumBufSRVs + NumBufUAVs + NumSamplers :=
    Nat.mod_eq_of_lt (by omega)
  have l1 : NumCBs ≤ 65535 := by omega
  have l2 : NumCBs + NumTexSRVs ≤ 65535 := by omega
  have l3 : NumCBs + NumTexSRVs + NumTexUAVs ≤ 65535 := by omega
  have l4 : NumCBs + NumTexSRVs + NumTexUAVs + NumBufSRVs ≤ 65535 := by omega
  have l5 : NumCBs + NumTexSRVs + NumTexUAVs + NumBufSRVs + NumBufUAVs ≤ 65535 := by omega
  have d1 : (NumCBs + 4294967296 - 0) % 4294967296 = NumCBs := by omega
  have d2 : (NumCBs + NumTexSRVs + 4294967296 - NumCBs) % 4294967296 = NumTexSRVs := by omega
  have d3 : (NumCBs + NumTexSRVs + NumTexUAVs + 4294967296 - (NumCBs + NumTexSRVs))
      % 4294967296 = NumTexUAVs := by omega
  have d4 : (NumCBs + NumTexSRVs + NumTexUAVs + NumBufSRVs + 4294967296 -
      (NumCBs + NumTexSRVs + NumTexUAVs)) % 4294967296 = NumBufSRVs := by omega
  have d5 : (NumCBs + NumTexSRVs + NumTexUAVs + NumBufSRVs + NumBufUAVs + 4294967296 -
      (NumCBs + NumTexSRVs + NumTexUAVs + NumBufSRVs)) % 4294967296 = NumBufUAVs := by omega
  have d6 : (NumCBs + NumTexSRVs + NumTexUAVs + NumBufSRVs + NumBufUAVs + NumSamplers +
      4294967296 - (NumCBs + NumTexSRVs + NumTexUAVs + NumBufSRVs + NumBufUAVs)) % 4294967296 =
      NumSamplers := by omega
  simp only [AllocateMemory, VERIFY, OffsetTypeSize, Uint32Size, Nat.reducePow, Nat.reduceSub,
    Nat.zero_add, m1, m2, m3, m4, m5, m6, s2, s3, s4, s5, s6, t2, t3, t4, t5, t6, l1, l2, l3,
    l4, l5, h, decide_True, if_true, GetNumCBs, GetNumTexSRV, GetNumTexUAV, GetNumBufSRV,
    GetNumBufUAV, GetNumSamplers, offsetDiff, d1, d2, d3, d4, d5, d6, beq_self_eq_true]
  simp only [pure_bind]
  split <;> exact ⟨_, _, rfl⟩

end ShaderResources

/-- Claim C10: when the six counts sum to at most 65535, `AllocateMemory`
succeeds, every stored category start offset is the sum of the counts of the
categories before it (constant buffers, texture SRVs, texture UAVs, buffer
SRVs, buffer UAVs, samplers), `m_TotalResources` is the sum of all counts, and
the offsets do not decrease in category order. -/
theorem ShaderResources_AllocateMemory_offsets (S : ShaderResources)
    (NumCBs NumTexSRVs NumTexUAVs NumBufSRVs NumBufUAVs NumSamplers : Nat)
    (ResourceNamesPoolSize : Nat)
    (h : NumCBs + NumTexSRVs + NumTexUAVs + NumBufSRVs + NumBufUAVs + NumSamplers ≤ 65535) :
    ∃ R, S.AllocateMemory NumCBs NumTexSRVs NumTexUAVs NumBufSRVs NumBufUAVs NumSamplers
        ResourceNamesPoolSize = Except.ok R ∧
      R.m_TexSRVOffset = NumCBs ∧
      R.m_TexUAVOffset = NumCBs + NumTexSRVs ∧
      R.m_BufSRVOffset = NumCBs + NumTexSRVs + NumTexUAVs ∧
      R.m_BufUAVOffset = NumCBs + NumTexSRVs + NumTexUAVs + NumBufSRVs ∧
      R.m_SamplersOffset = NumCBs + NumTexSRVs + NumTexUAVs + NumBufSRVs + NumBufUAVs ∧
      R.m_TotalResources =
        NumCBs + NumTexSRVs + NumTexUAVs + NumBufSRVs + NumBufUAVs + NumSamplers ∧
      (0 ≤ R.m_TexSRVOffset ∧ R.m_TexSRVOffset ≤ R.m_TexUAVOffset ∧
        R.m_TexUAVOffset ≤ R.m_BufSRVOffset ∧ R.m_BufSRVOffset ≤ R.m_BufUAVOffset ∧
        R.m_BufUAVOffset ≤ R.m_SamplersOffset ∧ R.m_SamplersOffset ≤ R.m_TotalResources) := by
  obtain ⟨buf, names, hR⟩ := ShaderResources.AllocateMemory_eq S NumCBs NumTexSRVs NumTexUAVs
    NumBufSRVs NumBufUAVs NumSamplers ResourceNamesPoolSize h
  refine ⟨_, hR, rfl, rfl, rfl, rfl, rfl, rfl, ?_⟩
  simp only
  omega

/-- Witness of C10: the counts `1, 2, 3, 4, 5, 6` give the offsets
`1, 3, 6, 10, 15` and the total `21`. -/
theorem ShaderResources_AllocateMemory_offsets_witness :
    1 + 2 + 3 + 4 + 5 + 6 ≤ 65535 ∧
    ∃ R, (ShaderResources.new 0).AllocateMemory 1 2 3 4 5 6 64 = Except.ok R ∧
      R.m_TexSRVOffset = 1 ∧ R.m_TexUAVOffset = 3 ∧ R.m_BufSRVOffset = 6 ∧
      R.m_BufUAVOffset = 10 ∧ R.m_SamplersOffset = 15 ∧ R.m_TotalResources = 21 := by
  refine ⟨by decide, ?_⟩
  obtain ⟨R, hR, h1, h2, h3, h4, h5, h6, _⟩ :=
    ShaderResources_AllocateMemory_offsets (ShaderResources.new 0) 1 2 3 4 5 6 64 (by decide)
  exact ⟨R, hR, h1, h2, h3, h4, h5, h6⟩

/-- Claim C3, evaluated on the code: with `NumCBs = 1` and
`NumTexSRVs = 4294967295` the running total `4294967296` exceeds 65535, yet
the `Uint32` sum of the check wraps to `0`, no check fails, and the truncated
offset `m_TexUAVOffset = 0` is stored below `m_TexSRVOffset = 1`. -/
theorem ShaderResources_AllocateMemory_overflow_unreported :
    65535 < 1 + 4294967295 ∧ 4294967295 < Uint32Size ∧
    (ShaderResources.new 0).AllocateMemory 1 4294967295 0 0 0 0 0 = Except.ok
      { m_MemoryBuffer := [], m_ResourceNames := 0, m_TexSRVOffset := 1, m_TexUAVOffset := 0,
        m_BufSRVOffset := 0, m_BufUAVOffset := 0, m_SamplersOffset := 0, m_TotalResources := 0,
        m_ShaderType := 0 } :=
  ⟨by decide, by decide, rfl⟩

/-- Claim C2, evaluated on the code: with the counts
`0, 0, 2, 4294967295, 0, 3` `AllocateMemory` completes without reporting an
overflow and every count accessor returns its input count, but the total
resource count is `4` and not the sum `4294967300` of the counts. -/
theorem ShaderResources_AllocateMemory_total_not_sum :
    4294967295 < Uint32Size ∧
    ∃ R, (ShaderResources.new 0).AllocateMemory 0 0 2 4294967295 0 3 0 = Except.ok R ∧
      R.GetNumCBs = 0 ∧ R.GetNumTexSRV = 0 ∧ R.GetNumTexUAV = 2 ∧
      R.GetNumBufSRV = 4294967295 ∧ R.GetNumBufUAV = 0 ∧ R.GetNumSamplers = 3 ∧
      R.GetTotalResources = 4 ∧
      R.GetTotalResources ≠ 0 + 0 + 2 + 4294967295 + 0 + 3 :=
  ⟨by decide, _, rfl, by decide, by decide, by decide, by decide, by decide, by decide,
    by decide, by decide⟩

/-! ### Category ranges and accessors of the SPIR-V store -/

namespace SPIRVShaderResources

/-- With ordered offsets a count is the end of the category minus its start,
and the category lies inside the buffer. -/
theorem GetNum_eq_sub (S : SPIRVShaderResources) (h : S.OffsetsOrdered) (c : Category) :
    S.GetNum c = S.endOf c - S.offsetOf c ∧ S.offsetOf c ≤ S.endOf c ∧
      S.endOf c ≤ S.m_TotalResources := by
  obtain ⟨h1, h2, h3, h4, h5, h6, h7⟩ := h
  have h7' : S.m_TotalResources < Uint32Size := by
    have : OffsetTypeSize ≤ Uint32Size := by decide
    omega
  cases c <;>
    simp only [GetNum, offsetOf, endOf, GetNumUBs, GetNumSBs, GetNumImgs, GetNumSmplImgs,
      GetNumACs, GetNumSepImgs, GetNumSepSmpls, offsetDiff] <;>
    rw [offsetDiff_eq _ _ (by omega) (by omega)] <;> omega

/-- A valid store has ordered offsets. -/
theorem Valid.offsetsOrdered {S : SPIRVShaderResources} (hS : S.Valid) : S.OffsetsOrdered :=
  ⟨hS.1, hS.2.1, hS.2.2.1, hS.2.2.2.1, hS.2.2.2.2.1, hS.2.2.2.2.2.1, hS.2.2.2.2.2.2.1⟩

/-- With ordered offsets two category positions with the same global index
are the same position. -/
theorem position_unique (S : SPIRVShaderResources) (h : S.OffsetsOrdered)
    (c c2 : Category) (n n2 : Nat) (hn : n < S.GetNum c) (hn2 : n2 < S.GetNum c2)
    (heq : S.offsetOf c + n = S.offsetOf c2 + n2) : c = c2 ∧ n = n2 := by
  have k := GetNum_eq_sub S h c
  have k2 := GetNum_eq_sub S h c2
  obtain ⟨h1, h2, h3, h4, h5, h6, h7⟩ := h
  rw [k.1] at hn
  rw [k2.1] at hn2
  cases c <;> cases c2 <;> simp only [offsetOf, endOf] at hn hn2 heq <;>
    first
      | exact ⟨rfl, by omega⟩
      | (exfalso; omega)

/-- With ordered offsets every global index below the total is a position of
some category. -/
theorem position_exists (S : SPIRVShaderResources) (h : S.OffsetsOrdered) (g : Nat)
    (hg : g < S.m_TotalResources) :
    ∃ c n, n < S.GetNum c ∧ g = S.offsetOf c + n := by
  have k := fun c => (GetNum_eq_sub S h c).1
  by_cases g1 : g < S.m_StorageBufferOffset
  · exact ⟨Category.UB, g, by rw [k]; simp only [offsetOf, endOf]; omega,
      by simp only [offsetOf]; omega⟩
  by_cases g2 : g < S.m_StorageImageOffset
  · exact ⟨Category.SB, g - S.m_StorageBufferOffset,
      by rw [k]; simp only [offsetOf, endOf]; omega, by simp only [offsetOf]; omega⟩
  by_cases g3 : g < S.m_SampledImageOffset
  · exact ⟨Category.Img, g - S.m_StorageImageOffset,
      by rw [k]; simp only [offsetOf, endOf]; omega, by simp only [offsetOf]; omega⟩
  by_cases g4 : g < S.m_AtomicCounterOffset
  · exact ⟨Category.SmplImg, g - S.m_SampledImageOffset,
      by rw [k]; simp only [offsetOf, endOf]; omega, by simp only [offsetOf]; omega⟩
  by_cases g5 : g < S.m_SeparateImageOffset
  · exact ⟨Category.AC, g - S.m_AtomicCounterOffset,
      by rw [k]; simp only [offsetOf, endOf]; omega, by simp only [offsetOf]; omega⟩
  by_cases g6 : g < S.m_SeparateSamplerOffset
  · exact ⟨Category.SepImg, g - S.m_SeparateImageOffset,
      by rw [k]; simp only [offsetOf, endOf]; omega, by simp only [offsetOf]; omega⟩
  · exact ⟨Category.SepSmpl, g - S.m_SeparateSamplerOffset,
      by rw [k]; simp only [offsetOf, endOf]; omega, by simp only [offsetOf]; omega⟩

/-- With ordered offsets the seven counts sum to the total. -/
theorem counts_sum (S : SPIRVShaderResources) (h : S.OffsetsOrdered) :
    S.GetNumUBs + S.GetNumSBs + S.GetNumImgs + S.GetNumSmplImgs + S.GetNumACs +
      S.GetNumSepImgs + S.GetNumSepSmpls = S.GetTotalResources := by
  have k1 := (GetNum_eq_sub S h Category.UB).1
  have k2 := (GetNum_eq_sub S h Category.SB).1
  have k3 := (GetNum_eq_sub S h Category.Img).1
  have k4 := (GetNum_eq_sub S h Category.SmplImg).1
  have k5 := (GetNum_eq_sub S h Category.AC).1
  have k6 := (GetNum_eq_sub S h Category.SepImg).1
  have k7 := (GetNum_eq_sub S h Category.SepSmpl).1
  obtain ⟨h1, h2, h3, h4, h5, h6, h7⟩ := h
  simp only [GetNum, offsetOf, endOf] at k1 k2 k3 k4 k5 k6 k7
  simp only [GetTotalResources]
  omega

end SPIRVShaderResources

/-- Claim C11: in a store whose offsets do not decrease, every global index
below `GetTotalResources()` is `categoryOffset + n` for exactly one category
and one index `n` below the count of that category; two positions of
categories that share a global index are the same position, every position
of a category lies below the total, and the seven counts sum to
`GetTotalResources()`. -/
theorem SPIRVShaderResources_category_ranges_partition (S : SPIRVShaderResources)
    (h : S.OffsetsOrdered) :
    (∀ g, g < S.GetTotalResources →
      ∃! p : SPIRVShaderResources.Category × Nat,
        p.2 < S.GetNum p.1 ∧ g = S.offsetOf p.1 + p.2) ∧
    (∀ c c2 n n2, n < S.GetNum c → n2 < S.GetNum c2 →
      S.offsetOf c + n = S.offsetOf c2 + n2 → c = c2 ∧ n = n2) ∧
    (∀ c n, n < S.GetNum c → S.offsetOf c + n < S.GetTotalResources) ∧
    S.GetNumUBs + S.GetNumSBs + S.GetNumImgs + S.GetNumSmplImgs + S.GetNumACs +
      S.GetNumSepImgs + S.GetNumSepSmpls = S.GetTotalResources := by
  refine ⟨?_, SPIRVShaderResources.position_unique S h, ?_,
    SPIRVShaderResources.counts_sum S h⟩
  · intro g hg
    obtain ⟨c, n, hn, hgn⟩ := SPIRVShaderResources.position_exists S h g hg
    refine ⟨(c, n), ⟨hn, hgn⟩, ?_⟩
    rintro ⟨c2, n2⟩ ⟨hn2, hgn2⟩
    obtain ⟨e1, e2⟩ := SPIRVShaderResources.position_unique S h c2 c n2 n hn2 hn
      (by rw [← hgn2, ← hgn])
    rw [e1, e2]
  · intro c n hn
    obtain ⟨k1, k2, k3⟩ := SPIRVShaderResources.GetNum_eq_sub S h c
    simp only [SPIRVShaderResources.GetTotalResources]
    omega

/-- Witness of C11: in the scenario store the global index `2` is the
position `0` of the separate samplers and of no other category. -/
theorem SPIRVShaderResources_category_ranges_partition_witness :
    scenarioSPIRV.OffsetsOrdered ∧
    ∃! p : SPIRVShaderResources.Category × Nat,
      p.2 < scenarioSPIRV.GetNum p.1 ∧ 2 = scenarioSPIRV.offsetOf p.1 + p.2 :=
  ⟨by decide, (SPIRVShaderResources_category_ranges_partition scenarioSPIRV (by decide)).1 2
    (by decide)⟩

namespace SPIRVShaderResources

/-- An access at or above the given count fails the first check. -/
theorem GetResAttribs_out_of_range (S : SPIRVShaderResources) (n Num Off : Nat)
    (h : ¬ n < Num) : S.GetResAttribs n Num Off = Except.error Error.IndexOutOfRange := by
  simp [GetResAttribs, VERIFY, h]
  rfl

/-- An access that passes both checks reads the buffer at the global index. -/
theorem GetResAttribs_checked (S : SPIRVShaderResources) (n Num Off : Nat) (h1 : n < Num)
    (h2 : Off + n < S.m_TotalResources) :
    S.GetResAttribs n Num Off =
      (match S.m_MemoryBuffer[Off + n]? with
        | some r => pure r
        | none => throw Error.IndexOutOfRange) := by
  simp only [GetResAttribs, VERIFY, h1, h2, decide_True, if_true]
  rfl

/-- Two accesses that pass their checks at the same global index agree. -/
theorem GetResAttribs_congr (S : SPIRVShaderResources) (n Num Off n2 Num2 Off2 : Nat)
    (h1 : n < Num) (h2 : Off + n < S.m_TotalResources) (h3 : n2 < Num2)
    (h4 : Off2 + n2 < S.m_TotalResources) (heq : Off + n = Off2 + n2) :
    S.GetResAttribs n Num Off = S.GetResAttribs n2 Num2 Off2 := by
  rw [GetResAttribs_checked S n Num Off h1 h2, GetResAttribs_checked S n2 Num2 Off2 h3 h4, heq]

/-- An access that passes both checks does not fail the second one. -/
theorem GetResAttribs_second_check (S : SPIRVShaderResources) (n Num Off : Nat) (h1 : n < Num)
    (h2 : Off + n < S.m_TotalResources) :
    S.GetResAttribs n Num Off ≠ Except.error Error.AssertionFailed := by
  rw [GetResAttribs_checked S n Num Off h1 h2]
  cases S.m_MemoryBuffer[Off + n]? with
  | none => intro h; cases h
  | some r => intro h; cases h

/-- The accessor of a category is `GetResAttribs` at its count and offset. -/
theorem Get_eq_GetResAttribs (S : SPIRVShaderResources) (c : Category) (n : Nat) :
    S.Get c n = S.GetResAttribs n (S.GetNum c) (S.offsetOf c) := by
  cases c <;> rfl

end SPIRVShaderResources

/-- Claim C12: in a store whose offsets do not decrease, for every category
and every `n` below its count, the category accessor and
`GetResource(categoryOffset + n)` give the same result; when the buffer holds
`m_TotalResources` descriptors this result is a descriptor. -/
theorem SPIRVShaderResources_Get_eq_GetResource (S : SPIRVShaderResources)
    (h : S.OffsetsOrdered) (c : SPIRVShaderResources.Category) (n : Nat)
    (hn : n < S.GetNum c) :
    S.Get c n = S.GetResource (S.offsetOf c + n) ∧
    (S.m_MemoryBuffer.length = S.m_TotalResources →
      ∃ d, S.Get c n = Except.ok d ∧ S.GetResource (S.offsetOf c + n) = Except.ok d) := by
  obtain ⟨k1, k2, k3⟩ := SPIRVShaderResources.GetNum_eq_sub S h c
  have h2 : S.offsetOf c + n < S.m_TotalResources := by omega
  have heq : S.Get c n = S.GetResource (S.offsetOf c + n) := by
    rw [SPIRVShaderResources.Get_eq_GetResAttribs]
    exact SPIRVShaderResources.GetResAttribs_congr S n _ _ (S.offsetOf c + n) _ 0 hn h2 h2
      (by omega) (by omega)
  refine ⟨heq, fun hlen => ?_⟩
  have hok : S.Get c n = Except.ok (S.m_MemoryBuffer.getD (S.offsetOf c + n) default) := by
    rw [SPIRVShaderResources.Get_eq_GetResAttribs]
    exact SPIRVShaderResources.GetResAttribs_ok S n _ _ hn h2 hlen
  exact ⟨_, hok, heq ▸ hok⟩

/-- Witness of C12: in the scenario store the separate sampler `0` is the
resource `2`. -/
theorem SPIRVShaderResources_Get_eq_GetResource_witness :
    scenarioSPIRV.OffsetsOrdered ∧ 0 < scenarioSPIRV.GetNum SPIRVShaderResources.Category.SepSmpl ∧
    scenarioSPIRV.GetSepSmpl 0 = scenarioSPIRV.GetResource 2 :=
  ⟨by decide, by decide,
    (SPIRVShaderResources_Get_eq_GetResource scenarioSPIRV (by decide)
      SPIRVShaderResources.Category.SepSmpl 0 (by decide)).1⟩

/-- Claim C13: in a store whose offsets do not decrease, an index below the
count of its category passes the second check (`Offset + n` is below the
total). When moreover the buffer holds `m_TotalResources` descriptors, a
category accessor fails with the index-out-of-range error exactly when `n` is
at least the count and returns a descriptor exactly when `n` is below it, so
every index fails for an empty category; and `GetResource(g)` fails with that
error exactly when `g` is at least `GetTotalResources()`. -/
theorem SPIRVShaderResources_Get_out_of_range_iff (S : SPIRVShaderResources)
    (h : S.OffsetsOrdered) :
    (∀ c n, n < S.GetNum c →
      S.offsetOf c + n < S.m_TotalResources ∧
        S.Get c n ≠ Except.error Error.AssertionFailed) ∧
    (S.m_MemoryBuffer.length = S.m_TotalResources →
      (∀ c n, S.Get c n = Except.error Error.IndexOutOfRange ↔ S.GetNum c ≤ n) ∧
      (∀ c n, (∃ d, S.Get c n = Except.ok d) ↔ n < S.GetNum c) ∧
      (∀ c, S.GetNum c = 0 → ∀ n, S.Get c n = Except.error Error.IndexOutOfRange) ∧
      (∀ g, S.GetResource g = Except.error Error.IndexOutOfRange ↔ S.GetTotalResources ≤ g) ∧
      (∀ g, (∃ d, S.GetResource g = Except.ok d) ↔ g < S.GetTotalResources)) := by
  have hsecond : ∀ c n, n < S.GetNum c → S.offsetOf c + n < S.m_TotalResources := by
    intro c n hn
    obtain ⟨k1, k2, k3⟩ := SPIRVShaderResources.GetNum_eq_sub S h c
    omega
  have hget : ∀ c n, S.m_MemoryBuffer.length = S.m_TotalResources →
      (n < S.GetNum c → ∃ d, S.Get c n = Except.ok d) ∧
      (¬ n < S.GetNum c → S.Get c n = Except.error Error.IndexOutOfRange) := by
    intro c n hlen
    rw [SPIRVShaderResources.Get_eq_GetResAttribs]
    exact ⟨fun hn => ⟨_, SPIRVShaderResources.GetResAttribs_ok S n _ _ hn (hsecond c n hn) hlen⟩,
      fun hn => SPIRVShaderResources.GetResAttribs_out_of_range S n _ _ hn⟩
  have hres : ∀ g, S.m_MemoryBuffer.length = S.m_TotalResources →
      (g < S.m_TotalResources → ∃ d, S.GetResource g = Except.ok d) ∧
      (¬ g < S.m_TotalResources → S.GetResource g = Except.error Error.IndexOutOfRange) := by
    intro g hlen
    exact ⟨fun hg => ⟨_, SPIRVShaderResources.GetResAttribs_ok S g _ 0 hg (by omega) hlen⟩,
      fun hg => SPIRVShaderResources.GetResAttribs_out_of_range S g _ 0 hg⟩
  refine ⟨fun c n hn => ⟨hsecond c n hn, ?_⟩, fun hlen => ⟨?_, ?_, ?_, ?_, ?_⟩⟩
  · rw [SPIRVShaderResources.Get_eq_GetResAttribs]
    exact SPIRVShaderResources.GetResAttribs_second_check S n _ _ hn (hsecond c n hn)
  · intro c n
    constructor
    · intro he
      by_contra hlt
      obtain ⟨d, hd⟩ := (hget c n hlen).1 (by omega)
      rw [hd] at he
      cases he
    · intro hle
      exact (hget c n hlen).2 (by omega)
  · intro c n
    constructor
    · rintro ⟨d, hd⟩
      by_contra hlt
      rw [(hget c n hlen).2 hlt] at hd
      cases hd
    · exact (hget c n hlen).1
  · intro c hc n
    exact (hget c n hlen).2 (by omega)
  · intro g
    constructor
    · intro he
      by_contra hlt
      obtain ⟨d, hd⟩ := (hres g hlen).1 (by simp only [SPIRVShaderResources.GetTotalResources] at hlt; omega)
      rw [hd] at he
      cases he
    · intro hle
      exact (hres g hlen).2 (by simp only [SPIRVShaderResources.GetTotalResources] at hle; omega)
  · intro g
    constructor
    · rintro ⟨d, hd⟩
      by_contra hlt
      rw [(hres g hlen).2 (by simpa only [SPIRVShaderResources.GetTotalResources] using hlt)] at hd
      cases hd
    · intro hg
      exact (hres g hlen).1 (by simpa only [SPIRVShaderResources.GetTotalResources] using hg)

/-- Witness of C13: the scenario store has no storage buffer, so `GetSB(0)`
fails, and it has three resources, so `GetResource(3)` fails. -/
theorem SPIRVShaderResources_Get_out_of_range_iff_witness :
    scenarioSPIRV.OffsetsOrdered ∧
    scenarioSPIRV.m_MemoryBuffer.length = scenarioSPIRV.m_TotalResources ∧
    scenarioSPIRV.GetSB 0 = Except.error Error.IndexOutOfRange ∧
    scenarioSPIRV.GetResource 3 = Except.error Error.IndexOutOfRange := by
  have k := (SPIRVShaderResources_Get_out_of_range_iff scenarioSPIRV (by decide)).2 (by decide)
  exact ⟨by decide, by decide,
    (k.1 SPIRVShaderResources.Category.SB 0).mpr (by decide), (k.2.2.2.1 3).mpr (by decide)⟩

namespace SPIRVShaderResources

/-- When the buffer holds `m_TotalResources` descriptors, the element
`m_TotalResources + i` of the memory is the entry `i` of the sampler table. -/
theorem memory_after_resources (S : SPIRVShaderResources)
    (hlen : S.m_MemoryBuffer.length = S.m_TotalResources) (i : Nat) :
    S.memory[S.m_TotalResources + i]? = (S.m_StaticSamplers[i]?).map MemoryCell.StaticSampler := by
  unfold memory
  rw [List.getElem?_append_right (by simp [hlen])]
  simp [hlen]

/-- With a valid table, the lookup of an index in range returns the entry. -/
theorem GetStaticSampler_in_range (S : SPIRVShaderResources) (hS : S.SamplerTableValid)
    (d : SPIRVShaderResourceAttribs) (i : Nat) (hi : d.StaticSamplerInd = (i : Int))
    (hlt : i < S.m_NumStaticSamplers) :
    ∃ p, S.m_StaticSamplers[i]? = some p ∧ S.GetStaticSampler d = Except.ok p ∧
      S.memory[S.m_TotalResources + i]? = some (MemoryCell.StaticSampler p) ∧
      S.GetStaticSamplerAt i = Except.ok p := by
  obtain ⟨hlen, htab⟩ := hS
  have hi2 : i < S.m_StaticSamplers.length := by omega
  have hmem := memory_after_resources S hlen i
  rw [List.getElem?_eq_getElem hi2] at hmem
  refine ⟨S.m_StaticSamplers[i], List.getElem?_eq_getElem hi2, ?_, hmem, ?_⟩
  · have hneg : ¬ ((i : Int) < 0) := by omega
    have hlt2 : (i : Int) < (S.m_NumStaticSamplers : Int) := by omega
    simp only [GetStaticSampler, hi, hneg, if_false, VERIFY, hlt2, decide_True, if_true,
      Int.toNat_ofNat, hmem]
    rfl
  · simp only [GetStaticSamplerAt, VERIFY, hlt, decide_True, if_true, hmem]
    rfl

/-- The lookup returns null for a negative index; for an index that is not
negative it returns only what a table entry holds. -/
theorem GetStaticSampler_none (S : SPIRVShaderResources) (d : SPIRVShaderResourceAttribs) :
    (d.StaticSamplerInd < 0 → S.GetStaticSampler d = Except.ok none) ∧
    (¬ d.StaticSamplerInd < 0 → S.GetStaticSampler d = Except.ok none →
      none ∈ S.m_StaticSamplers) := by
  constructor
  · intro h
    simp [GetStaticSampler, h]
    rfl
  · intro h hnone
    simp only [GetStaticSampler, h, if_false, VERIFY] at hnone
    by_cases hlt : d.StaticSamplerInd < (S.m_NumStaticSamplers : Int)
    · simp only [hlt, decide_True, if_true] at hnone
      generalize hcell : S.memory[S.m_TotalResources + d.StaticSamplerInd.toNat]? = cell at hnone
      match cell, hcell, hnone with
      | some (MemoryCell.StaticSampler p), hcell, hnone =>
        have hp : p = none := by
          cases hnone
          rfl
        subst hp
        have hm := List.getElem?_mem hcell
        simp only [memory, List.mem_append, List.mem_map] at hm
        rcases hm with ⟨r, _, hr⟩ | ⟨q, hq, hqe⟩
        · cases hr
        · cases hqe
          exact hq
      | some (MemoryCell.Resource r), _, hnone => cases hnone
      | none, _, hnone => cases hnone
    · simp only [hlt, decide_False, Bool.false_eq_true, if_false] at hnone
      cases hnone

end SPIRVShaderResources
/-- Claim C14: when the buffer holds `m_TotalResources` descriptors followed
by `m_NumStaticSamplers` sampler pointers, `GetStaticSampler(d)` returns null
for a negative `StaticSamplerInd`; given a table without null pointers it
returns null only then; and for `0 <= StaticSamplerInd <
GetNumStaticSamplers()` it returns the table entry at that position, which is
the element `GetTotalResources() + StaticSamplerInd` of the memory buffer and
what the `Uint32` overload returns. -/
theorem SPIRVShaderResources_GetStaticSampler_spec (S : SPIRVShaderResources)
    (hS : S.SamplerTableValid) (d : SPIRVShaderResourceAttribs) :
    (d.StaticSamplerInd < 0 → S.GetStaticSampler d = Except.ok none) ∧
    ((∀ p ∈ S.m_StaticSamplers, p ≠ none) →
      (S.GetStaticSampler d = Except.ok none ↔ d.StaticSamplerInd < 0)) ∧
    (∀ i : Nat, d.StaticSamplerInd = (i : Int) → i < S.GetNumStaticSamplers →
      ∃ p, S.m_StaticSamplers[i]? = some p ∧ S.GetStaticSampler d = Except.ok p ∧
        S.memory[S.GetTotalResources + i]? =
          some (SPIRVShaderResources.MemoryCell.StaticSampler p) ∧
        S.GetStaticSamplerAt i = Except.ok p) := by
  obtain ⟨hneg, hnone⟩ := SPIRVShaderResources.GetStaticSampler_none S d
  refine ⟨hneg, fun hnn => ⟨fun h => ?_, hneg⟩,
    fun i hi hlt => SPIRVShaderResources.GetStaticSampler_in_range S hS d i hi hlt⟩
  by_contra hge
  exact hnn none (hnone hge h) rfl

/-- Witness of C14: in the scenario store with a static sampler, the sampled
image refers to the table entry `0`, which holds the handle `7`. -/
theorem SPIRVShaderResources_GetStaticSampler_spec_witness :
    scenarioSPIRVStatic.SamplerTableValid ∧
    scenarioSPIRVStatic.GetStaticSampler
      ⟨"Tex", 1, ResourceType.SampledImage, SHADER_VARIABLE_TYPE_MUTABLE, 0, 20, 21⟩ =
        Except.ok (some 7) := by
  refine ⟨by decide, ?_⟩
  obtain ⟨p, hp, hget, _, _⟩ :=
    (SPIRVShaderResources_GetStaticSampler_spec scenarioSPIRVStatic (by decide)
      ⟨"Tex", 1, ResourceType.SampledImage, SHADER_VARIABLE_TYPE_MUTABLE, 0, 20, 21⟩).2.2
      0 rfl (by decide)
  rw [hget]
  cases hp
  rfl


/-! ### The mask of allowed variable types -/

/-- The bits of `(1 << t)` as a `Uint32`: bit `t`, when `t` is below 32. -/
theorem shift_testBit (t i : Nat) :
    ((1 <<< t) % Uint32Size).testBit i = (decide (i < 32) && decide (t = i)) := by
  simp only [Uint32Size, Nat.one_shiftLeft, Nat.testBit_mod_two_pow, Nat.testBit_two_pow]

/-- The bits of the mask that the loop of `GetAllowedTypeBits` accumulates. -/
theorem foldl_or_testBit (L : List Nat) :
    ∀ (acc i : Nat),
      (L.foldl (fun AllowedTypeBits t => AllowedTypeBits ||| ((1 <<< t) % Uint32Size)) acc).testBit i
        = (acc.testBit i || (decide (i < 32) && decide (i ∈ L))) := by
  induction L with
  | nil => intro acc i; simp
  | cons t L ih =>
    intro acc i
    rw [List.foldl_cons, ih, Nat.testBit_or, shift_testBit]
    by_cases h32 : i < 32 <;> by_cases hti : t = i <;> by_cases hiL : i ∈ L <;>
      simp [h32, hti, hiL, List.mem_cons, eq_comm]

/-- The bits of the mask of a non-null list: the listed values below 32. -/
theorem GetAllowedTypeBits_testBit (L : List Nat) (i : Nat) :
    (GetAllowedTypeBits (some L)).testBit i = (decide (i < 32) && decide (i ∈ L)) := by
  simp only [GetAllowedTypeBits, foldl_or_testBit, Nat.zero_testBit, Bool.false_or]

/-- A variable type below 32 is allowed exactly when its bit is in the mask. -/
theorem IsAllowedType_iff_testBit (v bits : Nat) (hv : v < 32) :
    IsAllowedType v bits = true ↔ bits.testBit v = true := by
  unfold IsAllowedType
  rw [bne_iff_ne]
  constructor
  · intro hne
    obtain ⟨i, hi⟩ := Nat.ne_zero_implies_bit_true hne
    rw [Nat.testBit_and, shift_testBit] at hi
    simp only [Bool.and_eq_true, decide_eq_true_eq] at hi
    obtain ⟨⟨_, hvi⟩, hb⟩ := hi
    rw [hvi]
    exact hb
  · intro hb heq
    have h2 : (((1 <<< v) % Uint32Size) &&& bits).testBit v = true := by
      rw [Nat.testBit_and, shift_testBit, hb]
      simp [hv]
    rw [heq, Nat.zero_testBit] at h2
    cases h2

/-- Claim C15: for every non-null list `L` of variable classes and every
variable class `v` below 32, `IsAllowedType(v, GetAllowedTypeBits(L, |L|))` is
true exactly when `v` occurs in `L`, and every list with the same members as
`L`, in any order and multiplicity, gives the same mask. -/
theorem GetAllowedTypeBits_IsAllowedType_iff_mem (L : List SHADER_VARIABLE_TYPE)
    (v : SHADER_VARIABLE_TYPE) (hv : v < 32) :
    (IsAllowedType v (GetAllowedTypeBits (some L)) = true ↔ v ∈ L) ∧
    (∀ L2 : List SHADER_VARIABLE_TYPE, (∀ t, t ∈ L ↔ t ∈ L2) →
      GetAllowedTypeBits (some L2) = GetAllowedTypeBits (some L)) := by
  constructor
  · rw [IsAllowedType_iff_testBit v _ hv, GetAllowedTypeBits_testBit]
    simp [hv]
  · intro L2 hmem
    apply Nat.eq_of_testBit_eq
    intro i
    rw [GetAllowedTypeBits_testBit, GetAllowedTypeBits_testBit]
    by_cases hi : i ∈ L
    · simp [hi, (hmem i).mp hi]
    · have hi2 : i ∉ L2 := fun h => hi ((hmem i).mpr h)
      simp [hi, hi2]

/-- Witness of C15: the dynamic class is allowed by the list
`[dynamic, static, dynamic]`, and the list `[static, dynamic]` gives the same
mask. -/
theorem GetAllowedTypeBits_IsAllowedType_iff_mem_witness :
    SHADER_VARIABLE_TYPE_DYNAMIC < 32 ∧
    IsAllowedType SHADER_VARIABLE_TYPE_DYNAMIC
      (GetAllowedTypeBits (some [SHADER_VARIABLE_TYPE_DYNAMIC, SHADER_VARIABLE_TYPE_STATIC,
        SHADER_VARIABLE_TYPE_DYNAMIC])) = true ∧
    GetAllowedTypeBits (some [SHADER_VARIABLE_TYPE_STATIC, SHADER_VARIABLE_TYPE_DYNAMIC]) =
      GetAllowedTypeBits (some [SHADER_VARIABLE_TYPE_DYNAMIC, SHADER_VARIABLE_TYPE_STATIC,
        SHADER_VARIABLE_TYPE_DYNAMIC]) := by
  have k := GetAllowedTypeBits_IsAllowedType_iff_mem
    [SHADER_VARIABLE_TYPE_DYNAMIC, SHADER_VARIABLE_TYPE_STATIC, SHADER_VARIABLE_TYPE_DYNAMIC]
    SHADER_VARIABLE_TYPE_DYNAMIC (by decide)
  refine ⟨by decide, k.1.mpr (by decide), k.2 _ ?_⟩
  intro t
  simp only [List.mem_cons, List.mem_singleton, List.not_mem_nil, or_false]
  tauto

namespace SPIRVShaderResources

/-- When every stored variable type is below 32, so is the variable type at
every position. -/
theorem resourceAt_VarType_lt (S : SPIRVShaderResources)
    (hV : ∀ r ∈ S.m_MemoryBuffer, r.VarType < 32) (c : Category) (n : Nat) :
    (S.resourceAt c n).VarType < 32 := by
  unfold resourceAt
  rw [List.getD_eq_getElem?_getD]
  cases hget : S.m_MemoryBuffer[S.offsetOf c + n]? with
  | none => exact (by decide : (default : SPIRVShaderResourceAttribs).VarType < 32)
  | some r => exact hV r (List.getElem?_mem hget)

/-- Under the mask of `nullptr` the specified visits are all positions. -/
theorem visits_none (S : SPIRVShaderResources)
    (hV : ∀ r ∈ S.m_MemoryBuffer, r.VarType < 32) :
    S.visits (GetAllowedTypeBits none) = S.allVisits := by
  unfold visits allVisits
  congr 1
  funext c
  congr 1
  rw [List.filter_eq_self]
  intro n _
  exact IsAllowedType_all_bits _ (resourceAt_VarType_lt S hV c n)

end SPIRVShaderResources

/-- Claim C16 as amended: when no list of allowed variable classes is given
(`AllowedVarTypes` is `nullptr`), `GetAllowedTypeBits` yields a mask under
which `IsAllowedType` is true for every variable class below 32, so the
enumeration of a valid store whose variable types are below 32 calls the
handlers at every position of every category. -/
theorem GetAllowedTypeBits_nullptr_allows_all (S : SPIRVShaderResources) (hS : S.Valid)
    (hV : ∀ r ∈ S.m_MemoryBuffer, r.VarType < 32) :
    GetAllowedTypeBits none = 0xFFFFFFFF ∧
    (∀ v, v < 32 → IsAllowedType v (GetAllowedTypeBits none) = true) ∧
    S.visits (GetAllowedTypeBits none) = S.allVisits ∧
    (∀ (σ : Type)
        (H : SPIRVShaderResources.Category → SPIRVShaderResourceAttribs → Nat → σ →
          Except Error σ) (st : σ),
        S.ProcessResources none (H SPIRVShaderResources.Category.UB)
            (H SPIRVShaderResources.Category.SB) (H SPIRVShaderResources.Category.Img)
            (H SPIRVShaderResources.Category.SmplImg) (H SPIRVShaderResources.Category.AC)
            (H SPIRVShaderResources.Category.SepImg)
            (H SPIRVShaderResources.Category.SepSmpl) st =
          S.allVisits.foldlM (fun st v => H v.1 (S.resourceAt v.1 v.2) v.2 st) st) := by
  refine ⟨rfl, fun v hv => IsAllowedType_all_bits v hv,
    SPIRVShaderResources.visits_none S hV, fun σ H st => ?_⟩
  rw [SPIRVShaderResources.ProcessResources_eq_foldlM S hS none H st,
    SPIRVShaderResources.visits_none S hV]

/-- Witness of C16 as amended: with `nullptr` the recording handlers are
called for all three resources of the scenario store. -/
theorem GetAllowedTypeBits_nullptr_allows_all_witness :
    scenarioSPIRV.Valid ∧ (∀ r ∈ scenarioSPIRV.m_MemoryBuffer, r.VarType < 32) ∧
    scenarioSPIRV.ProcessResources none
        (SPIRVShaderResources.recordVisit SPIRVShaderResources.Category.UB)
        (SPIRVShaderResources.recordVisit SPIRVShaderResources.Category.SB)
        (SPIRVShaderResources.recordVisit SPIRVShaderResources.Category.Img)
        (SPIRVShaderResources.recordVisit SPIRVShaderResources.Category.SmplImg)
        (SPIRVShaderResources.recordVisit SPIRVShaderResources.Category.AC)
        (SPIRVShaderResources.recordVisit SPIRVShaderResources.Category.SepImg)
        (SPIRVShaderResources.recordVisit SPIRVShaderResources.Category.SepSmpl) [] =
      Except.ok [(SPIRVShaderResources.Category.UB, 0),
        (SPIRVShaderResources.Category.SmplImg, 0),
        (SPIRVShaderResources.Category.SepSmpl, 0)] := by
  refine ⟨by decide, by decide, ?_⟩
  rw [(GetAllowedTypeBits_nullptr_allows_all scenarioSPIRV (by decide) (by decide)).2.2.2 _
    SPIRVShaderResources.recordVisit []]
  rfl

/-- Counterexample to C16 as stated: for a non-null list with no class
(`NumAllowedTypes = 0`) the mask is `0`, no variable class is allowed, and the
enumeration of the scenario store calls no handler. -/
theorem GetAllowedTypeBits_empty_list_allows_none :
    GetAllowedTypeBits (some []) = 0 ∧
    IsAllowedType SHADER_VARIABLE_TYPE_STATIC (GetAllowedTypeBits (some [])) = false ∧
    IsAllowedType SHADER_VARIABLE_TYPE_MUTABLE (GetAllowedTypeBits (some [])) = false ∧
    IsAllowedType SHADER_VARIABLE_TYPE_DYNAMIC (GetAllowedTypeBits (some [])) = false ∧
    scenarioSPIRV.ProcessResources (some [])
        (SPIRVShaderResources.recordVisit SPIRVShaderResources.Category.UB)
        (SPIRVShaderResources.recordVisit SPIRVShaderResources.Category.SB)
        (SPIRVShaderResources.recordVisit SPIRVShaderResources.Category.Img)
        (SPIRVShaderResources.recordVisit SPIRVShaderResources.Category.SmplImg)
        (SPIRVShaderResources.recordVisit SPIRVShaderResources.Category.AC)
        (SPIRVShaderResources.recordVisit SPIRVShaderResources.Category.SepImg)
        (SPIRVShaderResources.recordVisit SPIRVShaderResources.Category.SepSmpl) [] =
      Except.ok [] :=
  ⟨rfl, rfl, rfl, rfl, rfl⟩


/-! ### Counting resources -/

/-- Folding a step that applies an update under a condition applies the
update as many times as the condition holds. -/
theorem foldlM_count {σ : Type} (f : σ → Nat → Except Error σ) (cnd : Nat → Bool)
    (upd : σ → σ) :
    ∀ (l : List Nat), (∀ i ∈ l, ∀ st, f st i = Except.ok (if cnd i then upd st else st)) →
      ∀ st, l.foldlM f st = Except.ok (upd^[l.countP cnd] st) := by
  intro l
  induction l with
  | nil => intro _ st; rfl
  | cons a l ih =>
    intro hf st
    rw [List.foldlM_cons, hf a (List.mem_cons_self a l) st, Except_ok_bind,
      ih (fun i hi => hf i (List.mem_cons_of_mem a hi)), List.countP_cons]
    cases cnd a
    · simp
    · simp only [if_true, Function.iterate_succ_apply]

namespace ShaderResources

/-- One counting loop of `CountResources`: the update of its handler is
applied once for every allowed descriptor that satisfies the condition of the
handler. -/
theorem processLoop_count (S : ShaderResources) (hS : S.Valid) (bits : Nat) (c : Category)
    (q : D3DShaderResourceAttribs → Bool) (upd : ResourceCounts → ResourceCounts)
    (handle : D3DShaderResourceAttribs → Nat → ResourceCounts → Except Error ResourceCounts)
    (hh : ∀ r n st, r.IsAllowedType bits = true →
      handle r n st = Except.ok (if q r then upd st else st))
    (st : ResourceCounts) :
    processLoop (S.Get c) (fun r => r.IsAllowedType bits) handle (S.GetNum c) 0 st =
      Except.ok (upd^[S.countWhere c (fun r => r.IsAllowedType bits && q r)] st) := by
  rw [processLoop_foldlM (S.Get c) _ handle (S.resourceAt c) (S.GetNum c) 0 st
    (fun i _ hi => d3d_Get_ok S hS c i (by omega))]
  rw [← List.range_eq_range', countWhere]
  apply foldlM_count
  intro i _ st
  cases hal : (S.resourceAt c i).IsAllowedType bits
  · simp
    rfl
  · simp only [if_true, Bool.true_and]
    exact hh _ _ _ hal

/-- The count of a category is at most the stored count, which fits 16 bits. -/
theorem countWhere_le (S : ShaderResources) (hS : S.Valid) (c : Category)
    (p : D3DShaderResourceAttribs → Bool) :
    S.countWhere c p ≤ S.GetNum c ∧ S.GetNum c < OffsetTypeSize := by
  constructor
  · unfold countWhere
    have h := List.countP_le_length (fun n => p (S.resourceAt c n))
      (l := List.range (S.GetNum c))
    rw [List.length_range] at h
    exact h
  · have h1 := d3d_offsetOf_add_GetNum S hS c
    have h2 := hS.2.2.2.2.2.1
    omega

/-- Iterating the increment of `NumCBs` adds to that counter. -/
theorem iterate_inc_NumCBs (m : Nat) (st : ResourceCounts) (h : st.NumCBs + m < Uint32Size) :
    (fun counts : ResourceCounts =>
      { counts with NumCBs := (counts.NumCBs + 1) % Uint32Size })^[m] st =
      { st with NumCBs := st.NumCBs + m } := by
  induction m with
  | zero => rfl
  | succ m ih =>
    rw [Function.iterate_succ_apply', ih (by omega)]
    simp only
    rw [Nat.mod_eq_of_lt (by omega)]
    rfl

/-- Iterating the increment of `NumSamplers` adds to that counter. -/
theorem iterate_inc_NumSamplers (m : Nat) (st : ResourceCounts) (h : st.NumSamplers + m < Uint32Size) :
    (fun counts : ResourceCounts =>
      { counts with NumSamplers := (counts.NumSamplers + 1) % Uint32Size })^[m] st =
      { st with NumSamplers := st.NumSamplers + m } := by
  induction m with
  | zero => rfl
  | succ m ih =>
    rw [Function.iterate_succ_apply', ih (by omega)]
    simp only
    rw [Nat.mod_eq_of_lt (by omega)]
    rfl

/-- Iterating the increment of `NumTexSRVs` adds to that counter. -/
theorem iterate_inc_NumTexSRVs (m : Nat) (st : ResourceCounts) (h : st.NumTexSRVs + m < Uint32Size) :
    (fun counts : ResourceCounts =>
      { counts with NumTexSRVs := (counts.NumTexSRVs + 1) % Uint32Size })^[m] st =
      { st with NumTexSRVs := st.NumTexSRVs + m } := by
  induction m with
  | zero => rfl
  | succ m ih =>
    rw [Function.iterate_succ_apply', ih (by omega)]
    simp only
    rw [Nat.mod_eq_of_lt (by omega)]
    rfl

/-- Iterating the increment of `NumTexUAVs` adds to that counter. -/
theorem iterate_inc_NumTexUAVs (m : Nat) (st : ResourceCounts) (h : st.NumTexUAVs + m < Uint32Size) :
    (fun counts : ResourceCounts =>
      { counts with NumTexUAVs := (counts.NumTexUAVs + 1) % Uint32Size })^[m] st =
      { st with NumTexUAVs := st.NumTexUAVs + m } := by
  induction m with
  | zero => rfl
  | succ m ih =>
    rw [Function.iterate_succ_apply', ih (by omega)]
    simp only
    rw [Nat.mod_eq_of_lt (by omega)]
    rfl

/-- Iterating the increment of `NumBufSRVs` adds to that counter. -/
theorem iterate_inc_NumBufSRVs (m : Nat) (st : ResourceCounts) (h : st.NumBufSRVs + m < Uint32Size) :
    (fun counts : ResourceCounts =>
      { counts with NumBufSRVs := (counts.NumBufSRVs + 1) % Uint32Size })^[m] st =
      { st with NumBufSRVs := st.NumBufSRVs + m } := by
  induction m with
  | zero => rfl
  | succ m ih =>
    rw [Function.iterate_succ_apply', ih (by omega)]
    simp only
    rw [Nat.mod_eq_of_lt (by omega)]
    rfl

/-- Iterating the increment of `NumBufUAVs` adds to that counter. -/
theorem iterate_inc_NumBufUAVs (m : Nat) (st : ResourceCounts) (h : st.NumBufUAVs + m < Uint32Size) :
    (fun counts : ResourceCounts =>
      { counts with NumBufUAVs := (counts.NumBufUAVs + 1) % Uint32Size })^[m] st =
      { st with NumBufUAVs := st.NumBufUAVs + m } := by
  induction m with
  | zero => rfl
  | succ m ih =>
    rw [Function.iterate_succ_apply', ih (by omega)]
    simp only
    rw [Nat.mod_eq_of_lt (by omega)]
    rfl

/-- On a valid store `CountResources` returns the numbers of allowed
descriptors per category, static samplers left out. -/
theorem CountResources_eq (S : ShaderResources) (hS : S.Valid)
    (AllowedVarTypes : Option (List SHADER_VARIABLE_TYPE)) :
    S.CountResources AllowedVarTypes = Except.ok
      { NumCBs := S.countWhere Category.CB
          (fun r => r.IsAllowedType (GetAllowedTypeBits AllowedVarTypes))
        NumTexSRVs := S.countWhere Category.TexSRV
          (fun r => r.IsAllowedType (GetAllowedTypeBits AllowedVarTypes))
        NumTexUAVs := S.countWhere Category.TexUAV
          (fun r => r.IsAllowedType (GetAllowedTypeBits AllowedVarTypes))
        NumBufSRVs := S.countWhere Category.BufSRV
          (fun r => r.IsAllowedType (GetAllowedTypeBits AllowedVarTypes))
        NumBufUAVs := S.countWhere Category.BufUAV
          (fun r => r.IsAllowedType (GetAllowedTypeBits AllowedVarTypes))
        NumSamplers := S.countWhere Category.Sampler
          (fun r => r.IsAllowedType (GetAllowedTypeBits AllowedVarTypes) &&
            !r.IsStaticSampler) } := by
  have hle := fun c p => countWhere_le S hS c p
  have hsz : OffsetTypeSize ≤ Uint32Size := by decide
  have k1 := processLoop_count S hS (GetAllowedTypeBits AllowedVarTypes) Category.CB
    (fun _ => true)
    (fun counts : ResourceCounts => { counts with NumCBs := (counts.NumCBs + 1) % Uint32Size })
    (fun CB _ counts => do
      VERIFY (CB.IsAllowedType (GetAllowedTypeBits AllowedVarTypes)) Error.AssertionFailed
      pure { counts with NumCBs := (counts.NumCBs + 1) % Uint32Size })
    (fun r n st hal => by simp only [VERIFY, hal, if_true]; rfl)
  have k2 := processLoop_count S hS (GetAllowedTypeBits AllowedVarTypes) Category.Sampler
    (fun r => !r.IsStaticSampler)
    (fun counts : ResourceCounts =>
      { counts with NumSamplers := (counts.NumSamplers + 1) % Uint32Size })
    (fun Sam _ counts => do
      VERIFY (Sam.IsAllowedType (GetAllowedTypeBits AllowedVarTypes)) Error.AssertionFailed
      if !Sam.IsStaticSampler then
        pure { counts with NumSamplers := (counts.NumSamplers + 1) % Uint32Size }
      else
        pure counts)
    (fun r n st hal => by
      simp only [VERIFY, hal, if_true]
      cases r.IsStaticSampler <;> rfl)
  have k3 := processLoop_count S hS (GetAllowedTypeBits AllowedVarTypes) Category.TexSRV
    (fun _ => true)
    (fun counts : ResourceCounts =>
      { counts with NumTexSRVs := (counts.NumTexSRVs + 1) % Uint32Size })
    (fun TexSRV _ counts => do
      VERIFY (TexSRV.IsAllowedType (GetAllowedTypeBits AllowedVarTypes)) Error.AssertionFailed
      pure { counts with NumTexSRVs := (counts.NumTexSRVs + 1) % Uint32Size })
    (fun r n st hal => by simp only [VERIFY, hal, if_true]; rfl)
  have k4 := processLoop_count S hS (GetAllowedTypeBits AllowedVarTypes) Category.TexUAV
    (fun _ => true)
    (fun counts : ResourceCounts =>
      { counts with NumTexUAVs := (counts.NumTexUAVs + 1) % Uint32Size })
    (fun TexUAV _ counts => do
      VERIFY (TexUAV.IsAllowedType (GetAllowedTypeBits AllowedVarTypes)) Error.AssertionFailed
      pure { counts with NumTexUAVs := (counts.NumTexUAVs + 1) % Uint32Size })
    (fun r n st hal => by simp only [VERIFY, hal, if_true]; rfl)
  have k5 := processLoop_count S hS (GetAllowedTypeBits AllowedVarTypes) Category.BufSRV
    (fun _ => true)
    (fun counts : ResourceCounts =>
      { counts with NumBufSRVs := (counts.NumBufSRVs + 1) % Uint32Size })
    (fun BufSRV _ counts => do
      VERIFY (BufSRV.IsAllowedType (GetAllowedTypeBits AllowedVarTypes)) Error.AssertionFailed
      pure { counts with NumBufSRVs := (counts.NumBufSRVs + 1) % Uint32Size })
    (fun r n st hal => by simp only [VERIFY, hal, if_true]; rfl)
  have k6 := processLoop_count S hS (GetAllowedTypeBits AllowedVarTypes) Category.BufUAV
    (fun _ => true)
    (fun counts : ResourceCounts =>
      { counts with NumBufUAVs := (counts.NumBufUAVs + 1) % Uint32Size })
    (fun BufUAV _ counts => do
      VERIFY (BufUAV.IsAllowedType (GetAllowedTypeBits AllowedVarTypes)) Error.AssertionFailed
      pure { counts with NumBufUAVs := (counts.NumBufUAVs + 1) % Uint32Size })
    (fun r n st hal => by simp only [VERIFY, hal, if_true]; rfl)
  simp only [Get, GetNum, Bool.and_true] at k1 k2 k3 k4 k5 k6
  simp only [CountResources, ProcessResources, k1, k2, k3, k4, k5, k6, Except_ok_bind]
  have hb : ∀ c p, 0 + S.countWhere c p < Uint32Size := fun c p => by
    have := hle c p
    omega
  rw [iterate_inc_NumCBs, iterate_inc_NumSamplers, iterate_inc_NumTexSRVs,
    iterate_inc_NumTexUAVs, iterate_inc_NumBufSRVs, iterate_inc_NumBufUAVs]
  · simp only [Nat.zero_add]
  all_goals exact hb _ _

end ShaderResources
/-- Claim C17: on a valid store and for every allowed-class list,
`CountResources` returns counts: each of `NumCBs`, `NumTexSRVs`, `NumTexUAVs`,
`NumBufSRVs`, `NumBufUAVs` is the number of descriptors of its category whose
variable class is allowed, and `NumSamplers` is the number of sampler
descriptors whose variable class is allowed and which are not static
samplers. Every output is at most the stored count of its category, and when
every sampler is flagged static `NumSamplers` is zero. The descriptor at a
position is what the accessor of the category returns there. -/
theorem ShaderResources_CountResources_spec (S : ShaderResources) (hS : S.Valid)
    (AllowedVarTypes : Option (List SHADER_VARIABLE_TYPE)) :
    ∃ r, S.CountResources AllowedVarTypes = Except.ok r ∧
      r.NumCBs = S.countWhere ShaderResources.Category.CB
        (fun d => d.IsAllowedType (GetAllowedTypeBits AllowedVarTypes)) ∧
      r.NumTexSRVs = S.countWhere ShaderResources.Category.TexSRV
        (fun d => d.IsAllowedType (GetAllowedTypeBits AllowedVarTypes)) ∧
      r.NumTexUAVs = S.countWhere ShaderResources.Category.TexUAV
        (fun d => d.IsAllowedType (GetAllowedTypeBits AllowedVarTypes)) ∧
      r.NumBufSRVs = S.countWhere ShaderResources.Category.BufSRV
        (fun d => d.IsAllowedType (GetAllowedTypeBits AllowedVarTypes)) ∧
      r.NumBufUAVs = S.countWhere ShaderResources.Category.BufUAV
        (fun d => d.IsAllowedType (GetAllowedTypeBits AllowedVarTypes)) ∧
      r.NumSamplers = S.countWhere ShaderResources.Category.Sampler
        (fun d => d.IsAllowedType (GetAllowedTypeBits AllowedVarTypes) &&
          !d.IsStaticSampler) ∧
      (r.NumCBs ≤ S.GetNumCBs ∧ r.NumTexSRVs ≤ S.GetNumTexSRV ∧
        r.NumTexUAVs ≤ S.GetNumTexUAV ∧ r.NumBufSRVs ≤ S.GetNumBufSRV ∧
        r.NumBufUAVs ≤ S.GetNumBufUAV ∧ r.NumSamplers ≤ S.GetNumSamplers) ∧
      ((∀ n, n < S.GetNumSamplers →
          (S.resourceAt ShaderResources.Category.Sampler n).IsStaticSampler = true) →
        r.NumSamplers = 0) ∧
      (∀ c n, n < S.GetNum c → S.Get c n = Except.ok (S.resourceAt c n)) := by
  have h := ShaderResources.CountResources_eq S hS AllowedVarTypes
  refine Exists.intro _ (And.intro h ?_)
  dsimp only
  refine ⟨rfl, rfl, rfl, rfl, rfl, rfl, ⟨?_, ?_, ?_, ?_, ?_, ?_⟩, ?_,
    fun c n hn => ShaderResources.d3d_Get_ok S hS c n hn⟩
  · exact (ShaderResources.countWhere_le S hS ShaderResources.Category.CB
      (fun d => d.IsAllowedType (GetAllowedTypeBits AllowedVarTypes))).1
  · exact (ShaderResources.countWhere_le S hS ShaderResources.Category.TexSRV
      (fun d => d.IsAllowedType (GetAllowedTypeBits AllowedVarTypes))).1
  · exact (ShaderResources.countWhere_le S hS ShaderResources.Category.TexUAV
      (fun d => d.IsAllowedType (GetAllowedTypeBits AllowedVarTypes))).1
  · exact (ShaderResources.countWhere_le S hS ShaderResources.Category.BufSRV
      (fun d => d.IsAllowedType (GetAllowedTypeBits AllowedVarTypes))).1
  · exact (ShaderResources.countWhere_le S hS ShaderResources.Category.BufUAV
      (fun d => d.IsAllowedType (GetAllowedTypeBits AllowedVarTypes))).1
  · exact (ShaderResources.countWhere_le S hS ShaderResources.Category.Sampler
      (fun d => d.IsAllowedType (GetAllowedTypeBits AllowedVarTypes) &&
        !d.IsStaticSampler)).1
  · intro hstatic
    simp only [ShaderResources.countWhere, List.countP_eq_zero, List.mem_range]
    intro n hn
    simp only [ShaderResources.GetNum] at hn
    simp [hstatic n hn]

/-- Witness of C17: in the scenario store whose sampler is flagged static,
with no list given, one constant buffer and one texture SRV are counted and
no sampler. -/
theorem ShaderResources_CountResources_spec_witness :
    scenarioD3DStatic.Valid ∧
    ∃ r, scenarioD3DStatic.CountResources none = Except.ok r ∧
      r.NumCBs = 1 ∧ r.NumTexSRVs = 1 ∧ r.NumSamplers = 0 := by
  refine ⟨by decide, ?_⟩
  obtain ⟨r, hr, h1, h2, _, _, _, _, _, h8, _⟩ :=
    ShaderResources_CountResources_spec scenarioD3DStatic (by decide) none
  refine ⟨r, hr, ?_, ?_, h8 ?_⟩
  · rw [h1]; rfl
  · rw [h2]; rfl
  · intro n hn
    have h0 : n = 0 := by
      have : scenarioD3DStatic.GetNumSamplers = 1 := by decide
      omega
    subst h0
    rfl

/-! ### Sampler assignment with a mismatch -/

namespace ShaderResources

/-- The loop of `FindAssignedSamplerId` returns the least matching index
together with the reports of the two checks on that sampler. -/
theorem FindAssignedSamplerId_loop_log (S : ShaderResources) (hS : S.Valid)
    (TexSRV : D3DShaderResourceAttribs) (SamplerSuffix : String) (j : Nat)
    (hj : j < S.GetNumSamplers)
    (hm : (S.resourceAt Category.Sampler j).Name = TexSRV.Name ++ SamplerSuffix)
    (hleast : ∀ i, i < j →
      (S.resourceAt Category.Sampler i).Name ≠ TexSRV.Name ++ SamplerSuffix) :
    ∀ (k s : Nat), s + k = S.GetNumSamplers → s ≤ j →
      FindAssignedSamplerId.loop S TexSRV SamplerSuffix k s = Except.ok
        (j, DEV_CHECK_ERR
            ((S.resourceAt Category.Sampler j).VariableType == TexSRV.VariableType)
            DevError.InconsistentVariableType ++
          DEV_CHECK_ERR
            ((S.resourceAt Category.Sampler j).BindCount == TexSRV.BindCount ||
              (S.resourceAt Category.Sampler j).BindCount == 1)
            DevError.InconsistentArrayDimension) := by
  intro k
  induction k with
  | zero =>
    intro s hs hsj
    omega
  | succ k ih =>
    intro s hs hsj
    have hget : S.GetSampler s = Except.ok (S.resourceAt Category.Sampler s) :=
      d3d_Get_ok S hS Category.Sampler s (by simp only [GetNum]; omega)
    by_cases hsj2 : s = j
    · subst hsj2
      simp only [FindAssignedSamplerId.loop, hget, Except_ok_bind,
        (StreqSuff_iff _ _ _).mpr hm, if_true]
      rfl
    · have hf : StreqSuff (S.resourceAt Category.Sampler s).Name TexSRV.Name SamplerSuffix
          = false := by
        rw [Bool.eq_false_iff]
        exact fun h => hleast s (by omega) ((StreqSuff_iff _ _ _).mp h)
      simp only [FindAssignedSamplerId.loop, hget, Except_ok_bind, hf, Bool.false_eq_true,
        if_false]
      exact ih (s + 1) (by omega) (by omega)

end ShaderResources

/-- Claim C18 as amended: on a valid store, for a texture descriptor and a
non-empty suffix, when the first sampler whose name is the texture name
followed by the suffix has a variable class that differs from the texture's,
or an array size that is neither 1 nor the texture's, the mismatch is
reported and `FindAssignedSamplerId` still returns the index of that sampler,
which is not the invalid-sampler sentinel. -/
theorem ShaderResources_FindAssignedSamplerId_mismatch (S : ShaderResources) (hS : S.Valid)
    (TexSRV : D3DShaderResourceAttribs) (SamplerSuffix : String)
    (hsuf : SamplerSuffix ≠ "") (htex : TexSRV.InputType = D3D_SIT_TEXTURE)
    (hdim : TexSRV.SRVDimension ≠ D3D_SRV_DIMENSION_BUFFER)
    (s : Nat) (Sam : D3DShaderResourceAttribs) (hs : S.GetSampler s = Except.ok Sam)
    (hname : Sam.Name = TexSRV.Name ++ SamplerSuffix)
    (hleast : ∀ j Sam2, j < s → S.GetSampler j = Except.ok Sam2 →
      Sam2.Name ≠ TexSRV.Name ++ SamplerSuffix)
    (hmis : Sam.VariableType ≠ TexSRV.VariableType ∨
      ¬ (Sam.BindCount = TexSRV.BindCount ∨ Sam.BindCount = 1)) :
    ∃ log, S.FindAssignedSamplerId TexSRV SamplerSuffix = Except.ok (s, log) ∧
      log ≠ [] ∧
      (Sam.VariableType ≠ TexSRV.VariableType → DevError.InconsistentVariableType ∈ log) ∧
      (¬ (Sam.BindCount = TexSRV.BindCount ∨ Sam.BindCount = 1) →
        DevError.InconsistentArrayDimension ∈ log) ∧
      s ≠ D3DShaderResourceAttribs.InvalidSamplerId := by
  have hslt := ShaderResources.d3d_Get_lt S ShaderResources.Category.Sampler s Sam hs
  have hget : ∀ i, i < S.GetNumSamplers →
      S.GetSampler i = Except.ok (S.resourceAt ShaderResources.Category.Sampler i) :=
    fun i hi => ShaderResources.d3d_Get_ok S hS ShaderResources.Category.Sampler i hi
  have hSam : Sam = S.resourceAt ShaderResources.Category.Sampler s := by
    have h2 := hget s hslt
    rw [hs] at h2
    cases h2
    rfl
  subst hSam
  have hloop := ShaderResources.FindAssignedSamplerId_loop_log S hS TexSRV SamplerSuffix s hslt
    hname (fun i hi => hleast i _ hi (hget i (by simp only [ShaderResources.GetNum] at hslt; omega)))
    S.GetNumSamplers 0 (by omega) (Nat.zero_le _)
  have hfind : S.FindAssignedSamplerId TexSRV SamplerSuffix =
      ShaderResources.FindAssignedSamplerId.loop S TexSRV SamplerSuffix S.GetNumSamplers 0 := by
    simp only [ShaderResources.FindAssignedSamplerId, VERIFY, bne_iff_ne, ne_eq, hsuf,
      not_false_eq_true, if_true, htex, beq_self_eq_true, hdim, Bool.and_self, decide_True,
      decide_not, Bool.not_eq_true', Bool.true_and]
    rfl
  rw [hloop] at hfind
  refine Exists.intro _ (And.intro hfind ⟨?_, ?_, ?_, ?_⟩)
  · rcases hmis with h1 | h2
    · simp [DEV_CHECK_ERR, h1]
    · have h3 : ¬ (S.resourceAt ShaderResources.Category.Sampler s).BindCount =
          TexSRV.BindCount := fun h => h2 (Or.inl h)
      have h4 : ¬ (S.resourceAt ShaderResources.Category.Sampler s).BindCount = 1 :=
        fun h => h2 (Or.inr h)
      simp [DEV_CHECK_ERR, h3, h4]
  · intro h1
    simp [DEV_CHECK_ERR, h1]
  · intro h2
    have h3 : ¬ (S.resourceAt ShaderResources.Category.Sampler s).BindCount =
        TexSRV.BindCount := fun h => h2 (Or.inl h)
    have h4 : ¬ (S.resourceAt ShaderResources.Category.Sampler s).BindCount = 1 :=
      fun h => h2 (Or.inr h)
    simp [DEV_CHECK_ERR, h3, h4]
  · have := ShaderResources.GetNumSamplers_lt_InvalidSamplerId S hS
    simp only [ShaderResources.GetNum] at hslt
    omega

/-- Witness of C18 as amended: in the mismatching scenario store the texture
`Tex` still resolves to sampler `0`, with a report. -/
theorem ShaderResources_FindAssignedSamplerId_mismatch_witness :
    scenarioD3DMismatch.Valid ∧ "_sampler" ≠ "" ∧
    ∃ log, scenarioD3DMismatch.FindAssignedSamplerId scenarioTex "_sampler" =
      Except.ok (0, log) ∧ log ≠ [] := by
  refine ⟨by decide, by decide, ?_⟩
  obtain ⟨log, h1, h2, _⟩ := ShaderResources_FindAssignedSamplerId_mismatch scenarioD3DMismatch
    (by decide) scenarioTex "_sampler" (by decide) rfl (by decide) 0 _ rfl (by decide)
    (fun j _ hj => absurd hj (Nat.not_lt_zero j)) (Or.inl (by decide))
  exact ⟨log, h1, h2⟩

/-- Counterexample to C18 as stated: the sampler `Tex_sampler` of the
mismatching scenario store matches the texture `Tex` by name, has another
variable class and an array size that is neither 1 nor the texture's, and
`FindAssignedSamplerId` reports both mismatches and returns its index `0`,
which is not the sentinel. -/
theorem ShaderResources_FindAssignedSamplerId_returns_mismatched :
    scenarioD3DMismatch.GetSampler 0 = Except.ok
      ⟨"Tex_sampler", 0, 2, 3, SHADER_VARIABLE_TYPE_STATIC, 0,
        D3DShaderResourceAttribs.InvalidSamplerId, false⟩ ∧
    "Tex_sampler" = scenarioTex.Name ++ "_sampler" ∧
    SHADER_VARIABLE_TYPE_STATIC ≠ scenarioTex.VariableType ∧
    (2 : Nat) ≠ scenarioTex.BindCount ∧
    scenarioD3DMismatch.FindAssignedSamplerId scenarioTex "_sampler" =
      Except.ok (0, [DevError.InconsistentVariableType, DevError.InconsistentArrayDimension]) ∧
    (0 : Nat) ≠ D3DShaderResourceAttribs.InvalidSamplerId :=
  ⟨rfl, by decide, by decide, by decide, rfl, by decide⟩


/-! ### Printable names -/

/-- Claim C19: for every descriptor and every `ArrayInd` below its array
size, `GetPrintName(ArrayInd)` is `Name` followed by `[`, the decimal
representation of `ArrayInd` and `]` when the array size is greater than 1,
and exactly `Name` when the array size is 1. -/
theorem SPIRVShaderResourceAttribs_GetPrintName_spec (d : SPIRVShaderResourceAttribs)
    (ArrayInd : Nat) (h : ArrayInd < d.ArraySize) :
    (1 < d.ArraySize →
      d.GetPrintName ArrayInd = Except.ok (d.Name ++ "[" ++ Nat.repr ArrayInd ++ "]")) ∧
    (d.ArraySize = 1 → d.GetPrintName ArrayInd = Except.ok d.Name) := by
  constructor
  · intro h1
    simp only [SPIRVShaderResourceAttribs.GetPrintName, VERIFY, h, decide_True, if_true,
      gt_iff_lt, h1]
    rfl
  · intro h1
    have h2 : ¬ 1 < d.ArraySize := by omega
    simp only [SPIRVShaderResourceAttribs.GetPrintName, VERIFY, h, decide_True, if_true,
      gt_iff_lt, h2, if_false]
    rfl

/-- Witness of C19: element `3` of the array `Tex` of size four prints as
`Tex[3]`. -/
theorem SPIRVShaderResourceAttribs_GetPrintName_spec_witness :
    (3 : Nat) < 4 ∧
    SPIRVShaderResourceAttribs.GetPrintName
      ⟨"Tex", 4, ResourceType.SampledImage, SHADER_VARIABLE_TYPE_MUTABLE, -1, 20, 21⟩ 3 =
      Except.ok "Tex[3]" := by
  refine ⟨by decide, ?_⟩
  rw [(SPIRVShaderResourceAttribs_GetPrintName_spec
    ⟨"Tex", 4, ResourceType.SampledImage, SHADER_VARIABLE_TYPE_MUTABLE, -1, 20, 21⟩ 3
    (by decide)).1 (by decide)]
  rfl

/-! ### Totality of the compatibility check -/

/-- Claim C20: for every pair of valid stores `IsCompatibleWith` returns a
boolean and no error, so none of the checked descriptor accesses it makes on
either store is out of range; when the counts agree, every index the loops
reach is readable in both stores; and when some category count differs the
result is false. -/
theorem ShaderResources_IsCompatibleWith_returns (A B : ShaderResources)
    (hA : A.Valid) (hB : B.Valid) :
    (∃ r, A.IsCompatibleWith B = Except.ok r) ∧
    (∀ e, A.IsCompatibleWith B ≠ Except.error e) ∧
    ((∀ c, A.GetNum c = B.GetNum c) → ∀ c n, n < A.GetNum c →
      (∃ a, A.Get c n = Except.ok a) ∧ (∃ b, B.Get c n = Except.ok b)) ∧
    ((∃ c, A.GetNum c ≠ B.GetNum c) → A.IsCompatibleWith B = Except.ok false) := by
  obtain ⟨r, hr⟩ := ShaderResources.IsCompatibleWith_total A B hA hB
  refine ⟨⟨r, hr⟩, ?_, ?_, ShaderResources.IsCompatibleWith_counts_differ A B⟩
  · intro e he
    rw [hr] at he
    cases he
  · intro hc c n hn
    exact ⟨⟨_, ShaderResources.d3d_Get_ok A hA c n hn⟩,
      ⟨_, ShaderResources.d3d_Get_ok B hB c n (by rw [← hc c]; exact hn)⟩⟩

/-- Witness of C20: the scenario store and the empty store differ in shape,
and the check returns false. -/
theorem ShaderResources_IsCompatibleWith_returns_witness :
    scenarioD3D.Valid ∧ (ShaderResources.new 1).Valid ∧
    scenarioD3D.IsCompatibleWith (ShaderResources.new 1) = Except.ok false :=
  ⟨by decide, by decide,
    (ShaderResources_IsCompatibleWith_returns scenarioD3D (ShaderResources.new 1)
      (by decide) (by decide)).2.2.2 ⟨ShaderResources.Category.CB, by decide⟩⟩

/-! ### Compatibility as an equivalence -/

/-- The descriptor comparison is symmetric. -/
theorem SPIRV_IsCompatibleWith_symm (a b : SPIRVShaderResourceAttribs) :
    a.IsCompatibleWith b = b.IsCompatibleWith a := by
  rw [Bool.eq_iff_iff]
  simp only [SPIRVShaderResourceAttribs.IsCompatibleWith, Bool.and_eq_true, Bool.or_eq_true,
    beq_iff_eq, decide_eq_true_eq]
  constructor
  · rintro ⟨⟨⟨h1, h2⟩, h3⟩, h4⟩
    exact ⟨⟨⟨h1.symm, h2.symm⟩, h3.symm⟩, h4.imp And.symm And.symm⟩
  · rintro ⟨⟨⟨h1, h2⟩, h3⟩, h4⟩
    exact ⟨⟨⟨h1.symm, h2.symm⟩, h3.symm⟩, h4.imp And.symm And.symm⟩

/-- The descriptor comparison is transitive. -/
theorem SPIRV_IsCompatibleWith_trans (a b c : SPIRVShaderResourceAttribs)
    (hab : a.IsCompatibleWith b = true) (hbc : b.IsCompatibleWith c = true) :
    a.IsCompatibleWith c = true := by
  simp only [SPIRVShaderResourceAttribs.IsCompatibleWith, Bool.and_eq_true, Bool.or_eq_true,
    beq_iff_eq, decide_eq_true_eq] at hab hbc ⊢
  obtain ⟨⟨⟨h1, h2⟩, h3⟩, h4⟩ := hab
  obtain ⟨⟨⟨k1, k2⟩, k3⟩, k4⟩ := hbc
  refine ⟨⟨⟨h1.trans k1, h2.trans k2⟩, h3.trans k3⟩, ?_⟩
  rcases h4 with ⟨p, q⟩ | ⟨p, q⟩ <;> rcases k4 with ⟨r, s⟩ | ⟨r, s⟩
  · exact Or.inl ⟨p, s⟩
  · omega
  · omega
  · exact Or.inr ⟨p, s⟩

namespace ShaderResources

/-- The modelled Direct3D descriptor comparison is symmetric. -/
theorem D3D_IsCompatibleWith_symm (a b : D3DShaderResourceAttribs) :
    a.IsCompatibleWith b = b.IsCompatibleWith a := by
  rw [Bool.eq_iff_iff]
  simp only [D3DShaderResourceAttribs.IsCompatibleWith, Bool.and_eq_true, beq_iff_eq]
  constructor <;> rintro ⟨⟨⟨h1, h2⟩, h3⟩, h4⟩ <;> exact ⟨⟨⟨h1.symm, h2.symm⟩, h3.symm⟩, h4.symm⟩

/-- The modelled Direct3D descriptor comparison is transitive. -/
theorem D3D_IsCompatibleWith_trans (a b c : D3DShaderResourceAttribs)
    (hab : a.IsCompatibleWith b = true) (hbc : b.IsCompatibleWith c = true) :
    a.IsCompatibleWith c = true := by
  simp only [D3DShaderResourceAttribs.IsCompatibleWith, Bool.and_eq_true, beq_iff_eq]
    at hab hbc ⊢
  obtain ⟨⟨⟨h1, h2⟩, h3⟩, h4⟩ := hab
  obtain ⟨⟨⟨k1, k2⟩, k3⟩, k4⟩ := hbc
  exact ⟨⟨⟨h1.trans k1, h2.trans k2⟩, h3.trans k3⟩, h4.trans k4⟩

/-- On valid stores a true comparison is true in the other direction. -/
theorem IsCompatibleWith_symm_of_true (A B : ShaderResources) (hA : A.Valid) (hB : B.Valid)
    (h : A.IsCompatibleWith B = Except.ok true) : B.IsCompatibleWith A = Except.ok true := by
  obtain ⟨hc, hall⟩ := (IsCompatibleWith_ok_true_iff A B hA hB).mp h
  refine (IsCompatibleWith_ok_true_iff B A hB hA).mpr ⟨fun c => (hc c).symm, fun c n hn => ?_⟩
  rw [D3D_IsCompatibleWith_symm]
  exact hall c n (by rw [hc c]; exact hn)

/-- On valid stores the comparison is symmetric. -/
theorem IsCompatibleWith_symm (A B : ShaderResources) (hA : A.Valid) (hB : B.Valid) :
    A.IsCompatibleWith B = B.IsCompatibleWith A := by
  obtain ⟨r, hr⟩ := IsCompatibleWith_total A B hA hB
  obtain ⟨s, hs⟩ := IsCompatibleWith_total B A hB hA
  cases r <;> cases s
  · rw [hr, hs]
  · rw [IsCompatibleWith_symm_of_true B A hB hA hs] at hr
    cases hr
  · rw [IsCompatibleWith_symm_of_true A B hA hB hr] at hs
    cases hs
  · rw [hr, hs]

/-- On valid stores the comparison is transitive. -/
theorem IsCompatibleWith_trans (A B C : ShaderResources) (hA : A.Valid) (hB : B.Valid)
    (hC : C.Valid) (hab : A.IsCompatibleWith B = Except.ok true)
    (hbc : B.IsCompatibleWith C = Except.ok true) : A.IsCompatibleWith C = Except.ok true := by
  obtain ⟨hc1, h1⟩ := (IsCompatibleWith_ok_true_iff A B hA hB).mp hab
  obtain ⟨hc2, h2⟩ := (IsCompatibleWith_ok_true_iff B C hB hC).mp hbc
  refine (IsCompatibleWith_ok_true_iff A C hA hC).mpr
    ⟨fun c => (hc1 c).trans (hc2 c), fun c n hn => ?_⟩
  exact D3D_IsCompatibleWith_trans _ _ _ (h1 c n hn) (h2 c n (by rw [← hc1 c]; exact hn))

end ShaderResources

/-- Claim C24: the descriptor comparison is symmetric and transitive for all
descriptors, and on valid stores the store-level `IsCompatibleWith` is
symmetric and transitive. -/
theorem IsCompatibleWith_symmetric_transitive (A B C : ShaderResources)
    (hA : A.Valid) (hB : B.Valid) (hC : C.Valid) :
    (∀ a b : SPIRVShaderResourceAttribs, a.IsCompatibleWith b = b.IsCompatibleWith a) ∧
    (∀ a b c : SPIRVShaderResourceAttribs, a.IsCompatibleWith b = true →
      b.IsCompatibleWith c = true → a.IsCompatibleWith c = true) ∧
    A.IsCompatibleWith B = B.IsCompatibleWith A ∧
    (A.IsCompatibleWith B = Except.ok true → B.IsCompatibleWith C = Except.ok true →
      A.IsCompatibleWith C = Except.ok true) :=
  ⟨SPIRV_IsCompatibleWith_symm, SPIRV_IsCompatibleWith_trans,
    ShaderResources.IsCompatibleWith_symm A B hA hB,
    ShaderResources.IsCompatibleWith_trans A B C hA hB hC⟩

/-- Witness of C24: the renamed scenario store is compatible with the scenario
store, as the scenario store is with it. -/
theorem IsCompatibleWith_symmetric_transitive_witness :
    scenarioD3D.Valid ∧ scenarioD3DRenamed.Valid ∧ scenarioD3DArray.Valid ∧
    scenarioD3DRenamed.IsCompatibleWith scenarioD3D = Except.ok true := by
  refine ⟨by decide, by decide, by decide, ?_⟩
  rw [← (IsCompatibleWith_symmetric_transitive scenarioD3D scenarioD3DRenamed scenarioD3DArray
    (by decide) (by decide) (by decide)).2.2.1]
  rfl

/-! ### Distinct printable names -/

/-- The value of a decimal digit character. -/
theorem digitChar_toNat (n : Nat) (h : n < 10) : (Nat.digitChar n).toNat - 48 = n := by
  interval_cases n <;> rfl

/-- Reading the digits written by `Nat.toDigitsCore` in base ten gives the
number back. -/
theorem toDigitsCore_readBack (fuel : Nat) : ∀ (n : Nat) (ds : List Char), n < fuel →
    (Nat.toDigitsCore 10 fuel n ds).foldl (fun a c => 10 * a + (c.toNat - 48)) 0 =
      ds.foldl (fun a c => 10 * a + (c.toNat - 48)) n := by
  induction fuel with
  | zero => intro n ds h; omega
  | succ fuel ih =>
    intro n ds h
    rw [Nat.toDigitsCore]
    by_cases h0 : n / 10 = 0
    · simp only [h0, if_true, List.foldl_cons, Nat.mul_zero, Nat.zero_add]
      rw [digitChar_toNat _ (Nat.mod_lt _ (by decide))]
      congr 1
      omega
    · simp only [h0, if_false]
      rw [ih (n / 10) _ (by omega), List.foldl_cons,
        digitChar_toNat _ (Nat.mod_lt _ (by decide))]
      congr 1
      omega

/-- The decimal representation determines the number. -/
theorem Nat_repr_injective (i j : Nat) (h : Nat.repr i = Nat.repr j) : i = j := by
  have hd : Nat.toDigits 10 i = Nat.toDigits 10 j := by
    have := congrArg String.data h
    simpa [Nat.repr, List.asString] using this
  have hi := toDigitsCore_readBack (i + 1) i [] (by omega)
  have hj := toDigitsCore_readBack (j + 1) j [] (by omega)
  simp only [List.foldl_nil] at hi hj
  unfold Nat.toDigits at hd
  rw [← hi, ← hj, hd]

/-- The printable name of an element of an array resource. -/
theorem GetPrintName_array (d : SPIRVShaderResourceAttribs) (i : Nat)
    (h1 : 1 < d.ArraySize) (h : i < d.ArraySize) :
    d.GetPrintName i = Except.ok (d.Name ++ "[" ++ Nat.repr i ++ "]") := by
  simp only [SPIRVShaderResourceAttribs.GetPrintName, VERIFY, h, decide_True, if_true,
    gt_iff_lt, h1]
  rfl

/-- Claim C25: for a descriptor with `ArraySize > 1` and two different indices
below the array size, `GetPrintName` returns a name for each of them and the
two names differ. -/
theorem SPIRVShaderResourceAttribs_GetPrintName_injective (d : SPIRVShaderResourceAttribs)
    (i j : Nat) (h1 : 1 < d.ArraySize) (hi : i < d.ArraySize) (hj : j < d.ArraySize)
    (hij : i ≠ j) :
    (∃ s t, d.GetPrintName i = Except.ok s ∧ d.GetPrintName j = Except.ok t ∧ s ≠ t) ∧
    d.GetPrintName i ≠ d.GetPrintName j := by
  have key : d.Name ++ "[" ++ Nat.repr i ++ "]" ≠ d.Name ++ "[" ++ Nat.repr j ++ "]" := by
    intro he
    have hd := congrArg String.data he
    simp only [String.data_append, List.append_assoc] at hd
    have h2 := List.append_cancel_left (List.append_cancel_left hd)
    have h3 := List.append_cancel_right h2
    exact hij (Nat_repr_injective i j (String.ext h3))
  refine ⟨⟨_, _, GetPrintName_array d i h1 hi, GetPrintName_array d j h1 hj, key⟩, ?_⟩
  rw [GetPrintName_array d i h1 hi, GetPrintName_array d j h1 hj]
  intro he
  exact key (Except.ok.inj he)

/-- Witness of C25: elements `9` and `10` of an array `Tex` of size twelve have
different printable names. -/
theorem SPIRVShaderResourceAttribs_GetPrintName_injective_witness :
    SPIRVShaderResourceAttribs.GetPrintName
      ⟨"Tex", 12, ResourceType.SampledImage, SHADER_VARIABLE_TYPE_MUTABLE, -1, 20, 21⟩ 9 ≠
    SPIRVShaderResourceAttribs.GetPrintName
      ⟨"Tex", 12, ResourceType.SampledImage, SHADER_VARIABLE_TYPE_MUTABLE, -1, 20, 21⟩ 10 :=
  (SPIRVShaderResourceAttribs_GetPrintName_injective
    ⟨"Tex", 12, ResourceType.SampledImage, SHADER_VARIABLE_TYPE_MUTABLE, -1, 20, 21⟩ 9 10
    (by decide) (by decide) (by decide) (by decide)).2

/-! ### The destructor of the Direct3D store -/

namespace ShaderResources

/-- The remaining iterations of a destructor loop inside the block destroy the
slots that follow, in order. -/
theorem processLoop_destroy (S : ShaderResources) (Num Off : Nat)
    (hlen : S.m_MemoryBuffer.length = S.m_TotalResources) (hle : Off + Num ≤ S.m_TotalResources) :
    ∀ (k n : Nat) (d : List Nat), n + k ≤ Num →
      processLoop (fun n => S.GetResAttribsSlot n Num Off) (fun _ => true)
        (fun slot _ d => pure (d ++ [slot])) k n d = Except.ok (d ++ List.range' (Off + n) k) := by
  intro k
  induction k with
  | zero => intro n d _; simp [processLoop]; rfl
  | succ k ih =>
    intro n d h
    have hget : S.GetResAttribsSlot n Num Off = Except.ok (Off + n) := by
      rw [GetResAttribsSlot, d3d_GetResAttribs_ok S n Num Off (by omega) (by omega) hlen]
      rfl
    simp only [processLoop, hget, Except_ok_bind, if_true]
    have := ih (n + 1) (d ++ [Off + n]) (by omega)
    simp only [bind_pure_comp, pure_bind] at this ⊢
    rw [this, List.range'_succ, List.append_assoc]
    rfl

/-- A destructor loop over a category inside the block destroys the slots of
the category, in order. -/
theorem destroyLoop_eq (S : ShaderResources) (Num Off : Nat) (d : List Nat)
    (hlen : S.m_MemoryBuffer.length = S.m_TotalResources) (hle : Off + Num ≤ S.m_TotalResources) :
    S.destroyLoop Num Off d = Except.ok (d ++ List.range' Off Num) := by
  rw [destroyLoop, processLoop_destroy S Num Off hlen hle Num 0 d (by omega)]
  rfl

/-- With ordered offsets the destructor destroys the slots `0, 1, ...` below the
total, each once and in this order. -/
theorem destructor_eq (S : ShaderResources) (h : S.OffsetsOrdered)
    (hlen : S.m_MemoryBuffer.length = S.m_TotalResources) :
    S.destructor = Except.ok (List.range S.m_TotalResources) := by
  obtain ⟨h1, h2, h3, h4, h5, h6⟩ := h
  have h7 : S.m_TotalResources < Uint32Size := by
    have : OffsetTypeSize ≤ Uint32Size := by decide
    omega
  have e1 : S.GetNumCBs = S.m_TexSRVOffset := by
    simp only [GetNumCBs, offsetDiff]; rw [offsetDiff_eq _ _ (by omega) (by omega)]; omega
  have e2 : S.GetNumTexSRV = S.m_TexUAVOffset - S.m_TexSRVOffset := by
    simp only [GetNumTexSRV, offsetDiff]; rw [offsetDiff_eq _ _ (by omega) (by omega)]
  have e3 : S.GetNumTexUAV = S.m_BufSRVOffset - S.m_TexUAVOffset := by
    simp only [GetNumTexUAV, offsetDiff]; rw [offsetDiff_eq _ _ (by omega) (by omega)]
  have e4 : S.GetNumBufSRV = S.m_BufUAVOffset - S.m_BufSRVOffset := by
    simp only [GetNumBufSRV, offsetDiff]; rw [offsetDiff_eq _ _ (by omega) (by omega)]
  have e5 : S.GetNumBufUAV = S.m_SamplersOffset - S.m_BufUAVOffset := by
    simp only [GetNumBufUAV, offsetDiff]; rw [offsetDiff_eq _ _ (by omega) (by omega)]
  have e6 : S.GetNumSamplers = S.m_TotalResources - S.m_SamplersOffset := by
    simp only [GetNumSamplers, offsetDiff]; rw [offsetDiff_eq _ _ (by omega) (by omega)]
  have glue : ∀ a b : Nat, a ≤ b →
      List.range' 0 a ++ List.range' a (b - a) = List.range' 0 b := by
    intro a b hab
    have := List.range'_append_1 0 a (b - a)
    rw [Nat.zero_add] at this
    rw [this, Nat.sub_add_cancel hab]
  have d1 := fun d => destroyLoop_eq S S.GetNumCBs 0 d hlen (by omega)
  have d2 := fun d => destroyLoop_eq S S.GetNumTexSRV S.m_TexSRVOffset d hlen (by omega)
  have d3 := fun d => destroyLoop_eq S S.GetNumTexUAV S.m_TexUAVOffset d hlen (by omega)
  have d4 := fun d => destroyLoop_eq S S.GetNumBufSRV S.m_BufSRVOffset d hlen (by omega)
  have d5 := fun d => destroyLoop_eq S S.GetNumBufUAV S.m_BufUAVOffset d hlen (by omega)
  have d6 := fun d => destroyLoop_eq S S.GetNumSamplers S.m_SamplersOffset d hlen (by omega)
  simp only [destructor, d1, d2, d3, d4, d5, d6, Except_ok_bind]
  rw [e1, e2, e3, e4, e5, e6, List.nil_append, glue _ _ h1, glue _ _ (by omega),
    glue _ _ (by omega), glue _ _ (by omega), glue _ _ (by omega), List.range_eq_range']

end ShaderResources

/-- Claim C22: with non-decreasing category offsets (and the block holding
`m_TotalResources` descriptors) the six loops of the destructor run without a
failed check and destroy the slots `0, 1, ..., GetTotalResources() - 1` in this
order: every slot below the total is destroyed exactly once, and no slot at or
above the total is destroyed. -/
theorem ShaderResources_destructor_each_once (S : ShaderResources) (h : S.OffsetsOrdered)
    (hlen : S.m_MemoryBuffer.length = S.m_TotalResources) :
    ∃ d, S.destructor = Except.ok d ∧ d = List.range S.GetTotalResources ∧
      (∀ i, i < S.GetTotalResources → d.count i = 1) ∧
      (∀ i, S.GetTotalResources ≤ i → d.count i = 0) := by
  refine ⟨_, ShaderResources.destructor_eq S h hlen, rfl, ?_, ?_⟩
  · intro i hi
    exact List.count_eq_one_of_mem (List.nodup_range _) (List.mem_range.mpr hi)
  · intro i hi
    exact List.count_eq_zero_of_not_mem (fun hm => by
      have := List.mem_range.mp hm
      simp only [ShaderResources.GetTotalResources] at hi
      omega)

/-- Witness of C22: the destructor of the scenario store, which holds seven
descriptors, destroys the slots `0` to `6` in order. -/
theorem ShaderResources_destructor_each_once_witness :
    scenarioD3D.OffsetsOrdered ∧
    scenarioD3D.m_MemoryBuffer.length = scenarioD3D.m_TotalResources ∧
    ∃ d, scenarioD3D.destructor = Except.ok d ∧
      d = List.range scenarioD3D.GetTotalResources ∧
      (∀ i, i < scenarioD3D.GetTotalResources → d.count i = 1) ∧
      (∀ i, scenarioD3D.GetTotalResources ≤ i → d.count i = 0) :=
  ⟨by decide, by decide, ShaderResources_destructor_each_once scenarioD3D (by decide) (by decide)⟩

/-! ### The two enumerations of the SPIR-V store -/

namespace SPIRVShaderResources

/-- The allowed indices of one category, shifted by the category offset, are
the allowed global indices of the range of the category. -/
theorem map_filter_range_offset (S : SPIRVShaderResources) (bits : Nat) (c : Category) :
    (((List.range (S.GetNum c)).filter fun n =>
        IsAllowedType (S.resourceAt c n).VarType bits).map fun n => (c, n)).map
        (fun v => S.offsetOf v.1 + v.2) =
      (List.range' (S.offsetOf c) (S.GetNum c)).filter fun i =>
        IsAllowedType (S.m_MemoryBuffer.getD i default).VarType bits := by
  rw [List.range'_eq_map_range, List.filter_map, List.map_map]
  rfl

/-- Two adjacent ranges of global indices make one range. -/
theorem range'_glue (a b : Nat) (hab : a ≤ b) :
    List.range' 0 a ++ List.range' a (b - a) = List.range' 0 b := by
  have := List.range'_append_1 0 a (b - a)
  rw [Nat.zero_add] at this
  rw [this, Nat.sub_add_cancel hab]

/-- With ordered offsets the specified visits, as global indices, are the
allowed global indices below the total in increasing order. -/
theorem visits_global (S : SPIRVShaderResources) (h : S.OffsetsOrdered) (bits : Nat) :
    (S.visits bits).map (fun v => S.offsetOf v.1 + v.2) =
      (List.range S.m_TotalResources).filter fun i =>
        IsAllowedType (S.m_MemoryBuffer.getD i default).VarType bits := by
  have k := fun c => (GetNum_eq_sub S h c).1
  have k1 := k Category.UB
  have k2 := k Category.SB
  have k3 := k Category.Img
  have k4 := k Category.SmplImg
  have k5 := k Category.AC
  have k6 := k Category.SepImg
  have k7 := k Category.SepSmpl
  obtain ⟨h1, h2, h3, h4, h5, h6, h7⟩ := h
  have hr : List.range S.m_TotalResources =
      List.range' 0 S.m_StorageBufferOffset ++
        (List.range' S.m_StorageBufferOffset (S.m_StorageImageOffset - S.m_StorageBufferOffset) ++
        (List.range' S.m_StorageImageOffset (S.m_SampledImageOffset - S.m_StorageImageOffset) ++
        (List.range' S.m_SampledImageOffset (S.m_AtomicCounterOffset - S.m_SampledImageOffset) ++
        (List.range' S.m_AtomicCounterOffset
            (S.m_SeparateImageOffset - S.m_AtomicCounterOffset) ++
        (List.range' S.m_SeparateImageOffset
            (S.m_SeparateSamplerOffset - S.m_SeparateImageOffset) ++
        List.range' S.m_SeparateSamplerOffset
            (S.m_TotalResources - S.m_SeparateSamplerOffset)))))) := by
    rw [List.range_eq_range', ← range'_glue _ _ h6, ← range'_glue _ _ h5, ← range'_glue _ _ h4,
      ← range'_glue _ _ h3, ← range'_glue _ _ h2, ← range'_glue _ _ h1]
    simp only [List.append_assoc]
  simp only [visits, List.map_flatMap, Category.all, List.flatMap_cons, List.flatMap_nil,
    List.append_nil, List.map_append, map_filter_range_offset]
  rw [k1, k2, k3, k4, k5, k6, k7, hr]
  simp only [offsetOf, endOf, Nat.sub_zero, List.filter_append]

/-- The single-handler enumeration folds the handler over the allowed global
indices. -/
theorem ProcessResourcesSingle_eq_foldlM {σ : Type} (S : SPIRVShaderResources) (hS : S.Valid)
    (AllowedVarTypes : Option (List SHADER_VARIABLE_TYPE))
    (Handler : SPIRVShaderResourceAttribs → Nat → σ → Except Error σ) (st : σ) :
    S.ProcessResourcesSingle AllowedVarTypes Handler st =
      ((List.range S.m_TotalResources).filter fun i =>
        IsAllowedType (S.m_MemoryBuffer.getD i default).VarType
          (GetAllowedTypeBits AllowedVarTypes)).foldlM
        (fun st i => Handler (S.m_MemoryBuffer.getD i default) i st) st := by
  have hlen := hS.2.2.2.2.2.2.2
  simp only [ProcessResourcesSingle]
  rw [processLoop_foldlM S.GetResource _ Handler (fun i => S.m_MemoryBuffer.getD i default)
    S.GetTotalResources 0 st (fun i _ hi => by
      have := GetResAttribs_ok S i S.GetTotalResources 0
        (by omega) (by simp only [GetTotalResources] at hi; omega) hlen
      rw [Nat.zero_add] at this
      exact this)]
  rw [← List.range_eq_range']
  exact foldlM_filter_ite
    (fun i => IsAllowedType (S.m_MemoryBuffer.getD i default).VarType
      (GetAllowedTypeBits AllowedVarTypes))
    (fun st i => Handler (S.m_MemoryBuffer.getD i default) i st) _ st

/-- The single-handler enumeration is the per-category enumeration whose
handlers add the category offset to the index. -/
theorem ProcessResourcesSingle_eq {σ : Type} (S : SPIRVShaderResources) (hS : S.Valid)
    (AllowedVarTypes : Option (List SHADER_VARIABLE_TYPE))
    (Handler : SPIRVShaderResourceAttribs → Nat → σ → Except Error σ) (st : σ) :
    S.ProcessResourcesSingle AllowedVarTypes Handler st =
      S.ProcessResources AllowedVarTypes
        (fun r n => Handler r (S.offsetOf Category.UB + n))
        (fun r n => Handler r (S.offsetOf Category.SB + n))
        (fun r n => Handler r (S.offsetOf Category.Img + n))
        (fun r n => Handler r (S.offsetOf Category.SmplImg + n))
        (fun r n => Handler r (S.offsetOf Category.AC + n))
        (fun r n => Handler r (S.offsetOf Category.SepImg + n))
        (fun r n => Handler r (S.offsetOf Category.SepSmpl + n)) st := by
  rw [ProcessResourcesSingle_eq_foldlM S hS,
    ProcessResources_eq_foldlM S hS AllowedVarTypes
      (fun c r n => Handler r (S.offsetOf c + n)) st,
    ← visits_global S hS.offsetsOrdered, List.foldlM_map]
  rfl

end SPIRVShaderResources

/-- Claim C23: for every valid store (non-decreasing offsets, the buffer holding
the total number of descriptors), every allowed-class list and every handler,
the single-handler `ProcessResources` gives the result of the seven-handler
`ProcessResources` whose handler of a category calls the single handler with
the descriptor and the category offset plus the category-relative index; in
particular the recorded calls of the single handler are the specified
per-category visits, in the same order, each with its descriptor and the
global index `offset + n`. -/
theorem SPIRVShaderResources_ProcessResources_overloads_agree {σ : Type}
    (S : SPIRVShaderResources) (hS : S.Valid)
    (AllowedVarTypes : Option (List SHADER_VARIABLE_TYPE))
    (Handler : SPIRVShaderResourceAttribs → Nat → σ → Except Error σ) (st : σ) :
    S.ProcessResourcesSingle AllowedVarTypes Handler st =
      S.ProcessResources AllowedVarTypes
        (fun r n => Handler r (S.offsetOf SPIRVShaderResources.Category.UB + n))
        (fun r n => Handler r (S.offsetOf SPIRVShaderResources.Category.SB + n))
        (fun r n => Handler r (S.offsetOf SPIRVShaderResources.Category.Img + n))
        (fun r n => Handler r (S.offsetOf SPIRVShaderResources.Category.SmplImg + n))
        (fun r n => Handler r (S.offsetOf SPIRVShaderResources.Category.AC + n))
        (fun r n => Handler r (S.offsetOf SPIRVShaderResources.Category.SepImg + n))
        (fun r n => Handler r (S.offsetOf SPIRVShaderResources.Category.SepSmpl + n)) st ∧
    S.ProcessResourcesSingle AllowedVarTypes SPIRVShaderResources.recordCall [] =
      Except.ok ((S.visits (GetAllowedTypeBits AllowedVarTypes)).map fun v =>
        (S.resourceAt v.1 v.2, S.offsetOf v.1 + v.2)) := by
  refine ⟨SPIRVShaderResources.ProcessResourcesSingle_eq S hS AllowedVarTypes Handler st, ?_⟩
  rw [SPIRVShaderResources.ProcessResourcesSingle_eq_foldlM S hS,
    ← SPIRVShaderResources.visits_global S hS.offsetsOrdered, List.foldlM_map]
  generalize S.visits (GetAllowedTypeBits AllowedVarTypes) = l
  have key : ∀ (l : List (SPIRVShaderResources.Category × Nat))
      (log : List (SPIRVShaderResourceAttribs × Nat)),
      l.foldlM (fun st v => SPIRVShaderResources.recordCall
        (S.m_MemoryBuffer.getD (S.offsetOf v.1 + v.2) default) (S.offsetOf v.1 + v.2) st) log =
      Except.ok (log ++ l.map fun v => (S.resourceAt v.1 v.2, S.offsetOf v.1 + v.2)) := by
    intro l
    induction l with
    | nil => intro log; simp; rfl
    | cons a l ih =>
      intro log
      rw [List.foldlM_cons]
      simp only [SPIRVShaderResources.recordCall] at ih ⊢
      rw [show (pure (log ++ [(S.m_MemoryBuffer.getD (S.offsetOf a.1 + a.2) default,
        S.offsetOf a.1 + a.2)]) : Except Error _) = Except.ok _ from rfl, Except_ok_bind, ih]
      simp [SPIRVShaderResources.resourceAt]
  have := key l []
  rw [List.nil_append] at this
  exact this

/-- Witness of C23: on the scenario store with every class allowed the single
handler is called with the three descriptors and the global indices 0, 1, 2. -/
theorem SPIRVShaderResources_ProcessResources_overloads_agree_witness :
    scenarioSPIRV.Valid ∧
    scenarioSPIRV.ProcessResourcesSingle none SPIRVShaderResources.recordCall [] =
      Except.ok ((scenarioSPIRV.visits (GetAllowedTypeBits none)).map fun v =>
        (scenarioSPIRV.resourceAt v.1 v.2, scenarioSPIRV.offsetOf v.1 + v.2)) :=
  ⟨by decide, (SPIRVShaderResources_ProcessResources_overloads_agree scenarioSPIRV (by decide)
    none SPIRVShaderResources.recordCall []).2⟩

/-! ### Buffer views -/

/-- A conditional throw followed by a computation succeeds exactly when the
condition is false and the computation succeeds. -/
theorem throwIf_bind_ok {α : Type} (c : Bool) (e : BufferError)
    (f : Unit → Except BufferError α) (r : α) :
    (throwIf c e >>= f) = Except.ok r ↔ c = false ∧ f () = Except.ok r := by
  cases c
  · simp only [throwIf, Bool.false_eq_true, if_false, true_and]
    rfl
  · simp only [throwIf, if_true]
    constructor
    · intro h; cases h
    · rintro ⟨h, _⟩; cases h

/-- A conditional throw succeeds exactly when the condition is false. -/
theorem throwIf_ok (c : Bool) (e : BufferError) (u : Unit) :
    throwIf c e = Except.ok u ↔ c = false := by
  cases c
  · simp only [throwIf, Bool.false_eq_true, if_false, iff_true]
    rfl
  · simp only [throwIf, if_true]
    constructor
    · intro h; cases h
    · intro h; cases h

namespace BufferBase

/-- What a successful stride check has checked. -/
theorem checkStride_ok (self : BufferBase) (W : BufferViewDesc) (u : Unit)
    (h : self.checkStride W = Except.ok u)
    (hm : self.m_Desc.Mode = BUFFER_MODE.BUFFER_MODE_STRUCTURED ∨
      self.m_Desc.Mode = BUFFER_MODE.BUFFER_MODE_FORMATTED) :
    self.m_Desc.ElementByteStride ≠ 0 ∧
    W.ByteOffset % self.m_Desc.ElementByteStride = 0 ∧
    W.ByteWidth % self.m_Desc.ElementByteStride = 0 := by
  unfold checkStride at h
  rw [if_pos hm] at h
  simp only [throwIf_bind_ok, throwIf_ok] at h
  obtain ⟨s1, s2, s3⟩ := h
  simp only [beq_eq_false_iff_ne, bne_eq_false_iff_eq, ne_eq] at s1 s2 s3
  exact ⟨s1, s2, s3⟩

/-- What a successful format check has checked and written. -/
theorem checkFormat_ok (self : BufferBase) (G : VALUE_TYPE → Nat) (W W2 : BufferViewDesc)
    (h : self.checkFormat G W = Except.ok W2) :
    W2.ByteOffset = W.ByteOffset ∧ W2.ByteWidth = W.ByteWidth ∧
    W2.Format.ValueType = W.Format.ValueType ∧
    W2.Format.NumComponents = W.Format.NumComponents ∧
    (self.m_Desc.Mode = BUFFER_MODE.BUFFER_MODE_FORMATTED →
      1 ≤ W.Format.NumComponents ∧ W.Format.NumComponents ≤ 4 ∧
      (G W.Format.ValueType * W.Format.NumComponents) % Uint32Size =
        self.m_Desc.ElementByteStride) := by
  unfold checkFormat at h
  by_cases hc : self.m_Desc.Mode = BUFFER_MODE.BUFFER_MODE_FORMATTED ∨
      (self.m_Desc.Mode = BUFFER_MODE.BUFFER_MODE_RAW ∧
        W.Format.ValueType ≠ VALUE_TYPE.VT_UNDEFINED)
  · rw [if_pos hc] at h
    simp only [throwIf_bind_ok] at h
    obtain ⟨h1, h2, h3, h4⟩ := h
    have h4 := Except.ok.inj h4
    simp only [decide_eq_false_iff_not, not_or, not_le, gt_iff_lt, not_lt] at h1
    by_cases hf : W.Format.ValueType = VALUE_TYPE.VT_FLOAT32 ∨
        W.Format.ValueType = VALUE_TYPE.VT_FLOAT16
    · simp only [hf, if_true] at h3 h4
      subst h4
      simp only [bne_eq_false_iff_eq] at h3
      exact ⟨rfl, rfl, rfl, rfl, fun _ => ⟨h1.1, h1.2, h3⟩⟩
    · simp only [hf, if_false] at h3 h4
      subst h4
      simp only [bne_eq_false_iff_eq] at h3
      exact ⟨rfl, rfl, rfl, rfl, fun _ => ⟨h1.1, h1.2, h3⟩⟩
  · rw [if_neg hc] at h
    have h := Except.ok.inj h
    subst h
    exact ⟨rfl, rfl, rfl, rfl, fun hm => absurd (Or.inl hm) hc⟩

/-- What a successful `CorrectBufferViewDesc` has checked and written, in terms
of the description `W` after the first block. -/
theorem CorrectBufferViewDesc_ok (self : BufferBase) (G : VALUE_TYPE → Nat)
    (V V2 : BufferViewDesc) (R : List BufferReport)
    (h : self.CorrectBufferViewDesc G V = Except.ok (V2, R)) :
    R = self.widthReports V ∧
    V2.ByteOffset = (self.defaultedWidth V).ByteOffset ∧
    V2.ByteWidth = (self.defaultedWidth V).ByteWidth ∧
    V2.Format.ValueType = (self.defaultedWidth V).Format.ValueType ∧
    V2.Format.NumComponents = (self.defaultedWidth V).Format.NumComponents ∧
    (V2.ByteOffset + V2.ByteWidth) % Uint32Size ≤ self.m_Desc.uiSizeInBytes ∧
    (self.IsUAVOrSRV = true →
      (self.m_Desc.Mode = BUFFER_MODE.BUFFER_MODE_STRUCTURED ∨
        self.m_Desc.Mode = BUFFER_MODE.BUFFER_MODE_FORMATTED →
        self.m_Desc.ElementByteStride ≠ 0 ∧
        V2.ByteOffset % self.m_Desc.ElementByteStride = 0 ∧
        V2.ByteWidth % self.m_Desc.ElementByteStride = 0) ∧
      (self.m_Desc.Mode = BUFFER_MODE.BUFFER_MODE_FORMATTED →
        V2.Format.ValueType ≠ VALUE_TYPE.VT_UNDEFINED ∧
        1 ≤ V2.Format.NumComponents ∧ V2.Format.NumComponents ≤ 4 ∧
        (G V2.Format.ValueType * V2.Format.NumComponents) % Uint32Size =
          self.m_Desc.ElementByteStride)) := by
  unfold CorrectBufferViewDesc at h
  generalize self.defaultedWidth V = W at h ⊢
  generalize self.widthReports V = Rep at h ⊢
  simp only [] at h
  rw [throwIf_bind_ok] at h
  obtain ⟨h1, h⟩ := h
  simp only [decide_eq_false_iff_not, gt_iff_lt, not_lt] at h1
  by_cases hb : self.IsUAVOrSRV = true
  · rw [if_pos hb] at h
    cases hcs : self.checkStride W with
    | error e => rw [hcs] at h; cases h
    | ok u =>
      rw [hcs, Except_ok_bind, throwIf_bind_ok] at h
      obtain ⟨h2, h⟩ := h
      simp only [decide_eq_false_iff_not, not_and] at h2
      cases hcf : self.checkFormat G W with
      | error e => rw [hcf] at h; cases h
      | ok W3 =>
        rw [hcf, Except_ok_bind] at h
        obtain ⟨f1, f2, f3, f4, f5⟩ := checkFormat_ok self G W W3 hcf
        cases hro : self.checkRawOffset W3 with
        | error e => rw [hro] at h; cases h
        | ok u2 =>
          rw [hro, Except_ok_bind] at h
          obtain ⟨rfl, rfl⟩ := Prod.mk.inj (Except.ok.inj h)
          refine ⟨rfl, f1, f2, f3, f4, by rw [f1, f2]; exact h1, fun _ => ⟨fun hm => ?_,
            fun hm => ?_⟩⟩
          · rw [f1, f2]
            exact checkStride_ok self W u hcs hm
          · rw [f3, f4]
            exact ⟨h2 hm, f5 hm⟩
  · rw [if_neg hb] at h
    obtain ⟨rfl, rfl⟩ := Prod.mk.inj (Except.ok.inj h)
    exact ⟨rfl, rfl, rfl, rfl, rfl, h1, fun hb2 => absurd hb2 hb⟩

end BufferBase

namespace BufferBase

/-- When the `Uint32` sum of the given offset and width does not wrap, and a
zero width comes with an offset inside the buffer, a successful
`CorrectBufferViewDesc` leaves a range inside the buffer. -/
theorem CorrectBufferViewDesc_range (self : BufferBase) (G : VALUE_TYPE → Nat)
    (V V2 : BufferViewDesc) (R : List BufferReport)
    (hs : self.m_Desc.uiSizeInBytes < Uint32Size)
    (hsum : V.ByteOffset + V.ByteWidth < Uint32Size)
    (hz : V.ByteWidth = 0 → V.ByteOffset ≤ self.m_Desc.uiSizeInBytes)
    (h : self.CorrectBufferViewDesc G V = Except.ok (V2, R)) :
    V2.ByteOffset = V.ByteOffset ∧
    V2.ByteOffset + V2.ByteWidth ≤ self.m_Desc.uiSizeInBytes ∧
    (V.ByteWidth = 0 → V2.ByteWidth = self.m_Desc.uiSizeInBytes - V.ByteOffset) := by
  obtain ⟨_, f1, f2, _, _, f5, _⟩ := CorrectBufferViewDesc_ok self G V V2 R h
  rw [f1, f2] at f5
  rw [f1, f2]
  unfold defaultedWidth at f5 ⊢
  by_cases hw : V.ByteWidth = 0
  · have hle := hz hw
    simp only [hw, beq_self_eq_true, if_true] at f5 ⊢
    rw [offsetDiff_eq _ _ hle hs] at f5 ⊢
    exact ⟨trivial, by omega, fun _ => rfl⟩
  · have hne : (V.ByteWidth == 0) = false := by simp [hw]
    simp only [hne, Bool.false_eq_true, if_false] at f5 ⊢
    rw [Nat.mod_eq_of_lt hsum] at f5
    exact ⟨trivial, f5, fun h0 => absurd h0 hw⟩

end BufferBase

/-- Claim C26 fails on the code: `CorrectBufferViewDesc` compares the `Uint32`
sum `ByteOffset + ByteWidth` with the buffer size. On a buffer of 16 bytes the
view with `ByteOffset = 4294967280` and `ByteWidth = 32` passes, because the sum
wraps to 16, and is returned unchanged, though its offset and its end lie far
outside the buffer; and the view with `ByteOffset = 32` and `ByteWidth = 0`
passes with the wrapped width `4294967280` and only a logged report. -/
theorem BufferBase_CorrectBufferViewDesc_range_wraps :
    exampleVertexBuffer.m_Desc.uiSizeInBytes = 16 ∧
    exampleVertexBuffer.CorrectBufferViewDesc exampleGetValueSize
        { ByteOffset := 4294967280, ByteWidth := 32 } =
      Except.ok ({ ByteOffset := 4294967280, ByteWidth := 32 }, []) ∧
    ¬ (4294967280 + 32 ≤ exampleVertexBuffer.m_Desc.uiSizeInBytes) ∧
    ¬ (4294967280 ≤ exampleVertexBuffer.m_Desc.uiSizeInBytes) ∧
    exampleVertexBuffer.CorrectBufferViewDesc exampleGetValueSize
        { ByteOffset := 32, ByteWidth := 0 } =
      Except.ok ({ ByteOffset := 32, ByteWidth := 4294967280 },
        [BufferReport.ByteOffsetExceedsSize]) ∧
    ¬ (32 + 4294967280 ≤ exampleVertexBuffer.m_Desc.uiSizeInBytes) :=
  ⟨rfl, rfl, by decide, by decide, rfl, by decide⟩

/-- Claim C27: for a buffer with `BIND_SHADER_RESOURCE` or
`BIND_UNORDERED_ACCESS` in structured or formatted mode with a non-zero
`ElementByteStride`, when `CorrectBufferViewDesc` returns a description, its
`ByteOffset` and `ByteWidth` are multiples of the stride; for a formatted
buffer the format has one to four components and the `Uint32` product of the
value size and the number of components is the stride, which is the product
itself when four values of that size fit 32 bits. -/
theorem BufferBase_CorrectBufferViewDesc_stride (self : BufferBase) (G : VALUE_TYPE → Nat)
    (V V2 : BufferViewDesc) (R : List BufferReport)
    (hb : (self.m_Desc.BindFlags &&& BIND_SHADER_RESOURCE) ≠ 0 ∨
      (self.m_Desc.BindFlags &&& BIND_UNORDERED_ACCESS) ≠ 0)
    (hm : self.m_Desc.Mode = BUFFER_MODE.BUFFER_MODE_STRUCTURED ∨
      self.m_Desc.Mode = BUFFER_MODE.BUFFER_MODE_FORMATTED)
    (_ : self.m_Desc.ElementByteStride ≠ 0)
    (h : self.CorrectBufferViewDesc G V = Except.ok (V2, R)) :
    V2.ByteOffset % self.m_Desc.ElementByteStride = 0 ∧
    V2.ByteWidth % self.m_Desc.ElementByteStride = 0 ∧
    (self.m_Desc.Mode = BUFFER_MODE.BUFFER_MODE_FORMATTED →
      1 ≤ V2.Format.NumComponents ∧ V2.Format.NumComponents ≤ 4 ∧
      (G V2.Format.ValueType * V2.Format.NumComponents) % Uint32Size =
        self.m_Desc.ElementByteStride ∧
      (G V2.Format.ValueType * 4 < Uint32Size →
        G V2.Format.ValueType * V2.Format.NumComponents = self.m_Desc.ElementByteStride)) := by
  have hb2 : self.IsUAVOrSRV = true := by
    simp only [BufferBase.IsUAVOrSRV, Bool.or_eq_true, bne_iff_ne, ne_eq]
    exact hb.symm
  obtain ⟨_, _, _, _, _, _, f6⟩ := BufferBase.CorrectBufferViewDesc_ok self G V V2 R h
  obtain ⟨g1, g2⟩ := f6 hb2
  obtain ⟨_, s2, s3⟩ := g1 hm
  refine ⟨s2, s3, fun hf => ?_⟩
  obtain ⟨_, c1, c2, c3⟩ := g2 hf
  refine ⟨c1, c2, c3, fun hlt => ?_⟩
  rw [Nat.mod_eq_of_lt] at c3
  · exact c3
  · calc G V2.Format.ValueType * V2.Format.NumComponents
        ≤ G V2.Format.ValueType * 4 := Nat.mul_le_mul_left _ c2
      _ < Uint32Size := hlt

/-- Witness of C27: on the formatted buffer with elements of 16 bytes, the view
of four 32-bit floats at offset 16 with width 0 is accepted with width 48. -/
theorem BufferBase_CorrectBufferViewDesc_stride_witness :
    (16 : Nat) % exampleFormattedBuffer.m_Desc.ElementByteStride = 0 ∧
    (48 : Nat) % exampleFormattedBuffer.m_Desc.ElementByteStride = 0 ∧
    (exampleFormattedBuffer.m_Desc.Mode = BUFFER_MODE.BUFFER_MODE_FORMATTED →
      1 ≤ 4 ∧ 4 ≤ 4 ∧
      (exampleGetValueSize VALUE_TYPE.VT_FLOAT32 * 4) % Uint32Size =
        exampleFormattedBuffer.m_Desc.ElementByteStride ∧
      (exampleGetValueSize VALUE_TYPE.VT_FLOAT32 * 4 < Uint32Size →
        exampleGetValueSize VALUE_TYPE.VT_FLOAT32 * 4 =
          exampleFormattedBuffer.m_Desc.ElementByteStride)) :=
  BufferBase_CorrectBufferViewDesc_stride exampleFormattedBuffer exampleGetValueSize
    { ByteOffset := 16, ByteWidth := 0, Format := ⟨VALUE_TYPE.VT_FLOAT32, 4, true⟩ }
    { ByteOffset := 16, ByteWidth := 48, Format := ⟨VALUE_TYPE.VT_FLOAT32, 4, false⟩ } []
    (Or.inl (by decide)) (Or.inr rfl) (by decide) rfl

/-! ### Default views -/

namespace BufferBase

/-- With an engine that yields a view of the requested type, the block of the
unordered-access view stores such a view when its condition holds and changes
nothing otherwise. -/
theorem createDefaultUAV_ok (B : BufferBase)
    (CreateViewInternal :
      BufferBase → BufferViewDesc → Bool → Except BufferError (Option BufferViewImpl))
    (hC : ∀ (b : BufferBase) (d : BufferViewDesc),
      ∃ v, CreateViewInternal b d true = Except.ok (some v) ∧ v.Desc.ViewType = d.ViewType) :
    (((B.m_Desc.BindFlags &&& BIND_UNORDERED_ACCESS) ≠ 0 ∧
        (B.m_Desc.Mode = BUFFER_MODE.BUFFER_MODE_STRUCTURED ∨
          B.m_Desc.Mode = BUFFER_MODE.BUFFER_MODE_RAW)) →
      ∃ v, v.Desc.ViewType = BUFFER_VIEW_TYPE.BUFFER_VIEW_UNORDERED_ACCESS ∧
        B.createDefaultUAV CreateViewInternal =
          Except.ok { B with m_pDefaultUAV := some v }) ∧
    (¬ ((B.m_Desc.BindFlags &&& BIND_UNORDERED_ACCESS) ≠ 0 ∧
        (B.m_Desc.Mode = BUFFER_MODE.BUFFER_MODE_STRUCTURED ∨
          B.m_Desc.Mode = BUFFER_MODE.BUFFER_MODE_RAW)) →
      B.createDefaultUAV CreateViewInternal = Except.ok B) := by
  constructor
  · intro hc
    have hc2 : ((B.m_Desc.BindFlags &&& BIND_UNORDERED_ACCESS) != 0) = true ∧
        (B.m_Desc.Mode = BUFFER_MODE.BUFFER_MODE_STRUCTURED ∨
          B.m_Desc.Mode = BUFFER_MODE.BUFFER_MODE_RAW) := ⟨bne_iff_ne.mpr hc.1, hc.2⟩
    obtain ⟨v, e, t⟩ := hC B { ViewType := BUFFER_VIEW_TYPE.BUFFER_VIEW_UNORDERED_ACCESS }
    refine ⟨v, t, ?_⟩
    unfold createDefaultUAV
    rw [if_pos hc2]
    have t2 : (v.Desc.ViewType != BUFFER_VIEW_TYPE.BUFFER_VIEW_UNORDERED_ACCESS) = false :=
      bne_eq_false_iff_eq.mpr t
    simp only [e, Except_ok_bind, verifyViewType, throwIf, t2, Bool.false_eq_true, if_false,
      pure_bind]
    rfl
  · intro hc
    have hc2 : ¬ (((B.m_Desc.BindFlags &&& BIND_UNORDERED_ACCESS) != 0) = true ∧
        (B.m_Desc.Mode = BUFFER_MODE.BUFFER_MODE_STRUCTURED ∨
          B.m_Desc.Mode = BUFFER_MODE.BUFFER_MODE_RAW)) :=
      fun h => hc ⟨bne_iff_ne.mp h.1, h.2⟩
    unfold createDefaultUAV
    rw [if_neg hc2]
    rfl

/-- With an engine that yields a view of the requested type, the block of the
shader-resource view stores such a view when its condition holds and changes
nothing otherwise. -/
theorem createDefaultSRV_ok (B : BufferBase)
    (CreateViewInternal :
      BufferBase → BufferViewDesc → Bool → Except BufferError (Option BufferViewImpl))
    (hC : ∀ (b : BufferBase) (d : BufferViewDesc),
      ∃ v, CreateViewInternal b d true = Except.ok (some v) ∧ v.Desc.ViewType = d.ViewType) :
    (((B.m_Desc.BindFlags &&& BIND_SHADER_RESOURCE) ≠ 0 ∧
        (B.m_Desc.Mode = BUFFER_MODE.BUFFER_MODE_STRUCTURED ∨
          B.m_Desc.Mode = BUFFER_MODE.BUFFER_MODE_RAW)) →
      ∃ v, v.Desc.ViewType = BUFFER_VIEW_TYPE.BUFFER_VIEW_SHADER_RESOURCE ∧
        B.createDefaultSRV CreateViewInternal =
          Except.ok { B with m_pDefaultSRV := some v }) ∧
    (¬ ((B.m_Desc.BindFlags &&& BIND_SHADER_RESOURCE) ≠ 0 ∧
        (B.m_Desc.Mode = BUFFER_MODE.BUFFER_MODE_STRUCTURED ∨
          B.m_Desc.Mode = BUFFER_MODE.BUFFER_MODE_RAW)) →
      B.createDefaultSRV CreateViewInternal = Except.ok B) := by
  constructor
  · intro hc
    have hc2 : ((B.m_Desc.BindFlags &&& BIND_SHADER_RESOURCE) != 0) = true ∧
        (B.m_Desc.Mode = BUFFER_MODE.BUFFER_MODE_STRUCTURED ∨
          B.m_Desc.Mode = BUFFER_MODE.BUFFER_MODE_RAW) := ⟨bne_iff_ne.mpr hc.1, hc.2⟩
    obtain ⟨v, e, t⟩ := hC B { ViewType := BUFFER_VIEW_TYPE.BUFFER_VIEW_SHADER_RESOURCE }
    refine ⟨v, t, ?_⟩
    unfold createDefaultSRV
    rw [if_pos hc2]
    have t2 : (v.Desc.ViewType != BUFFER_VIEW_TYPE.BUFFER_VIEW_SHADER_RESOURCE) = false :=
      bne_eq_false_iff_eq.mpr t
    simp only [e, Except_ok_bind, verifyViewType, throwIf, t2, Bool.false_eq_true, if_false,
      pure_bind]
    rfl
  · intro hc
    have hc2 : ¬ (((B.m_Desc.BindFlags &&& BIND_SHADER_RESOURCE) != 0) = true ∧
        (B.m_Desc.Mode = BUFFER_MODE.BUFFER_MODE_STRUCTURED ∨
          B.m_Desc.Mode = BUFFER_MODE.BUFFER_MODE_RAW)) :=
      fun h => hc ⟨bne_iff_ne.mp h.1, h.2⟩
    unfold createDefaultSRV
    rw [if_neg hc2]
    rfl

end BufferBase

/-- Claim C21, amended: when the engine's `CreateViewInternal` yields a view of
the requested type, `CreateDefaultViews` succeeds and keeps the description;
afterwards `GetDefaultView` returns a non-null shader-resource view when
`BIND_SHADER_RESOURCE` is set and the mode is structured or raw, and a non-null
unordered-access view when `BIND_UNORDERED_ACCESS` is set and the mode is
structured or raw; in every other case the default view of that type is the
one the buffer had before. -/
theorem BufferBase_CreateDefaultViews_spec (B : BufferBase)
    (CreateViewInternal :
      BufferBase → BufferViewDesc → Bool → Except BufferError (Option BufferViewImpl))
    (hC : ∀ (b : BufferBase) (d : BufferViewDesc),
      ∃ v, CreateViewInternal b d true = Except.ok (some v) ∧ v.Desc.ViewType = d.ViewType) :
    ∃ B2, B.CreateDefaultViews CreateViewInternal = Except.ok B2 ∧ B2.m_Desc = B.m_Desc ∧
      (((B.m_Desc.BindFlags &&& BIND_SHADER_RESOURCE) ≠ 0 ∧
          (B.m_Desc.Mode = BUFFER_MODE.BUFFER_MODE_STRUCTURED ∨
            B.m_Desc.Mode = BUFFER_MODE.BUFFER_MODE_RAW)) →
        ∃ v, B2.GetDefaultView BUFFER_VIEW_TYPE.BUFFER_VIEW_SHADER_RESOURCE =
            Except.ok (some v) ∧
          v.Desc.ViewType = BUFFER_VIEW_TYPE.BUFFER_VIEW_SHADER_RESOURCE) ∧
      (((B.m_Desc.BindFlags &&& BIND_UNORDERED_ACCESS) ≠ 0 ∧
          (B.m_Desc.Mode = BUFFER_MODE.BUFFER_MODE_STRUCTURED ∨
            B.m_Desc.Mode = BUFFER_MODE.BUFFER_MODE_RAW)) →
        ∃ v, B2.GetDefaultView BUFFER_VIEW_TYPE.BUFFER_VIEW_UNORDERED_ACCESS =
            Except.ok (some v) ∧
          v.Desc.ViewType = BUFFER_VIEW_TYPE.BUFFER_VIEW_UNORDERED_ACCESS) ∧
      (¬ ((B.m_Desc.BindFlags &&& BIND_SHADER_RESOURCE) ≠ 0 ∧
          (B.m_Desc.Mode = BUFFER_MODE.BUFFER_MODE_STRUCTURED ∨
            B.m_Desc.Mode = BUFFER_MODE.BUFFER_MODE_RAW)) →
        B2.GetDefaultView BUFFER_VIEW_TYPE.BUFFER_VIEW_SHADER_RESOURCE =
          Except.ok B.m_pDefaultSRV) ∧
      (¬ ((B.m_Desc.BindFlags &&& BIND_UNORDERED_ACCESS) ≠ 0 ∧
          (B.m_Desc.Mode = BUFFER_MODE.BUFFER_MODE_STRUCTURED ∨
            B.m_Desc.Mode = BUFFER_MODE.BUFFER_MODE_RAW)) →
        B2.GetDefaultView BUFFER_VIEW_TYPE.BUFFER_VIEW_UNORDERED_ACCESS =
          Except.ok B.m_pDefaultUAV) := by
  obtain ⟨u1, u2⟩ := BufferBase.createDefaultUAV_ok B CreateViewInternal hC
  unfold BufferBase.CreateDefaultViews
  by_cases hu : (B.m_Desc.BindFlags &&& BIND_UNORDERED_ACCESS) ≠ 0 ∧
      (B.m_Desc.Mode = BUFFER_MODE.BUFFER_MODE_STRUCTURED ∨
        B.m_Desc.Mode = BUFFER_MODE.BUFFER_MODE_RAW)
  · obtain ⟨v1, t1, e1⟩ := u1 hu
    obtain ⟨s1, s2⟩ := BufferBase.createDefaultSRV_ok { B with m_pDefaultUAV := some v1 }
      CreateViewInternal hC
    rw [e1, Except_ok_bind]
    by_cases hs : (B.m_Desc.BindFlags &&& BIND_SHADER_RESOURCE) ≠ 0 ∧
        (B.m_Desc.Mode = BUFFER_MODE.BUFFER_MODE_STRUCTURED ∨
          B.m_Desc.Mode = BUFFER_MODE.BUFFER_MODE_RAW)
    · obtain ⟨v2, t2, e2⟩ := s1 hs
      exact ⟨_, e2, rfl, fun _ => ⟨v2, rfl, t2⟩, fun _ => ⟨v1, rfl, t1⟩,
        fun h => absurd hs h, fun h => absurd hu h⟩
    · exact ⟨_, s2 hs, rfl, fun h => absurd h hs, fun _ => ⟨v1, rfl, t1⟩,
        fun _ => rfl, fun h => absurd hu h⟩
  · obtain ⟨s1, s2⟩ := BufferBase.createDefaultSRV_ok B CreateViewInternal hC
    rw [u2 hu, Except_ok_bind]
    by_cases hs : (B.m_Desc.BindFlags &&& BIND_SHADER_RESOURCE) ≠ 0 ∧
        (B.m_Desc.Mode = BUFFER_MODE.BUFFER_MODE_STRUCTURED ∨
          B.m_Desc.Mode = BUFFER_MODE.BUFFER_MODE_RAW)
    · obtain ⟨v2, t2, e2⟩ := s1 hs
      exact ⟨_, e2, rfl, fun _ => ⟨v2, rfl, t2⟩, fun h => absurd h hu,
        fun h => absurd hs h, fun _ => rfl⟩
    · exact ⟨_, s2 hs, rfl, fun h => absurd h hs, fun h => absurd h hu,
        fun _ => rfl, fun _ => rfl⟩

/-- Witness of C21: the structured buffer with both binding flags gets both
default views. -/
theorem BufferBase_CreateDefaultViews_spec_witness :
    ∃ B2, exampleStructuredBuffer.CreateDefaultViews exampleCreateViewInternal = Except.ok B2 ∧
      (∃ v, B2.GetDefaultView BUFFER_VIEW_TYPE.BUFFER_VIEW_SHADER_RESOURCE =
          Except.ok (some v) ∧
        v.Desc.ViewType = BUFFER_VIEW_TYPE.BUFFER_VIEW_SHADER_RESOURCE) ∧
      (∃ v, B2.GetDefaultView BUFFER_VIEW_TYPE.BUFFER_VIEW_UNORDERED_ACCESS =
          Except.ok (some v) ∧
        v.Desc.ViewType = BUFFER_VIEW_TYPE.BUFFER_VIEW_UNORDERED_ACCESS) := by
  obtain ⟨B2, h1, _, h3, h4, _⟩ := BufferBase_CreateDefaultViews_spec exampleStructuredBuffer
    exampleCreateViewInternal (fun _ d => ⟨⟨d⟩, rfl, rfl⟩)
  exact ⟨B2, h1, h3 ⟨by decide, Or.inl rfl⟩, h4 ⟨by decide, Or.inl rfl⟩⟩

/-- Counterexample to C21 as stated: the formatted buffer has
`BIND_SHADER_RESOURCE` set and an engine that creates every requested view, yet
`CreateDefaultViews` creates no view and `GetDefaultView` returns the null
shader-resource view. -/
theorem BufferBase_CreateDefaultViews_formatted_no_view :
    (exampleFormattedBuffer.m_Desc.BindFlags &&& BIND_SHADER_RESOURCE) ≠ 0 ∧
    (∀ (b : BufferBase) (d : BufferViewDesc),
      ∃ v, exampleCreateViewInternal b d true = Except.ok (some v) ∧
        v.Desc.ViewType = d.ViewType) ∧
    exampleFormattedBuffer.CreateDefaultViews exampleCreateViewInternal =
      Except.ok exampleFormattedBuffer ∧
    exampleFormattedBuffer.GetDefaultView BUFFER_VIEW_TYPE.BUFFER_VIEW_SHADER_RESOURCE =
      Except.ok none :=
  ⟨by decide, fun _ d => ⟨⟨d⟩, rfl, rfl⟩, rfl, rfl⟩

/-! ### Queue families -/

namespace VulkanPhysicalDevice

/-- A loop over families none of which satisfies the condition leaves
`FamilyInd` unchanged. -/
theorem searchLoop_none (Cond : VkQueueFamilyProperties → Bool) :
    ∀ (l : List VkQueueFamilyProperties) (i d : Nat), (∀ P ∈ l, Cond P = false) →
      searchLoop Cond l i d = d := by
  intro l
  induction l with
  | nil => intro i d _; rfl
  | cons a l ih =>
    intro i d h
    have ha : Cond a = false := h a (List.mem_cons_self a l)
    simp only [searchLoop, ha, Bool.false_eq_true, if_false]
    exact ih (i + 1) d (fun P hP => h P (List.mem_cons_of_mem a hP))

/-- A loop over families one of which satisfies the condition stops at the
first such family. -/
theorem searchLoop_some (Cond : VkQueueFamilyProperties → Bool) :
    ∀ (l : List VkQueueFamilyProperties) (i d : Nat), (∃ P ∈ l, Cond P = true) →
      ∃ k P, l[k]? = some P ∧ Cond P = true ∧
        (∀ j Pj, j < k → l[j]? = some Pj → Cond Pj = false) ∧
        searchLoop Cond l i d = i + k := by
  intro l
  induction l with
  | nil => intro i d h; obtain ⟨P, hP, _⟩ := h; cases hP
  | cons a l ih =>
    intro i d h
    cases ha : Cond a
    · have h2 : ∃ P ∈ l, Cond P = true := by
        obtain ⟨P, hP, hc⟩ := h
        rcases List.mem_cons.mp hP with rfl | hP
        · rw [ha] at hc; cases hc
        · exact ⟨P, hP, hc⟩
      obtain ⟨k, P, hk, hc, hmin, hres⟩ := ih (i + 1) d h2
      refine ⟨k + 1, P, by simpa using hk, hc, ?_, ?_⟩
      · intro j Pj hj hPj
        cases j with
        | zero =>
          simp only [List.getElem?_cons_zero, Option.some.injEq] at hPj
          rw [← hPj]; exact ha
        | succ j =>
          simp only [List.getElem?_cons_succ] at hPj
          exact hmin j Pj (by omega) hPj
      · simp only [searchLoop, ha, Bool.false_eq_true, if_false]
        rw [hres]; omega
    · refine ⟨0, a, List.getElem?_cons_zero, ha, fun j _ hj => by omega, ?_⟩
      simp only [searchLoop, ha, if_true, Nat.add_zero]

/-- A family whose flags match exactly has all required flags. -/
theorem matchesExactly_hasAllFlags (Q : Nat) (P : VkQueueFamilyProperties)
    (h : matchesExactly (requiredFlags Q) (optionalFlags Q) P = true) :
    hasAllFlags (requiredFlags Q) P = true := by
  simp only [matchesExactly, Bool.or_eq_true, beq_iff_eq] at h
  simp only [hasAllFlags, beq_iff_eq]
  rcases h with h | h
  · rw [h, Nat.and_self]
  · rw [h]
    unfold optionalFlags requiredFlags
    split
    · apply Nat.eq_of_testBit_eq
      intro k
      simp only [Nat.testBit_and, Nat.testBit_or]
      cases (Q.testBit k && (4294967295 ^^^ VK_QUEUE_TRANSFER_BIT).testBit k) <;>
        cases (VK_QUEUE_TRANSFER_BIT.testBit k) <;> rfl
    · rw [Nat.and_self]

/-- A family that has all required flags, of which one is the graphics or the
compute flag, has the graphics or the compute flag. -/
theorem hasAllFlags_graphics_or_compute (R : Nat) (P : VkQueueFamilyProperties)
    (h : hasAllFlags R P = true)
    (hR : (R &&& (VK_QUEUE_GRAPHICS_BIT ||| VK_QUEUE_COMPUTE_BIT)) ≠ 0) :
    (P.queueFlags &&& (VK_QUEUE_GRAPHICS_BIT ||| VK_QUEUE_COMPUTE_BIT)) ≠ 0 := by
  simp only [hasAllFlags, beq_iff_eq] at h
  intro h0
  apply hR
  rw [← h, Nat.and_comm P.queueFlags R, Nat.and_assoc, h0, Nat.and_zero]

/-- The result of `FindQueueFamily` when its loops select the family `k`: the
index `k` is returned; the debug assertion logs nothing when the family reports
the granularity `(1, 1, 1)`. -/
theorem FindQueueFamily_selected (self : VulkanPhysicalDevice) (Q k : Nat)
    (P : VkQueueFamilyProperties)
    (hlen : self.m_QueueFamilyProperties.length < Uint32Size)
    (hk : self.m_QueueFamilyProperties[k]? = some P)
    (hsel : (if searchLoop (matchesExactly (requiredFlags Q) (optionalFlags Q))
          self.m_QueueFamilyProperties 0 InvalidFamilyInd == InvalidFamilyInd then
        searchLoop (hasAllFlags (requiredFlags Q)) self.m_QueueFamilyProperties 0
          (searchLoop (matchesExactly (requiredFlags Q) (optionalFlags Q))
            self.m_QueueFamilyProperties 0 InvalidFamilyInd)
      else searchLoop (matchesExactly (requiredFlags Q) (optionalFlags Q))
        self.m_QueueFamilyProperties 0 InvalidFamilyInd) = k) :
    ∃ Reports, self.FindQueueFamily Q = Except.ok (k, Reports) ∧
      (P.minImageTransferGranularity = ⟨1, 1, 1⟩ → Reports = []) := by
  have hklt : k < self.m_QueueFamilyProperties.length := by
    by_contra hn
    rw [List.getElem?_eq_none (by omega)] at hk
    cases hk
  have hne : (k != InvalidFamilyInd) = true := by
    simp only [bne_iff_ne, InvalidFamilyInd]
    simp only [Uint32Size] at hlen
    omega
  unfold FindQueueFamily
  simp only [hsel, hne, if_true, hk]
  by_cases hR : ((requiredFlags Q &&& (VK_QUEUE_GRAPHICS_BIT ||| VK_QUEUE_COMPUTE_BIT)) != 0) = true
  · simp only [hR, if_true]
    by_cases hgr : (P.minImageTransferGranularity.width == 1 &&
        P.minImageTransferGranularity.height == 1 &&
        P.minImageTransferGranularity.depth == 1) = true
    · rw [if_pos hgr]
      exact ⟨[], rfl, fun _ => rfl⟩
    · rw [if_neg hgr]
      refine ⟨[VulkanReport.GranularityNotOne], rfl, fun h => ?_⟩
      rw [h] at hgr
      exact absurd rfl hgr
  · simp only [hR, Bool.false_eq_true, if_false]
    exact ⟨[], rfl, fun _ => rfl⟩

/-- The result of `FindQueueFamily` when no family has all required flags. -/
theorem FindQueueFamily_none (self : VulkanPhysicalDevice) (Q : Nat)
    (h : ∀ P ∈ self.m_QueueFamilyProperties, hasAllFlags (requiredFlags Q) P = false) :
    self.FindQueueFamily Q = Except.error VulkanError.FailedToFindQueueFamily := by
  have h1 : ∀ P ∈ self.m_QueueFamilyProperties,
      matchesExactly (requiredFlags Q) (optionalFlags Q) P = false := by
    intro P hP
    cases hm : matchesExactly (requiredFlags Q) (optionalFlags Q) P
    · rfl
    · have h2 := h P hP
      rw [matchesExactly_hasAllFlags Q P hm] at h2
      exact h2
  unfold FindQueueFamily
  simp only [searchLoop_none _ _ _ _ h1, searchLoop_none _ _ _ _ h, beq_self_eq_true, if_true,
    bne_self_eq_false, Bool.false_eq_true, if_false]
  rfl

/-- The outcome of `FindQueueFamily`: the first family that matches exactly
when there is one, else the first family that has all required flags when
there is one. -/
theorem FindQueueFamily_outcome (self : VulkanPhysicalDevice) (Q : Nat)
    (hlen : self.m_QueueFamilyProperties.length < Uint32Size) :
    ((∃ P ∈ self.m_QueueFamilyProperties,
        matchesExactly (requiredFlags Q) (optionalFlags Q) P = true) →
      ∃ k P Reports, self.FindQueueFamily Q = Except.ok (k, Reports) ∧
        self.m_QueueFamilyProperties[k]? = some P ∧
        matchesExactly (requiredFlags Q) (optionalFlags Q) P = true ∧
        (P.minImageTransferGranularity = ⟨1, 1, 1⟩ → Reports = []) ∧
        ∀ j Pj, j < k → self.m_QueueFamilyProperties[j]? = some Pj →
          matchesExactly (requiredFlags Q) (optionalFlags Q) Pj = false) ∧
    ((∀ P ∈ self.m_QueueFamilyProperties,
        matchesExactly (requiredFlags Q) (optionalFlags Q) P = false) →
      (∃ P ∈ self.m_QueueFamilyProperties, hasAllFlags (requiredFlags Q) P = true) →
      ∃ k P Reports, self.FindQueueFamily Q = Except.ok (k, Reports) ∧
        self.m_QueueFamilyProperties[k]? = some P ∧
        hasAllFlags (requiredFlags Q) P = true ∧
        (P.minImageTransferGranularity = ⟨1, 1, 1⟩ → Reports = []) ∧
        ∀ j Pj, j < k → self.m_QueueFamilyProperties[j]? = some Pj →
          hasAllFlags (requiredFlags Q) Pj = false) := by
  constructor
  · intro hex
    obtain ⟨k, P, hk, hc, hmin, hres⟩ := searchLoop_some _ _ 0 InvalidFamilyInd hex
    rw [Nat.zero_add] at hres
    have hklt : k < self.m_QueueFamilyProperties.length := by
      by_contra hn
      rw [List.getElem?_eq_none (by omega)] at hk
      cases hk
    have hne : (k == InvalidFamilyInd) = false := by
      simp only [beq_eq_false_iff_ne, ne_eq, InvalidFamilyInd]
      simp only [Uint32Size] at hlen
      omega
    obtain ⟨Reports, e, hrep⟩ := FindQueueFamily_selected self Q k P hlen hk (by
      rw [hres, hne]
      rfl)
    exact ⟨k, P, Reports, e, hk, hc, hrep, hmin⟩
  · intro hno hex
    obtain ⟨k, P, hk, hc, hmin, hres⟩ := searchLoop_some _ _ 0 InvalidFamilyInd hex
    rw [Nat.zero_add] at hres
    obtain ⟨Reports, e, hrep⟩ := FindQueueFamily_selected self Q k P hlen hk (by
      rw [searchLoop_none _ _ _ _ hno, hres]
      rfl)
    exact ⟨k, P, Reports, e, hk, hc, hrep, hmin⟩

end VulkanPhysicalDevice

namespace VulkanPhysicalDevice

/-- The graphics or the compute bit is requested exactly when bit 0 or bit 1
of the flags is set. -/
theorem graphics_or_compute_iff (Q : Nat) :
    (Q &&& (VK_QUEUE_GRAPHICS_BIT ||| VK_QUEUE_COMPUTE_BIT)) ≠ 0 ↔
      (Q.testBit 0 || Q.testBit 1) = true := by
  have h3 : (VK_QUEUE_GRAPHICS_BIT ||| VK_QUEUE_COMPUTE_BIT) = 2 ^ 2 - 1 := by decide
  rw [h3, Nat.and_pow_two_sub_one_eq_mod, Nat.testBit_zero, Nat.testBit_succ, Nat.testBit_zero]
  simp only [Bool.or_eq_true, decide_eq_true_eq]
  omega

/-- The bits of the required flags: those of the request, without the transfer
bit when the graphics or the compute bit is requested. -/
theorem requiredFlags_testBit (Q : Nat) (hQ : Q < Uint32Size) (k : Nat) :
    (requiredFlags Q).testBit k =
      (Q.testBit k && !(decide (k = 2) && (Q.testBit 0 || Q.testBit 1))) := by
  have hhi : 32 ≤ k → Q.testBit k = false := by
    intro hk
    apply Nat.testBit_lt_two_pow
    calc Q < 2 ^ 32 := hQ
      _ ≤ 2 ^ k := Nat.pow_le_pow_right (by decide) hk
  have h1 : (4294967295 : Nat) = 2 ^ 32 - 1 := by decide
  have h2 : VK_QUEUE_TRANSFER_BIT = 2 ^ 2 := by decide
  unfold requiredFlags
  by_cases hgc : (Q &&& (VK_QUEUE_GRAPHICS_BIT ||| VK_QUEUE_COMPUTE_BIT)) ≠ 0
  · have hb := (graphics_or_compute_iff Q).mp hgc
    rw [if_pos (bne_iff_ne.mpr hgc), Nat.testBit_and, Nat.testBit_xor, h1, h2,
      Nat.testBit_two_pow_sub_one, Nat.testBit_two_pow, hb, Bool.and_true]
    by_cases hk : k < 32
    · by_cases hk2 : k = 2
      · subst hk2; simp
      · have : ¬ 2 = k := fun h => hk2 h.symm
        simp [hk, hk2, this]
    · rw [hhi (by omega)]
      rfl
  · have hb : (Q.testBit 0 || Q.testBit 1) = false := by
      cases h : (Q.testBit 0 || Q.testBit 1)
      · rfl
      · exact absurd ((graphics_or_compute_iff Q).mpr h) hgc
    have hgc2 : ((Q &&& (VK_QUEUE_GRAPHICS_BIT ||| VK_QUEUE_COMPUTE_BIT)) != 0) = false := by
      simpa using hgc
    rw [hgc2, hb]
    simp

/-- A family has all required flags exactly when every bit of the required
flags is a bit of the flags of the family. -/
theorem hasAllFlags_iff_testBit (R : Nat) (P : VkQueueFamilyProperties) :
    hasAllFlags R P = true ↔ ∀ k, R.testBit k = true → P.queueFlags.testBit k = true := by
  simp only [hasAllFlags, beq_iff_eq]
  constructor
  · intro h k hk
    have := congrArg (fun x => Nat.testBit x k) h
    simp only [Nat.testBit_and, hk, Bool.and_true] at this
    exact this
  · intro h
    apply Nat.eq_of_testBit_eq
    intro k
    rw [Nat.testBit_and]
    cases hk : R.testBit k
    · rw [Bool.and_false]
    · rw [h k hk]
      rfl

/-- When some family has all required flags, `FindQueueFamily` returns the
index of a family that has all required flags. -/
theorem FindQueueFamily_some (self : VulkanPhysicalDevice) (Q : Nat)
    (hlen : self.m_QueueFamilyProperties.length < Uint32Size)
    (hex : ∃ P ∈ self.m_QueueFamilyProperties, hasAllFlags (requiredFlags Q) P = true) :
    ∃ k P Reports, self.FindQueueFamily Q = Except.ok (k, Reports) ∧
      self.m_QueueFamilyProperties[k]? = some P ∧
      hasAllFlags (requiredFlags Q) P = true ∧
      (P.minImageTransferGranularity = ⟨1, 1, 1⟩ → Reports = []) := by
  obtain ⟨o1, o2⟩ := FindQueueFamily_outcome self Q hlen
  by_cases hx : ∃ P ∈ self.m_QueueFamilyProperties,
      matchesExactly (requiredFlags Q) (optionalFlags Q) P = true
  · obtain ⟨k, P, Reports, e, hk, hc, hrep, _⟩ := o1 hx
    exact ⟨k, P, Reports, e, hk, matchesExactly_hasAllFlags Q P hc, hrep⟩
  · have hno : ∀ P ∈ self.m_QueueFamilyProperties,
        matchesExactly (requiredFlags Q) (optionalFlags Q) P = false := by
      intro P hP
      cases hm : matchesExactly (requiredFlags Q) (optionalFlags Q) P
      · rfl
      · exact absurd ⟨P, hP, hm⟩ hx
    obtain ⟨k, P, Reports, e, hk, hc, hrep, _⟩ := o2 hno hex
    exact ⟨k, P, Reports, e, hk, hc, hrep⟩

end VulkanPhysicalDevice

/-- Claim C28: let `R` be the required flags, the 32-bit request without the
transfer bit when it contains the graphics or the compute bit. `FindQueueFamily`
throws exactly when no family has all bits of `R`, and it fails in no other
way; otherwise it returns an index below the number of families whose family
has all bits of `R`, whatever granularity the families report. -/
theorem VulkanPhysicalDevice_FindQueueFamily_throws_iff (self : VulkanPhysicalDevice)
    (Q : Nat) (hQ : Q < Uint32Size)
    (hlen : self.m_QueueFamilyProperties.length < Uint32Size) :
    (∀ k, (VulkanPhysicalDevice.requiredFlags Q).testBit k =
      (Q.testBit k && !(decide (k = 2) && (Q.testBit 0 || Q.testBit 1)))) ∧
    (self.FindQueueFamily Q = Except.error VulkanError.FailedToFindQueueFamily ↔
      ∀ P ∈ self.m_QueueFamilyProperties,
        ¬ ∀ k, (VulkanPhysicalDevice.requiredFlags Q).testBit k = true →
          P.queueFlags.testBit k = true) ∧
    ((∃ e, self.FindQueueFamily Q = Except.error e) ↔
      ∀ P ∈ self.m_QueueFamilyProperties,
        ¬ ∀ k, (VulkanPhysicalDevice.requiredFlags Q).testBit k = true →
          P.queueFlags.testBit k = true) ∧
    ((∃ P ∈ self.m_QueueFamilyProperties,
        ∀ k, (VulkanPhysicalDevice.requiredFlags Q).testBit k = true →
          P.queueFlags.testBit k = true) →
      ∃ i P Reports, self.FindQueueFamily Q = Except.ok (i, Reports) ∧
        i < self.m_QueueFamilyProperties.length ∧
        self.m_QueueFamilyProperties[i]? = some P ∧
        ∀ k, (VulkanPhysicalDevice.requiredFlags Q).testBit k = true →
          P.queueFlags.testBit k = true) := by
  have none_iff : (∀ P ∈ self.m_QueueFamilyProperties,
      ¬ ∀ k, (VulkanPhysicalDevice.requiredFlags Q).testBit k = true →
        P.queueFlags.testBit k = true) ↔
      ∀ P ∈ self.m_QueueFamilyProperties,
        VulkanPhysicalDevice.hasAllFlags (VulkanPhysicalDevice.requiredFlags Q) P = false := by
    constructor
    · intro h P hP
      cases hc : VulkanPhysicalDevice.hasAllFlags (VulkanPhysicalDevice.requiredFlags Q) P
      · rfl
      · exact absurd ((VulkanPhysicalDevice.hasAllFlags_iff_testBit _ P).mp hc) (h P hP)
    · intro h P hP hb
      have := (VulkanPhysicalDevice.hasAllFlags_iff_testBit _ P).mpr hb
      rw [h P hP] at this
      cases this
  have err_none : (∃ e, self.FindQueueFamily Q = Except.error e) →
      ∀ P ∈ self.m_QueueFamilyProperties,
        VulkanPhysicalDevice.hasAllFlags (VulkanPhysicalDevice.requiredFlags Q) P = false := by
    rintro ⟨e, he⟩ P hP
    cases hc : VulkanPhysicalDevice.hasAllFlags (VulkanPhysicalDevice.requiredFlags Q) P
    · rfl
    · obtain ⟨k, P2, Reports, hr, _⟩ :=
        VulkanPhysicalDevice.FindQueueFamily_some self Q hlen ⟨P, hP, hc⟩
      rw [hr] at he
      cases he
  refine ⟨VulkanPhysicalDevice.requiredFlags_testBit Q hQ,
    ⟨fun h => none_iff.mpr (err_none ⟨_, h⟩),
      fun h => VulkanPhysicalDevice.FindQueueFamily_none self Q (none_iff.mp h)⟩,
    ⟨fun h => none_iff.mpr (err_none h),
      fun h => ⟨_, VulkanPhysicalDevice.FindQueueFamily_none self Q (none_iff.mp h)⟩⟩, ?_⟩
  rintro ⟨P, hP, hb⟩
  obtain ⟨k, P2, Reports, hr, hk, hc, _⟩ := VulkanPhysicalDevice.FindQueueFamily_some self Q hlen
    ⟨P, hP, (VulkanPhysicalDevice.hasAllFlags_iff_testBit _ P).mpr hb⟩
  have hklt : k < self.m_QueueFamilyProperties.length := by
    by_contra hn
    rw [List.getElem?_eq_none (by omega)] at hk
    cases hk
  exact ⟨k, P2, Reports, hr, hklt, hk, (VulkanPhysicalDevice.hasAllFlags_iff_testBit _ P2).mp hc⟩

/-- Witness of C28: on the example device a request for the sparse-binding
bit `8` throws, and no family has that bit; on the device whose graphics family
reports the granularity `(2, 2, 2)` a request for graphics returns the index 0
with the message of the debug assertion. -/
theorem VulkanPhysicalDevice_FindQueueFamily_throws_iff_witness :
    (8 : Nat) < Uint32Size ∧ exampleDevice.m_QueueFamilyProperties.length < Uint32Size ∧
    exampleDevice.FindQueueFamily 8 = Except.error VulkanError.FailedToFindQueueFamily ∧
    (∀ P ∈ exampleDevice.m_QueueFamilyProperties,
      ¬ ∀ k, (VulkanPhysicalDevice.requiredFlags 8).testBit k = true →
        P.queueFlags.testBit k = true) ∧
    exampleCoarseDevice.FindQueueFamily 1 =
      Except.ok (0, [VulkanReport.GranularityNotOne]) :=
  ⟨by decide, by decide, rfl,
    (VulkanPhysicalDevice_FindQueueFamily_throws_iff exampleDevice 8 (by decide)
      (by decide)).2.1.mp rfl, rfl⟩

/-- Claim C29: `QueueFlagsOpt` is the required flags `R` with the transfer bit
when graphics or compute is requested, and `R` otherwise. When some family has
flags equal to `R` or to `QueueFlagsOpt`, `FindQueueFamily` returns the lowest
index of such a family, whatever the families before it contain; when there is
none and some family has all bits of `R`, it returns the lowest index of a
family that has all bits of `R`. -/
theorem VulkanPhysicalDevice_FindQueueFamily_prefers_exact (self : VulkanPhysicalDevice)
    (Q : Nat) (hlen : self.m_QueueFamilyProperties.length < Uint32Size) :
    (VulkanPhysicalDevice.optionalFlags Q =
      if (Q &&& (VK_QUEUE_GRAPHICS_BIT ||| VK_QUEUE_COMPUTE_BIT)) ≠ 0 then
        VulkanPhysicalDevice.requiredFlags Q ||| VK_QUEUE_TRANSFER_BIT
      else VulkanPhysicalDevice.requiredFlags Q) ∧
    ((∃ P ∈ self.m_QueueFamilyProperties,
        P.queueFlags = VulkanPhysicalDevice.requiredFlags Q ∨
          P.queueFlags = VulkanPhysicalDevice.optionalFlags Q) →
      ∃ i P Reports, self.FindQueueFamily Q = Except.ok (i, Reports) ∧
        self.m_QueueFamilyProperties[i]? = some P ∧
        (P.queueFlags = VulkanPhysicalDevice.requiredFlags Q ∨
          P.queueFlags = VulkanPhysicalDevice.optionalFlags Q) ∧
        ∀ j Pj, j < i → self.m_QueueFamilyProperties[j]? = some Pj →
          ¬ (Pj.queueFlags = VulkanPhysicalDevice.requiredFlags Q ∨
            Pj.queueFlags = VulkanPhysicalDevice.optionalFlags Q)) ∧
    ((∀ P ∈ self.m_QueueFamilyProperties,
        ¬ (P.queueFlags = VulkanPhysicalDevice.requiredFlags Q ∨
          P.queueFlags = VulkanPhysicalDevice.optionalFlags Q)) →
      (∃ P ∈ self.m_QueueFamilyProperties,
        P.queueFlags &&& VulkanPhysicalDevice.requiredFlags Q =
          VulkanPhysicalDevice.requiredFlags Q) →
      ∃ i P Reports, self.FindQueueFamily Q = Except.ok (i, Reports) ∧
        self.m_QueueFamilyProperties[i]? = some P ∧
        P.queueFlags &&& VulkanPhysicalDevice.requiredFlags Q =
          VulkanPhysicalDevice.requiredFlags Q ∧
        ∀ j Pj, j < i → self.m_QueueFamilyProperties[j]? = some Pj →
          Pj.queueFlags &&& VulkanPhysicalDevice.requiredFlags Q ≠
            VulkanPhysicalDevice.requiredFlags Q) := by
  have hx : ∀ P : VkQueueFamilyProperties,
      VulkanPhysicalDevice.matchesExactly (VulkanPhysicalDevice.requiredFlags Q)
        (VulkanPhysicalDevice.optionalFlags Q) P = true ↔
      (P.queueFlags = VulkanPhysicalDevice.requiredFlags Q ∨
        P.queueFlags = VulkanPhysicalDevice.optionalFlags Q) := by
    intro P
    simp only [VulkanPhysicalDevice.matchesExactly, Bool.or_eq_true, beq_iff_eq]
  have hxf : ∀ P : VkQueueFamilyProperties,
      VulkanPhysicalDevice.matchesExactly (VulkanPhysicalDevice.requiredFlags Q)
        (VulkanPhysicalDevice.optionalFlags Q) P = false ↔
      ¬ (P.queueFlags = VulkanPhysicalDevice.requiredFlags Q ∨
        P.queueFlags = VulkanPhysicalDevice.optionalFlags Q) := by
    intro P
    rw [← hx P, Bool.not_eq_true]
  have ha : ∀ P : VkQueueFamilyProperties,
      VulkanPhysicalDevice.hasAllFlags (VulkanPhysicalDevice.requiredFlags Q) P = true ↔
      P.queueFlags &&& VulkanPhysicalDevice.requiredFlags Q =
        VulkanPhysicalDevice.requiredFlags Q := by
    intro P
    simp only [VulkanPhysicalDevice.hasAllFlags, beq_iff_eq]
  have haf : ∀ P : VkQueueFamilyProperties,
      VulkanPhysicalDevice.hasAllFlags (VulkanPhysicalDevice.requiredFlags Q) P = false ↔
      P.queueFlags &&& VulkanPhysicalDevice.requiredFlags Q ≠
        VulkanPhysicalDevice.requiredFlags Q := by
    intro P
    rw [ne_eq, ← ha P, Bool.not_eq_true]
  obtain ⟨o1, o2⟩ := VulkanPhysicalDevice.FindQueueFamily_outcome self Q hlen
  refine ⟨?_, ?_, ?_⟩
  · unfold VulkanPhysicalDevice.optionalFlags VulkanPhysicalDevice.requiredFlags
    by_cases hgc : (Q &&& (VK_QUEUE_GRAPHICS_BIT ||| VK_QUEUE_COMPUTE_BIT)) ≠ 0
    · rw [if_pos (bne_iff_ne.mpr hgc), if_pos hgc, if_pos (bne_iff_ne.mpr hgc)]
    · have hgc2 :
          ((Q &&& (VK_QUEUE_GRAPHICS_BIT ||| VK_QUEUE_COMPUTE_BIT)) != 0) = false := by
        simpa using hgc
      rw [hgc2, if_neg hgc]
      rfl
  · rintro ⟨P, hP, hc⟩
    obtain ⟨i, P2, Reports, e, hk, hc2, _, hmin⟩ := o1 ⟨P, hP, (hx P).mpr hc⟩
    exact ⟨i, P2, Reports, e, hk, (hx P2).mp hc2,
      fun j Pj hj hPj => (hxf Pj).mp (hmin j Pj hj hPj)⟩
  · intro hno hex
    obtain ⟨P, hP, hc⟩ := hex
    obtain ⟨i, P2, Reports, e, hk, hc2, _, hmin⟩ :=
      o2 (fun P hP => (hxf P).mpr (hno P hP)) ⟨P, hP, (ha P).mpr hc⟩
    exact ⟨i, P2, Reports, e, hk, (ha P2).mp hc2,
      fun j Pj hj hPj => (haf Pj).mp (hmin j Pj hj hPj)⟩

/-- Witness of C29: a request for compute on the example device returns the
compute-only family 1, though family 0 has the compute bit as well. -/
theorem VulkanPhysicalDevice_FindQueueFamily_prefers_exact_witness :
    exampleDevice.m_QueueFamilyProperties.length < Uint32Size ∧
    exampleDevice.FindQueueFamily 2 = Except.ok (1, []) ∧
    ∃ i P Reports, exampleDevice.FindQueueFamily 2 = Except.ok (i, Reports) ∧
      exampleDevice.m_QueueFamilyProperties[i]? = some P ∧
      (P.queueFlags = VulkanPhysicalDevice.requiredFlags 2 ∨
        P.queueFlags = VulkanPhysicalDevice.optionalFlags 2) ∧
      ∀ j Pj, j < i → exampleDevice.m_QueueFamilyProperties[j]? = some Pj →
        ¬ (Pj.queueFlags = VulkanPhysicalDevice.requiredFlags 2 ∨
          Pj.queueFlags = VulkanPhysicalDevice.optionalFlags 2) :=
  ⟨by decide, rfl,
    (VulkanPhysicalDevice_FindQueueFamily_prefers_exact exampleDevice 2 (by decide)).2.1
      ⟨⟨2, 8, 64, ⟨1, 1, 1⟩⟩, by decide, Or.inl (by decide)⟩⟩

/-! ### Access flags as strings -/

/-- The lowest set bit of a non-zero 32-bit value: `Flags & ~(Flags - 1)` is
that bit alone and `Flags & (Flags - 1)` is the value without it. -/
theorem lowest_bit_spec (n : Nat) (hn : n ≠ 0) (h32 : n < 2 ^ 32) :
    ∃ k, k < 32 ∧ n.testBit k = true ∧ (∀ j, j < k → n.testBit j = false) ∧
      n &&& (4294967295 ^^^ (n - 1)) = 2 ^ k ∧
      (∀ j, (n &&& (n - 1)).testBit j = (n.testBit j && decide (j ≠ k))) ∧
      n &&& (n - 1) < n := by
  obtain ⟨k, m, hodd, hnm⟩ := Nat.exists_eq_two_pow_mul_odd hn
  obtain ⟨a, rfl⟩ := hodd
  have hpos : 0 < 2 ^ k := Nat.two_pow_pos k
  have e1 : n = 2 ^ (k + 1) * a + 2 ^ k := by rw [hnm]; ring
  have e2 : n - 1 = 2 ^ (k + 1) * a + (2 ^ k - 1) := by rw [e1]; omega
  have hlt1 : 2 ^ k < 2 ^ (k + 1) := Nat.pow_lt_pow_right (by decide) (by omega)
  have hlt2 : 2 ^ k - 1 < 2 ^ (k + 1) := by omega
  have tn : ∀ j, n.testBit j =
      if j < k + 1 then decide (k = j) else a.testBit (j - (k + 1)) := by
    intro j
    rw [e1, Nat.testBit_mul_pow_two_add a hlt1 j, Nat.testBit_two_pow]
  have tn1 : ∀ j, (n - 1).testBit j =
      if j < k + 1 then decide (j < k) else a.testBit (j - (k + 1)) := by
    intro j
    rw [e2, Nat.testBit_mul_pow_two_add a hlt2 j, Nat.testBit_two_pow_sub_one]
  have hk : n.testBit k = true := by rw [tn k]; simp
  have hk32 : k < 32 := by
    by_contra hge
    have : n.testBit k = false := by
      apply Nat.testBit_lt_two_pow
      calc n < 2 ^ 32 := h32
        _ ≤ 2 ^ k := Nat.pow_le_pow_right (by decide) (by omega)
    rw [hk] at this
    cases this
  have hhi : ∀ j, 32 ≤ j → n.testBit j = false := by
    intro j hj
    apply Nat.testBit_lt_two_pow
    calc n < 2 ^ 32 := h32
      _ ≤ 2 ^ j := Nat.pow_le_pow_right (by decide) hj
  have hclear : ∀ j, (n &&& (n - 1)).testBit j = (n.testBit j && decide (j ≠ k)) := by
    intro j
    rw [Nat.testBit_and, tn j, tn1 j]
    by_cases hj : j < k + 1
    · simp only [hj, if_true]
      by_cases hjk : j = k
      · subst hjk; simp
      · have : ¬ k = j := fun h => hjk h.symm
        simp [this, hjk]
    · have hjk : j ≠ k := by omega
      simp [hj, hjk]
  refine ⟨k, hk32, hk, ?_, ?_, hclear, ?_⟩
  · intro j hj
    rw [tn j]
    have : ¬ k = j := by omega
    simp [this, show j < k + 1 by omega]
  · apply Nat.eq_of_testBit_eq
    intro j
    have h1 : (4294967295 : Nat) = 2 ^ 32 - 1 := by decide
    rw [Nat.testBit_and, Nat.testBit_xor, h1, Nat.testBit_two_pow_sub_one, Nat.testBit_two_pow]
    by_cases hj32 : j < 32
    · rw [tn j, tn1 j]
      by_cases hj : j < k + 1
      · by_cases hjk : j = k
        · subst hjk; simp [hj32]
        · have h3 : ¬ k = j := fun h => hjk h.symm
          have h4 : j < k := by omega
          simp [hj, h3, h4]
      · have h3 : ¬ k = j := by omega
        simp only [hj, if_false, hj32, decide_True, h3, decide_False]
        cases a.testBit (j - (k + 1)) <;> rfl
    · have h3 : ¬ k = j := by omega
      rw [hhi j (by omega)]
      simp [h3]
  · have hle : n &&& (n - 1) ≤ n - 1 := Nat.and_le_right
    omega

/-- The set bits of a value from a position on, increasing. -/
theorem setBits_eq_filter_range' (n : Nat) :
    setBits n = (List.range' 0 32).filter fun k => n.testBit k := by
  rw [setBits, List.range_eq_range']

/-- The set-bit positions from `lo` on start with the lowest set bit and go on
with the set bits of the value without it. -/
theorem filter_testBit_step (n n2 lo k : Nat) (hlo : lo ≤ k) (hk32 : k < 32)
    (hk : n.testBit k = true) (hlow : ∀ j, j < k → n.testBit j = false)
    (hclear : ∀ j, n2.testBit j = (n.testBit j && decide (j ≠ k))) :
    (List.range' lo (32 - lo)).filter (fun j => n.testBit j) =
      k :: (List.range' (k + 1) (32 - (k + 1))).filter (fun j => n2.testBit j) := by
  have hsplit : List.range' lo (32 - lo) =
      List.range' lo (k - lo) ++ (k :: List.range' (k + 1) (32 - (k + 1))) := by
    have h1 := List.range'_append_1 lo (k - lo) (32 - k)
    have h2 : lo + (k - lo) = k := by omega
    have h3 : 32 - k + (k - lo) = 32 - lo := by omega
    rw [h2, h3] at h1
    rw [← h1]
    congr 1
    have h4 : 32 - k = (32 - (k + 1)) + 1 := by omega
    rw [h4, List.range'_succ]
  rw [hsplit, List.filter_append, List.filter_cons, hk, if_pos rfl]
  have hnil : (List.range' lo (k - lo)).filter (fun j => n.testBit j) = [] := by
    rw [List.filter_eq_nil_iff]
    intro j hj
    have := (List.mem_range'_1.mp hj).2
    rw [hlow j (by omega)]
    simp
  rw [hnil, List.nil_append]
  congr 1
  apply List.filter_congr
  intro j hj
  have := (List.mem_range'_1.mp hj).1
  rw [hclear j]
  have : j ≠ k := by omega
  simp [this]

/-- The loop of `VkAccessFlagsToString` with enough iterations allowed: it runs
once for every set bit from the lowest on, appends the separator and the name
of the bit, and records the bit and its assertion messages. -/
theorem VkAccessFlagsToString_loop_eq :
    ∀ (fuel n lo : Nat) (S : String) (Bits : List Nat) (R : List DebugReport),
      n < fuel → n < 2 ^ 32 → (∀ j, j < lo → n.testBit j = false) →
      VkAccessFlagsToString.loop fuel n S Bits R =
        some
          ((((List.range' lo (32 - lo)).filter fun j => n.testBit j).map fun k => 2 ^ k).foldl
            (fun S b => (if S ≠ "" then S ++ ", " else S) ++ (VkAccessFlagBitToString b).1) S,
           Bits ++ ((List.range' lo (32 - lo)).filter fun j => n.testBit j).map (fun k => 2 ^ k),
           R ++ (((List.range' lo (32 - lo)).filter fun j => n.testBit j).map
            fun k => 2 ^ k).flatMap fun b => (VkAccessFlagBitToString b).2) := by
  intro fuel
  induction fuel with
  | zero => intro n lo S Bits R h; omega
  | succ fuel ih =>
    intro n lo S Bits R hf h32 hlo
    by_cases hn : n = 0
    · subst hn
      have hnil : (List.range' lo (32 - lo)).filter (fun j => (0 : Nat).testBit j) = [] := by
        rw [List.filter_eq_nil_iff]
        intro j _
        simp
      rw [hnil]
      simp [VkAccessFlagsToString.loop]
    · obtain ⟨k, hk32, hk, hlow, hbit, hclear, hlt⟩ := lowest_bit_spec n hn h32
      have hlok : lo ≤ k := by
        by_contra hc
        rw [hlo k (by omega)] at hk
        cases hk
      have hstep := filter_testBit_step n (n &&& (n - 1)) lo k hlok hk32 hk hlow hclear
      have hlo2 : ∀ j, j < k + 1 → (n &&& (n - 1)).testBit j = false := by
        intro j hj
        rw [hclear j]
        by_cases hjk : j = k
        · simp [hjk]
        · rw [hlow j (by omega)]
          rfl
      have hne : (n != 0) = true := by simpa using hn
      rw [VkAccessFlagsToString.loop, if_pos hne]
      simp only [hbit]
      rw [ih (n &&& (n - 1)) (k + 1) _ _ _ (by omega) (by omega) hlo2, hstep]
      simp only [List.map_cons, List.foldl_cons, List.flatMap_cons, List.append_assoc,
        List.singleton_append]

/-- A separated string that is not empty stays so when a name is appended. -/
theorem append_separator_ne_empty (S Name : String) : S ++ ", " ++ Name ≠ "" := by
  intro h
  have := congrArg String.length h
  simp only [String.length_append] at this
  have h2 : (", " : String).length = 2 := by decide
  have h0 : ("" : String).length = 0 := by decide
  omega

/-- Appending separated names to a string that is not empty is
`String.intercalate.go`. -/
theorem foldl_names_eq_go (name : Nat → String) :
    ∀ (bs : List Nat) (S : String), S ≠ "" →
      bs.foldl (fun S b => (if S ≠ "" then S ++ ", " else S) ++ name b) S =
        String.intercalate.go S ", " (bs.map name) := by
  intro bs
  induction bs with
  | nil => intro S _; rfl
  | cons b bs ih =>
    intro S hS
    rw [List.foldl_cons, if_pos hS, ih _ (append_separator_ne_empty S (name b))]
    rfl

/-- Appending separated names, none of them empty, to the empty string joins
them with the separator. -/
theorem foldl_names_eq_intercalate (name : Nat → String) (bs : List Nat)
    (hne : ∀ b ∈ bs, name b ≠ "") :
    bs.foldl (fun S b => (if S ≠ "" then S ++ ", " else S) ++ name b) "" =
      ", ".intercalate (bs.map name) := by
  cases bs with
  | nil => rfl
  | cons b bs =>
    have hb : name b ≠ "" := hne b (List.mem_cons_self b bs)
    rw [List.foldl_cons, if_neg (by simp), String.empty_append, foldl_names_eq_go name bs _ hb]
    rfl

/-- The switch of `VkAccessFlagBitToString` has a case with a name for each of
the 17 lowest bits, and no assertion fails on them. -/
theorem VkAccessFlagBitToString_known (k : Nat) (hk : k < 17) :
    (VkAccessFlagBitToString (2 ^ k)).1 ≠ "" ∧ (VkAccessFlagBitToString (2 ^ k)).2 = [] := by
  interval_cases k <;> exact ⟨by decide, rfl⟩

/-- The `VERIFY` of `VkAccessFlagBitToString` holds for a single bit. -/
theorem VkAccessFlagBitToString_single_bit (k : Nat) :
    2 ^ k ≠ 0 ∧ (2 ^ k &&& (2 ^ k - 1)) = 0 ∧
      DebugReport.SingleBitExpected ∉ (VkAccessFlagBitToString (2 ^ k)).2 := by
  have h0 : 2 ^ k ≠ 0 := Nat.pos_iff_ne_zero.mp (Nat.two_pow_pos k)
  have h1 : (2 ^ k &&& (2 ^ k - 1)) = 0 := by
    apply Nat.eq_of_testBit_eq
    intro j
    rw [Nat.testBit_and, Nat.testBit_two_pow, Nat.testBit_two_pow_sub_one, Nat.zero_testBit]
    by_cases hj : k = j
    · subst hj; simp
    · simp [hj]
  refine ⟨h0, h1, ?_⟩
  unfold VkAccessFlagBitToString
  have hv : (2 ^ k != 0 && (2 ^ k &&& (2 ^ k - 1)) == 0) = true := by
    simp [h0, h1]
  simp only [hv, if_true]
  cases AccessFlagBitCases.lookup (2 ^ k) <;> simp

/-- Claim C30, amended: for every 32-bit `Flags` the loop of
`VkAccessFlagsToString` ends after `popcount(Flags)` iterations, whose values of
`Bit` are the set bits of `Flags` in increasing order, each a single bit, so
that the `VERIFY` of `VkAccessFlagBitToString` never fails; for `Flags = 0` the
result is the empty string; and when `Flags` has only bits that the switch
names (the 17 lowest), no assertion fails and the result is the names of the
set bits, none of them empty, joined by `", "`. -/
theorem VkAccessFlagsToString_spec (Flags : Nat) (h32 : Flags < 2 ^ 32) :
    ∃ S R, VkAccessFlagsToString Flags =
        some (S, (setBits Flags).map (fun k => 2 ^ k), R) ∧
      ((setBits Flags).map (fun k => 2 ^ k)).length = popcount Flags ∧
      (setBits Flags).Pairwise (fun j k => j < k) ∧
      (∀ k, k ∈ setBits Flags ↔ k < 32 ∧ Flags.testBit k = true) ∧
      (∀ b ∈ (setBits Flags).map (fun k => 2 ^ k), b ≠ 0 ∧ b &&& (b - 1) = 0) ∧
      DebugReport.SingleBitExpected ∉ R ∧
      (Flags = 0 → S = "") ∧
      (Flags < 2 ^ 17 →
        R = [] ∧ (∀ k ∈ setBits Flags, accessFlagName k ≠ "") ∧
        S = ", ".intercalate ((setBits Flags).map accessFlagName)) := by
  have hloop := VkAccessFlagsToString_loop_eq (Flags + 1) Flags 0 "" [] [] (by omega) h32
    (fun j hj => by omega)
  rw [Nat.sub_zero, ← List.range_eq_range', List.nil_append, List.nil_append] at hloop
  have hmem : ∀ k, k ∈ setBits Flags ↔ k < 32 ∧ Flags.testBit k = true := by
    intro k
    simp only [setBits, List.mem_filter, List.mem_range]
  refine ⟨_, _, hloop, ?_, ?_, hmem, ?_, ?_, ?_, ?_⟩
  · rw [List.length_map, popcount]
  · exact List.Pairwise.filter _ (List.pairwise_lt_range 32)
  · intro b hb
    obtain ⟨k, _, rfl⟩ := List.mem_map.mp hb
    exact ⟨(VkAccessFlagBitToString_single_bit k).1, (VkAccessFlagBitToString_single_bit k).2.1⟩
  · intro hin
    obtain ⟨b, hb, hr⟩ := List.mem_flatMap.mp hin
    obtain ⟨k, _, rfl⟩ := List.mem_map.mp hb
    exact (VkAccessFlagBitToString_single_bit k).2.2 hr
  · intro h0
    subst h0
    have hnil : (List.range 32).filter (fun j => (0 : Nat).testBit j) = [] := by
      rw [List.filter_eq_nil_iff]
      intro j _
      simp
    rw [hnil]
    rfl
  · intro h17
    have hk17 : ∀ k ∈ setBits Flags, k < 17 := by
      intro k hk
      have hbit := ((hmem k).mp hk).2
      have hge := Nat.testBit_implies_ge hbit
      by_contra hn
      have : 2 ^ 17 ≤ 2 ^ k := Nat.pow_le_pow_right (by decide) (by omega)
      omega
    refine ⟨?_, fun k hk => (VkAccessFlagBitToString_known k (hk17 k hk)).1, ?_⟩
    · rw [List.flatMap_eq_nil_iff]
      intro b hb
      obtain ⟨k, hk, rfl⟩ := List.mem_map.mp hb
      exact (VkAccessFlagBitToString_known k (hk17 k hk)).2
    · have := foldl_names_eq_intercalate (fun b => (VkAccessFlagBitToString b).1)
        ((setBits Flags).map fun k => 2 ^ k) (by
          intro b hb
          obtain ⟨k, hk, rfl⟩ := List.mem_map.mp hb
          exact (VkAccessFlagBitToString_known k (hk17 k hk)).1)
      rw [List.map_map] at this
      exact this

/-- Witness of C30: the flags `0x21` give the names of bit 0 and bit 5 joined by
the separator. -/
theorem VkAccessFlagsToString_spec_witness :
    (0x21 : Nat) < 2 ^ 32 ∧ (0x21 : Nat) < 2 ^ 17 ∧
    VkAccessFlagsToString 0x21 =
      some ("VK_ACCESS_INDIRECT_COMMAND_READ_BIT, VK_ACCESS_SHADER_READ_BIT", [1, 32], []) := by
  refine ⟨by decide, by decide, ?_⟩
  obtain ⟨S, R, h, _, _, _, _, _, _, h17⟩ := VkAccessFlagsToString_spec 0x21 (by decide)
  obtain ⟨hR, _, hS⟩ := h17 (by decide)
  rw [h, hR, hS]
  rfl

/-- Counterexample to C30 as stated: the 32-bit flags `0x20001` have a bit for
which the switch has no case, so the second iteration reports the unexpected
bit and appends the separator and the empty string, and the result ends with
the separator; the flags `0x20000` are not zero and give the empty string. -/
theorem VkAccessFlagsToString_trailing_separator :
    (0x20001 : Nat) < 2 ^ 32 ∧
    VkAccessFlagsToString 0x20001 =
      some ("VK_ACCESS_INDIRECT_COMMAND_READ_BIT, ", [0x1, 0x20000],
        [DebugReport.UnexpectedBit]) ∧
    VkAccessFlagsToString 0x20000 = some ("", [0x20000], [DebugReport.UnexpectedBit]) :=
  ⟨by decide, rfl, rfl⟩

end Diligent
